import Mathlib

/-!
# Counter Air: the rules engine of `counter_air.cc`

A shallow embedding of `CounterAirState` (`counter_air.h`, `counter_air.cc`):
the state record, `DoApplyAction`, `LegalActions`, `IsTerminal`, `Returns`.

Conventions of the embedding.

* The C++ `int` counters and the `Action` move id are mathematical integers
  (`Int`).  Every quantity of the game is a small count; signed overflow is
  undefined in C++ and plays no part in any statement below.
* `board_` is the record `Board` of its eighteen cells `b0 … b17`.  The two
  accesses with a computed index, `board_[attacking_box_]` and
  `board_[attacking_box_ + 1]`, go through `Board.addAt`, which has no result
  outside `0 … 17` (the C++ access is out of bounds there).
* `DoApplyAction` returns `Except Fault State`: `Fault.fatal` is the call of
  `SpielFatalError`, `Fault.outOfBounds` an access outside `board_`.
* The placement loops of `LegalActions` read `for (int i; i <= pool; i++)`:
  the counter has no initialiser.  Its starting value is the explicit
  parameter `i` of `LegalActions`.
* Legal play (`Step`, `Reachable`) takes a move that `LegalActions` offers for
  some starting value of the counter: the source fixes none, and each call may
  start from another value.  `StepZero` and `ReachableZero` are legal play when
  every call starts the counter at `0`, the one start under which the placement
  phases offer the documented list `0, 1, …, pool`.
* `board_zero_` is never read or written by the source and is left out.
-/

namespace CounterAir

/-- The eighteen cells of `board_`:
`0-1` Escort, `2-3` High Strike, `4-5` SEAD, `6-7` Low Strike, `8-9` Intercept,
`10-11` Active SAM, `12-13` Passive SAM, `14-15` Airbase, `16-17` AAA. -/
structure Board where
  b0 : Int
  b1 : Int
  b2 : Int
  b3 : Int
  b4 : Int
  b5 : Int
  b6 : Int
  b7 : Int
  b8 : Int
  b9 : Int
  b10 : Int
  b11 : Int
  b12 : Int
  b13 : Int
  b14 : Int
  b15 : Int
  b16 : Int
  b17 : Int
deriving DecidableEq

/-- The board after `std::fill(board_.begin(), board_.end(), 0)`. -/
def Board.zero : Board :=
  ⟨0, 0, 0, 0, 0, 0, 0, 0, 0, 0, 0, 0, 0, 0, 0, 0, 0, 0⟩

/-- The update `board_[i] += d` for a computed index (`board_[i]--` is
`d = -1`, `board_[i]++` is `d = 1`); no result outside `0 … 17`. -/
def Board.addAt (b : Board) (i : Int) (d : Int) : Option Board :=
  if i = 0 then some { b with b0 := b.b0 + d }
  else if i = 1 then some { b with b1 := b.b1 + d }
  else if i = 2 then some { b with b2 := b.b2 + d }
  else if i = 3 then some { b with b3 := b.b3 + d }
  else if i = 4 then some { b with b4 := b.b4 + d }
  else if i = 5 then some { b with b5 := b.b5 + d }
  else if i = 6 then some { b with b6 := b.b6 + d }
  else if i = 7 then some { b with b7 := b.b7 + d }
  else if i = 8 then some { b with b8 := b.b8 + d }
  else if i = 9 then some { b with b9 := b.b9 + d }
  else if i = 10 then some { b with b10 := b.b10 + d }
  else if i = 11 then some { b with b11 := b.b11 + d }
  else if i = 12 then some { b with b12 := b.b12 + d }
  else if i = 13 then some { b with b13 := b.b13 + d }
  else if i = 14 then some { b with b14 := b.b14 + d }
  else if i = 15 then some { b with b15 := b.b15 + d }
  else if i = 16 then some { b with b16 := b.b16 + d }
  else if i = 17 then some { b with b17 := b.b17 + d }
  else none

/-- Sum of the eighteen cells. -/
def Board.total (b : Board) : Int :=
  b.b0 + b.b1 + b.b2 + b.b3 + b.b4 + b.b5 + b.b6 + b.b7 + b.b8 + b.b9
    + b.b10 + b.b11 + b.b12 + b.b13 + b.b14 + b.b15 + b.b16 + b.b17

/-- Modelled from the spec: the constant `kInvalidPlayer` of the host
framework, the value of `outcome_` while the outcome is undetermined.  Its
declaration (`spiel.h`) is not part of the sources; it is a value different
from `0`, `-1` and `1`, the three values `DoApplyAction` assigns. -/
def kInvalidPlayer : Int := -3

/-- Modelled from the spec: the constant `kTerminalPlayerId` of the host
framework, the terminal sentinel that `CurrentPlayer` returns on a terminal
state. -/
def kTerminalPlayerId : Int := -4

/-- The data members of `CounterAirState` (`counter_air.h`). -/
structure State where
  board_ : Board
  current_player_ : Int
  outcome_ : Int
  current_wave_ : Int
  num_moves_ : Int
  current_phase_ : Int
  blue_hits_ : Int
  red_hits_ : Int
  blue_points_ : Int
  red_points_ : Int
  blue_placeable_fighters_ : Int
  red_placeable_fighters_ : Int
  red_placeable_sams_ : Int
  attacking_box_ : Int
  low_strike_attacks_ : Int
  max_low_strike_attacks_ : Int
  active_sam_attacks_ : Int
  max_active_sam_attacks_ : Int
  passive_sam_attacks_ : Int
  max_passive_sam_attacks_ : Int
  airbase_attacks_ : Int
  max_airbase_attacks_ : Int
  is_uav_ : Bool
  is_attacking_ : Bool
deriving DecidableEq

/-- The state built by the constructor: the member initialisers of
`counter_air.h` and the `std::fill` of the constructor body. -/
def NewInitialState : State where
  board_ := Board.zero
  current_player_ := 0
  outcome_ := kInvalidPlayer
  current_wave_ := 0
  num_moves_ := 0
  current_phase_ := 0
  blue_hits_ := 0
  red_hits_ := 0
  blue_points_ := 0
  red_points_ := 0
  blue_placeable_fighters_ := 10
  red_placeable_fighters_ := 4
  red_placeable_sams_ := 4
  attacking_box_ := 8
  low_strike_attacks_ := 0
  max_low_strike_attacks_ := 0
  active_sam_attacks_ := 0
  max_active_sam_attacks_ := 0
  passive_sam_attacks_ := 0
  max_passive_sam_attacks_ := 0
  airbase_attacks_ := 0
  max_airbase_attacks_ := 0
  is_uav_ := true
  is_attacking_ := true

/-- The two ways `DoApplyAction` ends without a state. -/
inductive Fault where
  | fatal
  | outOfBounds
deriving DecidableEq

/-- The statement `board_[i] += d` on a state, for a computed index `i`. -/
def State.bump (s : State) (i : Int) (d : Int) : Except Fault State :=
  match s.board_.addAt i d with
  | some b => .ok { s with board_ := b }
  | none => .error Fault.outOfBounds

/-- The method `FinalRoundEnd`: `current_wave_ == 5`. -/
def FinalRoundEnd (s : State) : Bool :=
  decide (s.current_wave_ = 5)

/-- The method `IsTerminal`: `outcome_ != kInvalidPlayer || FinalRoundEnd()`. -/
def IsTerminal (s : State) : Bool :=
  decide (s.outcome_ ≠ kInvalidPlayer) || FinalRoundEnd s

/-- The method `CurrentPlayer`: the terminal sentinel on a terminal state,
otherwise `current_player_`. -/
def CurrentPlayer (s : State) : Int :=
  if IsTerminal s then kTerminalPlayerId else s.current_player_

/-- The method `Returns`: the pair of the Blue and the Red return. -/
def Returns (s : State) : Int × Int :=
  if s.outcome_ = 0 then (1, -1)
  else if s.outcome_ = -1 then (0, 0)
  else (-1, 1)

/-- In `DoApplyAction`, `move == 11`: no legal action, the turn changes. -/
def applyPass (s : State) : Except Fault State :=
  let s := { s with current_player_ := 1 - s.current_player_ }
  let s := { s with num_moves_ := s.num_moves_ + 1 }
  let s := { s with is_attacking_ := true }
  if s.num_moves_ > 200 then .error Fault.fatal else .ok s

/-- In `DoApplyAction`, `move == 12`, the branch `current_phase_ == 9`: the next
wave. -/
def nextWave (s : State) : State :=
  let s := { s with current_phase_ := 0 }
  let s := { s with current_wave_ := s.current_wave_ + 1 }
  let s := { s with low_strike_attacks_ := 0 }
  let s := { s with active_sam_attacks_ := 0 }
  let s := { s with passive_sam_attacks_ := 0 }
  let s := { s with airbase_attacks_ := 0 }
  let s := { s with red_placeable_fighters_ :=
    s.board_.b8 + s.board_.b9 + s.board_.b14 }
  let s := { s with blue_placeable_fighters_ :=
    s.blue_placeable_fighters_ + s.board_.b0 + s.board_.b1 + s.board_.b2
      + s.board_.b3 + s.board_.b4 + s.board_.b5 + s.board_.b6 + s.board_.b7 }
  let s := { s with red_placeable_sams_ :=
    s.red_placeable_sams_ + s.board_.b10 + s.board_.b11 + s.board_.b12
      + s.board_.b13 }
  let fighters_in_airbase := s.board_.b15
  let s := { s with board_ := Board.zero }
  { s with board_ := { s.board_ with b14 := fighters_in_airbase } }

/-- In `DoApplyAction`, `move == 12`, the block under `FinalRoundEnd()`: the
outcome from the points and, at a margin of exactly two, from the hits. -/
def decideOutcome (s : State) : State :=
  if s.blue_points_ > s.red_points_ + 2 then { s with outcome_ := 0 }
  else if s.blue_points_ = s.red_points_ + 2 then
    if s.blue_hits_ > s.red_hits_ then { s with outcome_ := 0 }
    else if s.blue_hits_ = s.red_hits_ then { s with outcome_ := -1 }
    else { s with outcome_ := 1 }
  else { s with outcome_ := 1 }

/-- In `DoApplyAction`, `move == 12`: no legal action, the next phase. -/
def applyAdvance (s : State) : State :=
  let s := if s.current_phase_ = 5 then
      { s with max_low_strike_attacks_ := min s.board_.b6 4 }
    else s
  let s := if s.current_phase_ = 6 then
      { s with
        max_active_sam_attacks_ := s.board_.b10 + s.board_.b11
        max_passive_sam_attacks_ := s.board_.b12 + s.board_.b13
        max_airbase_attacks_ := s.board_.b14 + s.board_.b15 }
    else s
  let s := if s.current_phase_ = 9 then nextWave s
    else { s with current_phase_ := s.current_phase_ + 1 }
  let s := { s with is_attacking_ := true }
  let s := { s with current_player_ := 0 }
  if FinalRoundEnd s then decideOutcome s else s

/-- In `DoApplyAction`, `case 0`: place Escort. -/
def phase0 (s : State) (move : Int) : State :=
  { s with
    board_ := { s.board_ with b0 := move }
    blue_placeable_fighters_ := s.blue_placeable_fighters_ - move
    current_phase_ := s.current_phase_ + 1 }

/-- In `DoApplyAction`, `case 1`: place High Strike. -/
def phase1 (s : State) (move : Int) : State :=
  { s with
    board_ := { s.board_ with b2 := move }
    blue_placeable_fighters_ := s.blue_placeable_fighters_ - move
    current_phase_ := s.current_phase_ + 1 }

/-- In `DoApplyAction`, `case 2`: place SEAD, the rest of the pool is Low
Strike. -/
def phase2 (s : State) (move : Int) : State :=
  let s := { s with board_ := { s.board_ with b4 := move } }
  let s := { s with blue_placeable_fighters_ := s.blue_placeable_fighters_ - move }
  let s := { s with board_ := { s.board_ with b6 := s.blue_placeable_fighters_ } }
  let s := { s with blue_placeable_fighters_ := 0 }
  let s := { s with num_moves_ := s.num_moves_ + 1 }
  let s := { s with current_player_ := 1 - s.current_player_ }
  { s with current_phase_ := s.current_phase_ + 1 }

/-- In `DoApplyAction`, `case 3`: place Intercept, the rest of the pool is
Airbase. -/
def phase3 (s : State) (move : Int) : State :=
  let s := { s with board_ := { s.board_ with b8 := move } }
  let s := { s with red_placeable_fighters_ := s.red_placeable_fighters_ - move }
  let s := { s with board_ := { s.board_ with b14 := s.red_placeable_fighters_ } }
  let s := { s with red_placeable_fighters_ := 0 }
  { s with current_phase_ := s.current_phase_ + 1 }

/-- In `DoApplyAction`, `case 4`: place Active SAM, the rest of the pool is
Passive SAM; AAA is set to four. -/
def phase4 (s : State) (move : Int) : State :=
  let s := { s with board_ := { s.board_ with b10 := move } }
  let s := { s with red_placeable_sams_ := s.red_placeable_sams_ - move }
  let s := { s with board_ := { s.board_ with b12 := s.red_placeable_sams_ } }
  let s := { s with red_placeable_sams_ := 0 }
  let s := { s with board_ := { s.board_ with b16 := 4 } }
  let s := { s with current_player_ := 1 - s.current_player_ }
  let s := { s with current_phase_ := s.current_phase_ + 1 }
  { s with num_moves_ := s.num_moves_ + 1 }

/-- In `DoApplyAction`, `case 5`, Blue, `is_attacking_`: Blue fires at the
Intercept box. -/
def phase5BlueDeclare (s : State) (move : Int) : State :=
  let s := if move = 1 then
      { s with
        attacking_box_ := 8
        board_ := { s.board_ with b0 := s.board_.b0 - 1, b1 := s.board_.b1 + 1 } }
    else s
  let s := { s with is_attacking_ := false }
  { s with current_player_ := 1 }

/-- The step `blue_hits_ -= 4; board_[attacking_box_]--; red_points_++;` of
`case 5`. -/
def blueLoss (s : State) : Except Fault State :=
  let s := { s with blue_hits_ := s.blue_hits_ - 4 }
  (s.bump s.attacking_box_ (-1)).map fun s =>
    { s with red_points_ := s.red_points_ + 1 }

/-- In `DoApplyAction`, `case 5`, Blue, not `is_attacking_`: Blue answers the attack
of Red.  The first test reads `blue_hits_ > 4`, the other two
`blue_hits_ >= 4`. -/
def phase5BlueResolve (s : State) (move : Int) : Except Fault State :=
  (if move = 0 then
      let s := { s with blue_hits_ := s.blue_hits_ + 2 }
      if s.blue_hits_ > 4 then blueLoss s else .ok s
    else if move = 1 then
      let s := { s with blue_hits_ := s.blue_hits_ + 1 }
      (if s.blue_hits_ ≥ 4 then blueLoss s else .ok s).map fun s =>
        let s := { s with board_ := { s.board_ with b0 := s.board_.b0 - 1 } }
        { s with board_ := { s.board_ with b1 := s.board_.b1 + 1 } }
    else if move = 2 ∨ move = 3 then
      let s := { s with blue_hits_ := s.blue_hits_ + 1 }
      if s.blue_hits_ ≥ 4 then blueLoss s
      else
        (s.bump s.attacking_box_ (-1)).bind fun s =>
          s.bump (s.attacking_box_ + 1) 1
    else .ok s).map fun s => { s with is_attacking_ := true }

/-- In `DoApplyAction`, `case 5`, Red, `is_attacking_`: Red picks the box it
attacks. -/
def phase5RedDeclare (s : State) (move : Int) : State :=
  let s := if move = 0 then { s with attacking_box_ := 0 } else s
  let s := if move = 1 then { s with attacking_box_ := 2 } else s
  let s := if move = 2 then { s with attacking_box_ := 6 } else s
  let s := { s with is_attacking_ := false }
  let s := { s with board_ := { s.board_ with b8 := s.board_.b8 - 1 } }
  let s := { s with board_ := { s.board_ with b9 := s.board_.b9 + 1 } }
  { s with current_player_ := 0 }

/-- In `DoApplyAction`, `case 5`, Red, not `is_attacking_`: Red answers the attack
of Blue. -/
def phase5RedResolve (s : State) (move : Int) : State :=
  let s :=
    if move = 1 then
      let s := { s with red_hits_ := s.red_hits_ + 1 }
      if s.red_hits_ ≥ 4 then
        let s := { s with red_hits_ := s.red_hits_ - 4 }
        let s := { s with board_ := { s.board_ with b8 := s.board_.b8 - 1 } }
        { s with blue_points_ := s.blue_points_ + 1 }
      else
        let s := { s with board_ := { s.board_ with b8 := s.board_.b8 - 1 } }
        { s with board_ := { s.board_ with b9 := s.board_.b9 + 1 } }
    else if move = 0 then
      let s := { s with red_hits_ := s.red_hits_ + 2 }
      if s.red_hits_ ≥ 4 then
        let s := { s with red_hits_ := s.red_hits_ - 4 }
        let s := { s with board_ := { s.board_ with b8 := s.board_.b8 - 1 } }
        { s with blue_points_ := s.blue_points_ + 1 }
      else s
    else s
  { s with is_attacking_ := true }

/-- In `DoApplyAction`, `case 5`: fighter against fighter. -/
def phase5 (s : State) (move : Int) : Except Fault State :=
  (if s.current_player_ = 0 then
      if s.is_attacking_ then .ok (phase5BlueDeclare s move)
      else phase5BlueResolve s move
    else if s.current_player_ = 1 then
      if s.is_attacking_ then .ok (phase5RedDeclare s move)
      else .ok (phase5RedResolve s move)
    else .ok s).map fun s => { s with num_moves_ := s.num_moves_ + 1 }

/-- In `DoApplyAction`, `case 6`, Blue, `is_attacking_`: SEAD fires at the
Active SAM box or at AAA. -/
def phase6BlueDeclare (s : State) (move : Int) : State :=
  let s := if move = 0 then { s with attacking_box_ := 10 } else s
  let s := if move = 1 then { s with attacking_box_ := 16 } else s
  let s := { s with board_ := { s.board_ with b4 := s.board_.b4 - 1 } }
  let s := { s with board_ := { s.board_ with b5 := s.board_.b5 + 1 } }
  let s := { s with is_attacking_ := false }
  { s with current_player_ := 1 }

/-- The step `blue_hits_ -= 4; board_[2]--; red_points_++` of `case 6`. -/
def phase6HighStrikeLost (s : State) : State :=
  let s := { s with blue_hits_ := s.blue_hits_ - 4 }
  let s := { s with board_ := { s.board_ with b2 := s.board_.b2 - 1 } }
  { s with red_points_ := s.red_points_ + 1 }

/-- In `DoApplyAction`, `case 6`, Blue, not `is_attacking_`: Blue defends. -/
def phase6BlueResolve (s : State) (move : Int) : State :=
  let s :=
    if move = 0 then
      let s := { s with blue_hits_ := s.blue_hits_ + 2 }
      if s.blue_hits_ ≥ 4 then phase6HighStrikeLost s else s
    else if move = 1 then
      let s := { s with blue_hits_ := s.blue_hits_ + 1 }
      if s.blue_hits_ ≥ 4 then phase6HighStrikeLost s
      else
        let s := { s with board_ := { s.board_ with b2 := s.board_.b2 - 1 } }
        { s with board_ := { s.board_ with b3 := s.board_.b3 + 1 } }
    else if move = 2 then
      let s := { s with blue_hits_ := s.blue_hits_ + 1 }
      let s := if s.blue_hits_ ≥ 4 then phase6HighStrikeLost s else s
      let s := { s with board_ := { s.board_ with b4 := s.board_.b4 - 1 } }
      { s with board_ := { s.board_ with b5 := s.board_.b5 + 1 } }
    else if move = 3 then
      let s := { s with blue_hits_ := s.blue_hits_ + 1 }
      if s.blue_hits_ ≥ 4 then
        let s := { s with blue_hits_ := s.blue_hits_ - 4 }
        let s := { s with board_ := { s.board_ with b6 := s.board_.b6 - 1 } }
        { s with red_points_ := s.red_points_ + 1 }
      else s
    else s
  { s with is_attacking_ := true }

/-- In `DoApplyAction`, `case 6`, Red, `is_attacking_`: Red attacks with its
Active SAMs or with AAA.  Only `move == 0` clears `is_attacking_`. -/
def phase6RedDeclare (s : State) (move : Int) : State :=
  let s :=
    if move = 0 then
      let s := { s with attacking_box_ := 2 }
      let s := { s with is_attacking_ := false }
      let s := { s with board_ := { s.board_ with b10 := s.board_.b10 - 1 } }
      { s with board_ := { s.board_ with b11 := s.board_.b11 + 1 } }
    else s
  let s :=
    if move = 1 then
      let s := { s with attacking_box_ := 6 }
      let s := { s with low_strike_attacks_ := s.low_strike_attacks_ + 1 }
      let s := { s with board_ := { s.board_ with b16 := s.board_.b16 - 1 } }
      { s with board_ := { s.board_ with b17 := s.board_.b17 + 1 } }
    else s
  { s with current_player_ := 0 }

/-- In `DoApplyAction`, `case 6`, Red, not `is_attacking_`: the attack of
Blue determines the defence of Red. -/
def phase6RedResolve (s : State) (move : Int) : State :=
  if move = 0 then
    let s :=
      if s.attacking_box_ = 10 then
        let s := { s with red_hits_ := s.red_hits_ + 1 }
        if s.red_hits_ ≥ 4 then
          let s := { s with red_hits_ := s.red_hits_ - 4 }
          let s := { s with board_ := { s.board_ with b10 := s.board_.b10 - 1 } }
          { s with blue_points_ := s.blue_points_ + 1 }
        else
          let s := { s with board_ := { s.board_ with b10 := s.board_.b10 - 1 } }
          { s with board_ := { s.board_ with b11 := s.board_.b11 + 1 } }
      else if s.attacking_box_ = 16 then
        let s := { s with board_ := { s.board_ with b16 := s.board_.b16 - 1 } }
        { s with board_ := { s.board_ with b17 := s.board_.b17 + 1 } }
      else s
    { s with is_attacking_ := true }
  else s

/-- In `DoApplyAction`, `case 6`: ground against air. -/
def phase6 (s : State) (move : Int) : State :=
  let s :=
    if s.current_player_ = 0 then
      if s.is_attacking_ then phase6BlueDeclare s move
      else phase6BlueResolve s move
    else if s.current_player_ = 1 then
      if s.is_attacking_ then phase6RedDeclare s move
      else phase6RedResolve s move
    else s
  { s with num_moves_ := s.num_moves_ + 1 }

/-- The step `if (red_hits_ >= 4) { red_hits_ -= 4; board_[attacking_box_]--;
blue_points_++; }` of `case 7`, `case 8` and `case 9`. -/
def groundKill (s : State) : Except Fault State :=
  if s.red_hits_ ≥ 4 then
    let s := { s with red_hits_ := s.red_hits_ - 4 }
    (s.bump s.attacking_box_ (-1)).map fun s =>
      { s with blue_points_ := s.blue_points_ + 1 }
  else .ok s

/-- The target choice `if (board_[14] == 0) attacking_box_ = 15; else
attacking_box_ = 14;` after `airbase_attacks_++`. -/
def aimAirbase (s : State) : State :=
  let s := { s with airbase_attacks_ := s.airbase_attacks_ + 1 }
  if s.board_.b14 = 0 then { s with attacking_box_ := 15 }
  else { s with attacking_box_ := 14 }

/-- The target choice `if (board_[10] == 0) attacking_box_ = 11; else
attacking_box_ = 10;` after `active_sam_attacks_++`. -/
def aimActiveSam (s : State) : State :=
  let s := { s with active_sam_attacks_ := s.active_sam_attacks_ + 1 }
  if s.board_.b10 = 0 then { s with attacking_box_ := 11 }
  else { s with attacking_box_ := 10 }

/-- The target choice `if (board_[12] == 0) attacking_box_ = 13; else
attacking_box_ = 12;` after `passive_sam_attacks_++`. -/
def aimPassiveSam (s : State) : State :=
  let s := { s with passive_sam_attacks_ := s.passive_sam_attacks_ + 1 }
  if s.board_.b12 = 0 then { s with attacking_box_ := 13 }
  else { s with attacking_box_ := 12 }

/-- In `DoApplyAction`, `case 7`: High Strike attacks the ground targets. -/
def phase7 (s : State) (move : Int) : Except Fault State :=
  let s := { s with red_hits_ := s.red_hits_ + 1 }
  let s := if move = 0 then aimAirbase s else s
  let s := if move = 1 then aimActiveSam s else s
  let s := if move = 2 then aimPassiveSam s else s
  (groundKill s).map fun s =>
    let s := { s with board_ := { s.board_ with b2 := s.board_.b2 - 1 } }
    { s with board_ := { s.board_ with b3 := s.board_.b3 + 1 } }

/-- In `DoApplyAction`, `case 8`: the UAV attacks the SAMs, then the phase
advances. -/
def phase8 (s : State) (move : Int) : Except Fault State :=
  let s := { s with red_hits_ := s.red_hits_ + 1 }
  let s := if move = 0 then aimActiveSam s else s
  let s := if move = 1 then aimPassiveSam s else s
  (groundKill s).map fun s =>
    { s with current_phase_ := s.current_phase_ + 1 }

/-- In `DoApplyAction`, `case 9`, the block `if (move == 3)`: an Intercept
fighter goes to the Airbase, evading. -/
def flipIntercept (s : State) : State :=
  let s :=
    if s.board_.b8 > 0 then
      { s with board_ := { s.board_ with b8 := s.board_.b8 - 1 } }
    else { s with board_ := { s.board_ with b9 := s.board_.b9 - 1 } }
  { s with board_ := { s.board_ with b15 := s.board_.b15 + 1 } }

/-- In `DoApplyAction`, `case 9`, the block `if (move == 0)`: an Airbase fighter
goes from attacking to evading. -/
def flipAirbase (s : State) : State :=
  let s := { s with board_ := { s.board_ with b14 := s.board_.b14 - 1 } }
  { s with board_ := { s.board_ with b15 := s.board_.b15 + 1 } }

/-- In `DoApplyAction`, `case 9`: Low Strike attacks the ground targets. -/
def phase9 (s : State) (move : Int) : Except Fault State :=
  let s := if move = 0 then flipAirbase s else s
  (if move = 1 then
      groundKill (aimActiveSam { s with red_hits_ := s.red_hits_ + 1 })
    else .ok s).bind fun s =>
  (if move = 2 then
      groundKill (aimPassiveSam { s with red_hits_ := s.red_hits_ + 1 })
    else .ok s).map fun s =>
  let s := if move = 3 then flipIntercept s else s
  let s := { s with board_ := { s.board_ with b6 := s.board_.b6 - 1 } }
  { s with board_ := { s.board_ with b7 := s.board_.b7 + 1 } }

/-- The method `CounterAirState::DoApplyAction`.  The two meta-moves come first, then the
`switch` on `current_phase_`; a phase outside `0 … 9` matches no `case` and the
state is returned as it is. -/
def DoApplyAction (s : State) (move : Int) : Except Fault State :=
  if move = 11 then applyPass s
  else if move = 12 then .ok (applyAdvance s)
  else if s.current_phase_ = 0 then .ok (phase0 s move)
  else if s.current_phase_ = 1 then .ok (phase1 s move)
  else if s.current_phase_ = 2 then .ok (phase2 s move)
  else if s.current_phase_ = 3 then .ok (phase3 s move)
  else if s.current_phase_ = 4 then .ok (phase4 s move)
  else if s.current_phase_ = 5 then phase5 s move
  else if s.current_phase_ = 6 then .ok (phase6 s move)
  else if s.current_phase_ = 7 then phase7 s move
  else if s.current_phase_ = 8 then phase8 s move
  else if s.current_phase_ = 9 then phase9 s move
  else .ok s

/-- The loop `for (int i; i <= pool; i++) moves.push_back(i);` run from the
starting value `i` of the counter: the list `i, i + 1, …, pool`, empty when
`i > pool`. -/
def placementLoop (i pool : Int) : List Int :=
  (List.range (pool + 1 - i).toNat).map fun (k : Nat) => i + Int.ofNat k

/-- In `LegalActions`, `case 5`. -/
def legal5 (s : State) : List Int :=
  let b := s.board_
  let moves : List Int := []
  let moves :=
    if s.current_player_ = 0 then
      if s.is_attacking_ then
        if b.b0 > 0 ∧ b.b8 > 0 then moves ++ [1] else moves
      else
        let moves := moves ++ [0]
        let moves := if b.b0 > 0 then moves ++ [1] else moves
        let moves := if s.attacking_box_ = 2 then moves ++ [2] else moves
        if s.attacking_box_ = 6 then moves ++ [3] else moves
    else moves
  let moves :=
    if s.current_player_ = 1 then
      if s.is_attacking_ then
        let moves := if b.b8 > 0 ∧ b.b0 > 0 then moves ++ [0] else moves
        let moves := if b.b8 > 0 ∧ b.b2 > 0 then moves ++ [1] else moves
        if b.b8 > 0 ∧ b.b6 > 0 then moves ++ [2] else moves
      else moves ++ [0] ++ [1]
    else moves
  if moves.isEmpty ∧ (b.b8 = 0 ∨ (b.b0 = 0 ∧ b.b2 = 0 ∧ b.b6 = 0)) then
    moves ++ [12]
  else moves

/-- In `LegalActions`, `case 6`.  The final `push_back(12)` is not under
`moves.empty()`. -/
def legal6 (s : State) : List Int :=
  let b := s.board_
  let moves : List Int := []
  let moves :=
    if s.current_player_ = 0 then
      if s.is_attacking_ then
        if b.b4 > 0 then
          let moves := if b.b10 > 0 then moves ++ [0] else moves
          if b.b16 > 0 then moves ++ [1] else moves
        else moves
      else
        let moves :=
          if s.attacking_box_ = 2 then
            let moves := moves ++ [0] ++ [1]
            if b.b4 > 0 then moves ++ [2] else moves
          else moves
        if s.attacking_box_ = 6 then moves ++ [3] else moves
    else moves
  let moves :=
    if s.current_player_ = 1 then
      if s.is_attacking_ then
        let moves := if b.b10 > 0 ∧ b.b2 > 0 then moves ++ [0] else moves
        if b.b16 > 0 ∧ b.b6 > 0
            ∧ s.low_strike_attacks_ < s.max_low_strike_attacks_ then
          moves ++ [1]
        else moves
      else moves ++ [0]
    else moves
  if (b.b10 = 0 ∨ b.b2 = 0)
      ∧ ((b.b16 = 0 ∨ b.b6 = 0)
        ∨ s.low_strike_attacks_ = s.max_low_strike_attacks_)
      ∧ (b.b4 = 0 ∨ (b.b10 = 0 ∧ b.b16 = 0)) then
    moves ++ [12]
  else moves

/-- In `LegalActions`, `case 7`. -/
def legal7 (s : State) : List Int :=
  let b := s.board_
  let moves : List Int := []
  let moves :=
    if b.b2 > 0 then
      let moves :=
        if (b.b14 > 0 ∨ b.b15 > 0) ∧ s.airbase_attacks_ < s.max_airbase_attacks_
        then moves ++ [0] else moves
      let moves :=
        if (b.b10 > 0 ∨ b.b11 > 0)
            ∧ s.active_sam_attacks_ < s.max_active_sam_attacks_
        then moves ++ [1] else moves
      if (b.b12 > 0 ∨ b.b13 > 0)
          ∧ s.passive_sam_attacks_ < s.max_passive_sam_attacks_
      then moves ++ [2] else moves
    else moves
  if moves.isEmpty then moves ++ [12] else moves

/-- In `LegalActions`, `case 8`. -/
def legal8 (s : State) : List Int :=
  let b := s.board_
  let moves : List Int := []
  let moves :=
    if s.current_wave_ = 0 ∨ s.current_wave_ = 2 then
      let moves :=
        if (b.b10 > 0 ∨ b.b11 > 0)
            ∧ s.active_sam_attacks_ < s.max_active_sam_attacks_
        then moves ++ [0] else moves
      if (b.b12 > 0 ∨ b.b13 > 0)
          ∧ s.passive_sam_attacks_ < s.max_passive_sam_attacks_
      then moves ++ [1] else moves
    else moves
  if moves.isEmpty then moves ++ [12] else moves

/-- In `LegalActions`, `case 9`. -/
def legal9 (s : State) : List Int :=
  let b := s.board_
  let moves : List Int := []
  let moves :=
    if b.b6 > 0 then
      let moves := if b.b14 > 0 then moves ++ [0] else moves
      let moves :=
        if (b.b10 > 0 ∨ b.b11 > 0)
            ∧ s.active_sam_attacks_ < s.max_active_sam_attacks_
        then moves ++ [1] else moves
      let moves :=
        if (b.b12 > 0 ∨ b.b13 > 0)
            ∧ s.passive_sam_attacks_ < s.max_passive_sam_attacks_
        then moves ++ [2] else moves
      if b.b8 > 0 ∨ b.b9 > 0 then moves ++ [3] else moves
    else moves
  if moves.isEmpty then moves ++ [12] else moves

/-- In `LegalActions`, the `switch (current_phase_)`; `i` is the value the
placement loop counter starts from (the source gives it no initialiser).  A
phase outside `0 … 9` matches no `case`. -/
def phaseMoves (i : Int) (s : State) : List Int :=
  if s.current_phase_ = 0 then placementLoop i s.blue_placeable_fighters_
  else if s.current_phase_ = 1 then placementLoop i s.blue_placeable_fighters_
  else if s.current_phase_ = 2 then placementLoop i s.blue_placeable_fighters_
  else if s.current_phase_ = 3 then placementLoop i s.red_placeable_fighters_
  else if s.current_phase_ = 4 then placementLoop i s.red_placeable_sams_
  else if s.current_phase_ = 5 then legal5 s
  else if s.current_phase_ = 6 then legal6 s
  else if s.current_phase_ = 7 then legal7 s
  else if s.current_phase_ = 8 then legal8 s
  else if s.current_phase_ = 9 then legal9 s
  else []

/-- The method `CounterAirState::LegalActions`: nothing on a terminal state, otherwise the
moves of the phase and, when there are none, the pass move `11`. -/
def LegalActions (i : Int) (s : State) : List Int :=
  if IsTerminal s then []
  else
    let moves := phaseMoves i s
    if moves.isEmpty then moves ++ [11] else moves

/-- One move of legal play: `m` is offered by `LegalActions` for some starting
value `i` of the placement loop counter, which the source leaves without an
initialiser, and `DoApplyAction` returns the state `t`. -/
def Step (s t : State) : Prop :=
  ∃ i m, m ∈ LegalActions i s ∧ DoApplyAction s m = .ok t

/-- The states reachable from `NewInitialState` by legal play. -/
inductive Reachable : State → Prop where
  | init : Reachable NewInitialState
  | step {s t : State} : Reachable s → Step s t → Reachable t

/-- One move of legal play when the placement loop counter starts at `0`, the
documented enumeration: `m` is offered by `LegalActions 0` and `DoApplyAction`
returns the state `t`. -/
def StepZero (s t : State) : Prop :=
  ∃ m, m ∈ LegalActions 0 s ∧ DoApplyAction s m = .ok t

/-- The states reachable from `NewInitialState` by legal play in which every
call of `LegalActions` starts the placement loop counter at `0`. -/
inductive ReachableZero : State → Prop where
  | init : ReachableZero NewInitialState
  | step {s t : State} : ReachableZero s → StepZero s t → ReachableZero t

/-- Sum of the Blue cells `board_[0 … 7]`, the addends of the loop
`blue_placeable_fighters_ += board_[i]`. -/
def Board.blueSum (b : Board) : Int :=
  b.b0 + b.b1 + b.b2 + b.b3 + b.b4 + b.b5 + b.b6 + b.b7

/-- Sum of the SAM cells `board_[10 … 13]`, the addends of the loop
`red_placeable_sams_ += board_[i + 10]`. -/
def Board.samSum (b : Board) : Int :=
  b.b10 + b.b11 + b.b12 + b.b13

/-- The list `0, 1, …, n` of the documented placement enumeration. -/
def zeroTo (n : Int) : List Int :=
  (List.range (n.toNat + 1)).map Int.ofNat

/-- Between `s` and `t` the phase and the two pools are untouched and neither
the Blue cells `0 … 7` nor the SAM cells `10 … 13` have grown in sum. -/
def Shrinks (s t : State) : Prop :=
  t.current_phase_ = s.current_phase_
  ∧ t.blue_placeable_fighters_ = s.blue_placeable_fighters_
  ∧ t.red_placeable_sams_ = s.red_placeable_sams_
  ∧ t.board_.blueSum ≤ s.board_.blueSum
  ∧ t.board_.samSum ≤ s.board_.samSum

/-- What legal play with every placement loop counter started at `0` keeps true
of the pools and the cells they are dealt into, phase by phase: before its
placement a pool holds at most ten units and its cells are empty; after it the
pool is empty and the cells hold at most ten units. -/
structure PoolInv (s : State) : Prop where
  phase_lo : 0 ≤ s.current_phase_
  phase_hi : s.current_phase_ ≤ 9
  blue_early : s.current_phase_ ≤ 2 →
    s.board_.b1 = 0 ∧ s.board_.b3 = 0 ∧ s.board_.b4 = 0 ∧ s.board_.b5 = 0
    ∧ s.board_.b6 = 0 ∧ s.board_.b7 = 0 ∧ 0 ≤ s.board_.b0 ∧ 0 ≤ s.board_.b2
    ∧ s.board_.b0 + s.board_.b2 + s.blue_placeable_fighters_ ≤ 10
  blue_late : 3 ≤ s.current_phase_ →
    s.blue_placeable_fighters_ = 0 ∧ s.board_.blueSum ≤ 10
  sam_early : s.current_phase_ ≤ 4 →
    s.board_.b10 = 0 ∧ s.board_.b11 = 0 ∧ s.board_.b12 = 0 ∧ s.board_.b13 = 0
    ∧ s.red_placeable_sams_ ≤ 10
  sam_late : 5 ≤ s.current_phase_ →
    s.red_placeable_sams_ = 0 ∧ s.board_.samSum ≤ 10

/-- Play the moves of a list from `s`, each one checked against
`LegalActions 0`; no result when a move is not offered or `DoApplyAction`
ends without a state. -/
def playFrom (s : State) : List Int → Option State
  | [] => some s
  | m :: ms =>
    if m ∈ LegalActions 0 s then
      match DoApplyAction s m with
      | .ok t => playFrom t ms
      | .error _ => none
    else none

/-- Play a list of moves from `s`, each paired with the value its call of
`LegalActions` starts the placement loop counter from: `(i, m)` is the move
`m`, checked against `LegalActions i`.  No result when a move is not offered
or `DoApplyAction` ends without a state. -/
def playWith (s : State) : List (Int × Int) → Option State
  | [] => some s
  | (i, m) :: ms =>
    if m ∈ LegalActions i s then
      match DoApplyAction s m with
      | .ok t => playWith t ms
      | .error _ => none
    else none

/-- A legal play of the first wave: nothing but Low Strike is placed, AAA
fires four times, the UAV and Low Strike attack, and the four Airbase fighters
are flipped to evading. -/
def quietWave : List Int :=
  [0, 0, 0, 0, 0, 12, 11, 1, 11, 1, 11, 1, 11, 1, 12, 12, 1, 0, 0, 0, 0, 2, 2, 2]

/-- The state at the end of `quietWave`: phase 9 of wave 0, four fighters in
the Airbase-evading cell `board_[15]`, and `12` the only legal move. -/
def quietWaveEnd : State where
  board_ := ⟨0, 0, 0, 0, 0, 0, 3, 7, 0, 0, 0, 0, 3, 0, 0, 4, 0, 4⟩
  current_player_ := 0
  outcome_ := kInvalidPlayer
  current_wave_ := 0
  num_moves_ := 10
  current_phase_ := 9
  blue_hits_ := 0
  red_hits_ := 0
  blue_points_ := 1
  red_points_ := 0
  blue_placeable_fighters_ := 0
  red_placeable_fighters_ := 0
  red_placeable_sams_ := 0
  attacking_box_ := 12
  low_strike_attacks_ := 4
  max_low_strike_attacks_ := 4
  active_sam_attacks_ := 0
  max_active_sam_attacks_ := 0
  passive_sam_attacks_ := 4
  max_passive_sam_attacks_ := 4
  airbase_attacks_ := 0
  max_airbase_attacks_ := 4
  is_uav_ := true
  is_attacking_ := true

/-- The statement `if (c) moves.push_back(x);` of `LegalActions`. -/
def pushIf (c : Prop) [Decidable c] (x : Int) (moves : List Int) : List Int :=
  if c then moves ++ [x] else moves

/-- The statement `if (moves.empty() && c) moves.push_back(x);`. -/
def pushIfEmpty (c : Prop) [Decidable c] (x : Int) (moves : List Int) : List Int :=
  if moves.isEmpty ∧ c then moves ++ [x] else moves

/-- The statement `if (moves.empty()) moves.push_back(x);`. -/
def orPush (x : Int) (moves : List Int) : List Int :=
  if moves.isEmpty then moves ++ [x] else moves

/-- Sum of the Red fighter cells: Intercept `board_[8]`, `board_[9]` and
Airbase `board_[14]`, `board_[15]`. -/
def Board.redFighters (b : Board) : Int :=
  b.b8 + b.b9 + b.b14 + b.b15

/-- The accumulator `red_hits_` lies in `0 … 3`. -/
def RedHitsOk (s : State) : Prop :=
  0 ≤ s.red_hits_ ∧ s.red_hits_ ≤ 3

/-- Between `s` and `t` the Red fighter pool is untouched, the Red fighter
cells have not grown in sum, and the Airbase-evading cell has not gone below
zero. -/
def Wanes (s t : State) : Prop :=
  t.red_placeable_fighters_ = s.red_placeable_fighters_
  ∧ t.board_.redFighters ≤ s.board_.redFighters
  ∧ (0 ≤ s.board_.b15 → 0 ≤ t.board_.b15)

/-- What legal play with every placement loop counter started at `0` keeps true
besides `PoolInv`: `is_attacking_` is set until
combat starts; a Blue answer in phase 5 has its target in an Escort, High
Strike or Low Strike cell; the SAM pool and cells hold at most four units; the
Red fighter pool and cells hold at most four units and the Airbase-evading
cell is not below zero. -/
structure BoundInv (s : State) : Prop where
  pool : PoolInv s
  attacking_early : s.current_phase_ ≤ 4 → s.is_attacking_ = true
  target5 : s.current_phase_ = 5 → s.current_player_ = 0 → s.is_attacking_ = false →
    (s.attacking_box_ = 0 ∨ s.attacking_box_ = 2 ∨ s.attacking_box_ = 6)
  sam_early : s.current_phase_ ≤ 4 → s.red_placeable_sams_ ≤ 4
  sam_late : 5 ≤ s.current_phase_ → s.board_.samSum ≤ 4
  fighters_early : s.current_phase_ ≤ 3 →
    s.board_.b9 = 0 ∧ s.board_.b15 = 0 ∧ s.red_placeable_fighters_ ≤ 4
  fighters_late : 4 ≤ s.current_phase_ →
    s.red_placeable_fighters_ = 0 ∧ 0 ≤ s.board_.b15 ∧ s.board_.redFighters ≤ 4

/-- The fault `DoApplyAction` ended with, if it did. -/
def faultOf : Except Fault State → Option Fault
  | .error e => some e
  | .ok _ => none

/-- A legal play of ten moves: all ten Blue fighters are Low Strike, two
Intercept fighters attack them one after the other, and Blue has answered the
first attack with move `0`.  Blue is to answer the second attack. -/
def lowStrikeRaid : List Int :=
  [0, 0, 0, 2, 0, 11, 2, 0, 11, 2]

/-- A legal play of seven moves into phase 6: nine High Strike, one SEAD, no
Active SAM; the SEAD fighter has declared its attack on AAA and Red is to
resolve it. -/
def sparedStrike : List Int :=
  [0, 9, 1, 0, 0, 12, 1]

/-- A legal play of seventeen moves in phase 5: four Escort against four
Intercept fighters; at its last move the one Escort fighter left is attacked,
`blue_hits_` is 4, and Blue answers with move `1`, Escort evades. -/
def escortTwice : List Int :=
  [4, 0, 0, 4, 0, 1, 0, 0, 0, 1, 0, 0, 0, 1, 0, 0, 1]

/-- A legal play of twenty-seven moves that ends in phase 5 of wave 1 with
`board_[0] = -1`, `board_[8] = 1` and no High Strike or Low Strike fighter:
neither player has an attack, and the phase cannot advance. -/
def stalemate : List Int :=
  [10, 0, 0, 2, 1, 1, 1, 0, 1, 12, 12, 12, 1, 12, 3, 0, 7, 4, 0, 1, 0, 0, 0, 1, 0, 0, 1]

/-- The final state of the two scenarios of the outcome rule: phase 9 of wave
4 with the given points and hits. -/
def lastPhase (bluePoints redPoints blueHits redHits : Int) : State :=
  { NewInitialState with
    current_phase_ := 9
    current_wave_ := 4
    blue_points_ := bluePoints
    red_points_ := redPoints
    blue_hits_ := blueHits
    red_hits_ := redHits }

/-- The cell a ground attack of category `m` takes its unit from, in the words
of the specification: the attacking slot of the category when that slot is
non-zero, otherwise its evading slot.  Category `0` is the Airbase (cells 14,
15), `1` the Active SAMs (cells 10, 11), any other the Passive SAMs (cells 12,
13). -/
def specStruckCell (b : Board) (m : Int) : Int :=
  if m = 0 then (if b.b14 ≠ 0 then 14 else 15)
  else if m = 1 then (if b.b10 ≠ 0 then 10 else 11)
  else (if b.b12 ≠ 0 then 12 else 13)

/-- The data members that no move but `12` writes: the wave, the outcome and
the four quota caps. -/
def frozen (s : State) : Int × Int × Int × Int × Int × Int :=
  (s.current_wave_, s.outcome_, s.max_low_strike_attacks_, s.max_active_sam_attacks_,
    s.max_passive_sam_attacks_, s.max_airbase_attacks_)

/-- The wave lies in `0 … 5`, and the outcome is undetermined before wave 5. -/
def WaveOk (s : State) : Prop :=
  0 ≤ s.current_wave_ ∧ s.current_wave_ ≤ 5
  ∧ (s.current_wave_ < 5 → s.outcome_ = kInvalidPlayer)

/-- The state a play leads to from `s`; the state `s` itself when the play is
not legal or ends without a state. -/
def playEnd (s : State) (ms : List Int) : State :=
  (playFrom s ms).getD s

/-- A legal play from `quietWaveEnd` through the rollover to phase 8 of wave 1:
again nothing but Low Strike is placed and AAA fires four times. -/
def secondWaveQuiet : List Int :=
  [12, 0, 0, 0, 0, 0, 12, 11, 1, 11, 1, 11, 1, 11, 1, 12, 12]

/-- A legal play of fifteen moves to the start of phase 7: two High Strike and
eight Low Strike fighters, four Airbase fighters, four Passive SAMs. -/
def strikeOpening : List Int :=
  [0, 2, 0, 0, 0, 12, 11, 1, 11, 1, 11, 1, 11, 1, 12]

/-- A legal play of twenty moves to the start of phase 9: ten Low Strike
fighters, one Intercept fighter (evading after its attack), three Airbase
fighters, four Passive SAMs. -/
def lowStrikeOpening : List Int :=
  [0, 0, 0, 1, 0, 11, 2, 0, 12, 11, 1, 11, 1, 11, 1, 11, 1, 12, 12, 1]

/-- A legal play of seven moves into phase 6: ten Low Strike fighters, no
Active SAM; Blue has passed and Red is to declare, with AAA its only
attack. -/
def aaaTurn : List Int :=
  [0, 0, 0, 0, 0, 12, 11]

/-- Between `s` and `t` no unit is created: the board total and the points of
the two sides add up to the same; no side has lost a point; at most one point
has been awarded. -/
def Settles (s t : State) : Prop :=
  t.board_.total + t.blue_points_ + t.red_points_
    = s.board_.total + s.blue_points_ + s.red_points_
  ∧ s.blue_points_ ≤ t.blue_points_ ∧ s.red_points_ ≤ t.red_points_
  ∧ t.blue_points_ + t.red_points_ ≤ s.blue_points_ + s.red_points_ + 1

/-- The state `u` has the board total and the points of `s`, and its target
cell `attacking_box_` is a cell of the board. -/
def SameUnits (s u : State) : Prop :=
  u.board_.total = s.board_.total ∧ u.blue_points_ = s.blue_points_
  ∧ u.red_points_ = s.red_points_
  ∧ 0 ≤ u.attacking_box_ ∧ u.attacking_box_ ≤ 17

/-- The four attack counters: AAA on Low Strike, attacks on the Active SAMs, on
the Passive SAMs and on the Airbase. -/
def used (s : State) : Int × Int × Int × Int :=
  (s.low_strike_attacks_, s.active_sam_attacks_, s.passive_sam_attacks_,
    s.airbase_attacks_)

/-- The Red ground cells that phase 5 leaves alone: Active SAM, Passive SAM
and Airbase-attacking. -/
def Board.ground (b : Board) : Int × Int × Int × Int × Int :=
  (b.b10, b.b11, b.b12, b.b13, b.b14)

/-- What legal play with every placement loop counter started at `0` keeps true
of the attack quotas, besides `BoundInv`: the
caps are not negative and no counter exceeds its cap; the counters are 0 until
their phase; the cells the caps are read from are not negative when they are
read; and a unit that is the target of a declared attack is there. -/
structure QuotaInv (s : State) : Prop where
  base : BoundInv s
  caps : 0 ≤ s.max_low_strike_attacks_ ∧ 0 ≤ s.max_active_sam_attacks_
    ∧ 0 ≤ s.max_passive_sam_attacks_ ∧ 0 ≤ s.max_airbase_attacks_
  within : s.low_strike_attacks_ ≤ s.max_low_strike_attacks_
    ∧ s.active_sam_attacks_ ≤ s.max_active_sam_attacks_
    ∧ s.passive_sam_attacks_ ≤ s.max_passive_sam_attacks_
    ∧ s.airbase_attacks_ ≤ s.max_airbase_attacks_
  low_early : s.current_phase_ ≤ 5 → s.low_strike_attacks_ = 0
  ground_early : s.current_phase_ ≤ 6 →
    s.active_sam_attacks_ = 0 ∧ s.passive_sam_attacks_ = 0 ∧ s.airbase_attacks_ = 0
  low_strike : 3 ≤ s.current_phase_ → s.current_phase_ ≤ 5 → 0 ≤ s.board_.b6
  sams : 5 ≤ s.current_phase_ → s.current_phase_ ≤ 6 →
    0 ≤ s.board_.b10 ∧ 0 ≤ s.board_.b11 ∧ 0 ≤ s.board_.b12 ∧ 0 ≤ s.board_.b13
  airbase : 4 ≤ s.current_phase_ → s.current_phase_ ≤ 6 → 0 ≤ s.board_.b14
  target_low : s.current_phase_ = 5 → s.current_player_ = 0 → s.is_attacking_ = false →
    s.attacking_box_ = 6 → 0 < s.board_.b6
  target_sam : s.current_phase_ = 6 → s.current_player_ = 1 → s.is_attacking_ = false →
    s.attacking_box_ = 10 → 0 < s.board_.b10

/-- One unit moved from cell `c` to cell `c + 1`: `board_[c]--; board_[c + 1]++`. -/
def Board.flip (b : Board) (c : Int) : Option Board :=
  (b.addAt c (-1)).bind fun b => b.addAt (c + 1) 1

/-- The eight declarations of `case 5` and `case 6` of `DoApplyAction`: in phase
`phase` the player `player` declares with move `m`, the attacker is taken from
cell `c`, and `box` is written to `attacking_box_`. -/
def DeclareTable (phase player m c box : Int) : Prop :=
  (phase = 5 ∧ player = 0 ∧ m = 1 ∧ c = 0 ∧ box = 8)
  ∨ (phase = 5 ∧ player = 1 ∧ m = 0 ∧ c = 8 ∧ box = 0)
  ∨ (phase = 5 ∧ player = 1 ∧ m = 1 ∧ c = 8 ∧ box = 2)
  ∨ (phase = 5 ∧ player = 1 ∧ m = 2 ∧ c = 8 ∧ box = 6)
  ∨ (phase = 6 ∧ player = 0 ∧ m = 0 ∧ c = 4 ∧ box = 10)
  ∨ (phase = 6 ∧ player = 0 ∧ m = 1 ∧ c = 4 ∧ box = 16)
  ∨ (phase = 6 ∧ player = 1 ∧ m = 0 ∧ c = 10 ∧ box = 2)
  ∨ (phase = 6 ∧ player = 1 ∧ m = 1 ∧ c = 16 ∧ box = 6)

/-- A Blue answer in phase 6 is the answer to an attack on High Strike: the
target cell is `board_[2]`. -/
def AnswersSam (s : State) : Prop :=
  s.current_phase_ = 6 → s.current_player_ = 0 → s.is_attacking_ = false →
    s.attacking_box_ = 2

/-- A legal play of eight moves into phase 6: two High Strike fighters, one
Active SAM; Blue has passed, Red has declared the attack of its Active SAM
(move `0`), and Blue is to answer. -/
def samTurn : List Int :=
  [0, 2, 0, 0, 1, 12, 11, 0]

/-- A legal play to phase 9 of wave 0 whose first call of `LegalActions` starts
the placement loop counter at `-2` and whose other calls start it at `0`: Blue
places `-2` fighters on the UAV cell, which leaves 12 in the pool, nobody
places a unit on a cell of the sum again, and the one attack of phase 8 is
answered by AAA. -/
def leftoverPool : List (Int × Int) :=
  [(-2, -2), (0, 12), (0, 12), (0, 0), (0, 0), (0, 12), (0, 12), (0, 12), (0, 1)]

/-- The state a play with chosen counter starts leads to from `s`; the state
`s` itself when the play is not legal or ends without a state. -/
def playWithEnd (s : State) (ms : List (Int × Int)) : State :=
  (playWith s ms).getD s

/-- A legal play to phase 6 of wave 0 whose call of `LegalActions` in phase 4
starts the placement loop counter at `-2` and whose other calls start it at
`0`: Red places `-2` SAMs on the Active cell `board_[10]`. -/
def negativeSam : List (Int × Int) :=
  [(0, 10), (0, 0), (0, 0), (0, 0), (-2, -2), (0, 12)]

/-! ## Auxiliary lemmas -/

theorem mem_placementLoop (i p m : Int) : m ∈ placementLoop i p ↔ i ≤ m ∧ m ≤ p := by
  unfold placementLoop
  simp only [List.mem_map, List.mem_range]
  constructor
  · rintro ⟨k, hk, rfl⟩
    have h2 : (k : Int) < ((p + 1 - i).toNat : Int) := by exact_mod_cast hk
    have h3 : 0 ≤ (k : Int) := Int.ofNat_nonneg k
    simp only [Int.ofNat_eq_coe]
    have h4 : 0 < p + 1 - i := by
      by_contra hc
      rw [Int.toNat_of_nonpos (by omega)] at hk
      exact Nat.not_lt_zero _ hk
    rw [Int.toNat_of_nonneg (by omega)] at h2
    omega
  · rintro ⟨h1, h2⟩
    refine ⟨(m - i).toNat, ?_, ?_⟩
    · have : ((m - i).toNat : Int) < ((p + 1 - i).toNat : Int) := by
        rw [Int.toNat_of_nonneg (by omega), Int.toNat_of_nonneg (by omega)]
        omega
      exact_mod_cast this
    · simp only [Int.ofNat_eq_coe]
      rw [Int.toNat_of_nonneg (by omega)]
      omega

theorem placementLoop_eq_nil (i p : Int) : placementLoop i p = [] ↔ p < i := by
  rw [List.eq_nil_iff_forall_not_mem]
  constructor
  · intro h
    by_contra hc
    exact h i ((mem_placementLoop i p i).2 ⟨le_refl i, by omega⟩)
  · intro h m hm
    have := (mem_placementLoop i p m).1 hm
    omega

theorem Board.addAt_index {b c : Board} {i d : Int} (h : b.addAt i d = some c) :
    i = 0 ∨ i = 1 ∨ i = 2 ∨ i = 3 ∨ i = 4 ∨ i = 5 ∨ i = 6 ∨ i = 7 ∨ i = 8
      ∨ i = 9 ∨ i = 10 ∨ i = 11 ∨ i = 12 ∨ i = 13 ∨ i = 14 ∨ i = 15 ∨ i = 16
      ∨ i = 17 := by
  by_contra hc
  simp only [not_or] at hc
  obtain ⟨h0, h1, h2, h3, h4, h5, h6, h7, h8, h9, h10, h11, h12, h13, h14, h15, h16, h17⟩ := hc
  simp [Board.addAt, h0, h1, h2, h3, h4, h5, h6, h7, h8, h9, h10, h11, h12, h13, h14, h15, h16, h17] at h

theorem Board.addAt_sums {b c : Board} {i d : Int} (h : b.addAt i d = some c) :
    c.blueSum = b.blueSum + (if i ≤ 7 then d else 0)
    ∧ c.samSum = b.samSum + (if 10 ≤ i ∧ i ≤ 13 then d else 0) := by
  rcases Board.addAt_index h with
    rfl | rfl | rfl | rfl | rfl | rfl | rfl | rfl | rfl | rfl | rfl | rfl | rfl | rfl
      | rfl | rfl | rfl | rfl <;>
    (simp [Board.addAt] at h; subst h; simp [Board.blueSum, Board.samSum]; try omega)

theorem bind_eq_ok {x : Except Fault State} {f : State → Except Fault State} {t : State}
    (h : x.bind f = .ok t) : ∃ u, x = .ok u ∧ f u = .ok t := by
  cases x with
  | error e => cases h
  | ok a => exact ⟨a, rfl, h⟩

theorem map_eq_ok {x : Except Fault State} {f : State → State} {t : State}
    (h : x.map f = .ok t) : ∃ u, x = .ok u ∧ f u = t := by
  cases x with
  | error e => cases h
  | ok a => cases h; exact ⟨a, rfl, rfl⟩

theorem bump_ok {s t : State} {i d : Int} (h : s.bump i d = .ok t) :
    ∃ c, s.board_.addAt i d = some c ∧ t = { s with board_ := c } := by
  unfold State.bump at h
  cases hc : s.board_.addAt i d with
  | none => rw [hc] at h; cases h
  | some c => rw [hc] at h; cases h; exact ⟨c, rfl, rfl⟩

theorem Shrinks.refl (s : State) : Shrinks s s :=
  ⟨rfl, rfl, rfl, le_refl _, le_refl _⟩

theorem bump_dec_shrinks {s t : State} {i : Int} (h : s.bump i (-1) = .ok t) :
    Shrinks s t := by
  obtain ⟨c, hc, rfl⟩ := bump_ok h
  have := Board.addAt_sums hc
  refine ⟨rfl, rfl, rfl, ?_, ?_⟩ <;> simp only [] <;> split_ifs at this <;> omega

theorem blueLoss_shrinks {s t : State} (h : blueLoss s = .ok t) : Shrinks s t := by
  unfold blueLoss at h
  obtain ⟨u, hu, rfl⟩ := map_eq_ok h
  have := bump_dec_shrinks hu
  exact this

theorem groundKill_shrinks {s t : State} (h : groundKill s = .ok t) : Shrinks s t := by
  unfold groundKill at h
  split_ifs at h
  · obtain ⟨u, hu, rfl⟩ := map_eq_ok h
    have h1 := bump_dec_shrinks hu
    exact h1
  · cases h
    exact Shrinks.refl _

theorem phase5BlueResolve_shrinks {s t : State} {m : Int}
    (hab : (m = 2 ∨ m = 3) → (s.attacking_box_ = 2 ∨ s.attacking_box_ = 6))
    (h : phase5BlueResolve s m = .ok t) : Shrinks s t := by
  unfold phase5BlueResolve at h
  obtain ⟨u, hu, rfl⟩ := map_eq_ok h
  suffices Shrinks s u from this
  dsimp only at hu
  split_ifs at hu with h0 h04 h1 h14 h23 h234
  · have := blueLoss_shrinks hu
    exact this
  · cases hu; exact Shrinks.refl _
  · obtain ⟨v, hv, rfl⟩ := map_eq_ok hu
    obtain ⟨a0, a1, a2, a3, a4⟩ := blueLoss_shrinks hv
    refine ⟨a0, a1, a2, ?_, a4⟩
    simp only [Board.blueSum] at a3 ⊢
    omega
  · obtain ⟨v, hv, rfl⟩ := map_eq_ok hu
    cases hv
    refine ⟨rfl, rfl, rfl, ?_, le_refl _⟩
    simp only [Board.blueSum]
    omega
  · have := blueLoss_shrinks hu
    exact this
  · obtain ⟨v, hv, hu⟩ := bind_eq_ok hu
    obtain ⟨c, hc, rfl⟩ := bump_ok hv
    obtain ⟨e, he, rfl⟩ := bump_ok hu
    simp only [] at hc he
    rcases hab h23 with hb | hb <;> rw [hb] at hc he <;>
      simp [Board.addAt] at hc he <;> subst hc <;> subst he <;>
      refine ⟨rfl, rfl, rfl, ?_, ?_⟩ <;> simp [Board.blueSum, Board.samSum] <;> omega
  · cases hu; exact Shrinks.refl _

theorem phase5_shrinks {s t : State} {m : Int}
    (hab : s.current_player_ = 0 → s.is_attacking_ = false → (m = 2 ∨ m = 3) →
      (s.attacking_box_ = 2 ∨ s.attacking_box_ = 6))
    (h : phase5 s m = .ok t) : Shrinks s t := by
  unfold phase5 at h
  obtain ⟨u, hu, rfl⟩ := map_eq_ok h
  suffices Shrinks s u from this
  split_ifs at hu with hp ha hq hb
  · cases hu
    unfold phase5BlueDeclare
    dsimp only
    split_ifs <;> refine ⟨rfl, rfl, rfl, ?_, ?_⟩ <;>
      simp only [Board.blueSum, Board.samSum] <;> omega
  · have ha2 : s.is_attacking_ = false := by simpa using ha
    exact phase5BlueResolve_shrinks (hab hp ha2) hu
  · cases hu
    unfold phase5RedDeclare
    dsimp only
    split_ifs <;> refine ⟨rfl, rfl, rfl, ?_, ?_⟩ <;>
      simp only [Board.blueSum, Board.samSum] <;> omega
  · cases hu
    unfold phase5RedResolve
    dsimp only
    split_ifs <;> refine ⟨rfl, rfl, rfl, ?_, ?_⟩ <;>
      simp only [Board.blueSum, Board.samSum] <;> omega
  · cases hu
    exact Shrinks.refl _

theorem phase6_shrinks (s : State) (m : Int) : Shrinks s (phase6 s m) := by
  unfold phase6 phase6BlueDeclare phase6BlueResolve phase6RedDeclare phase6RedResolve
    phase6HighStrikeLost
  dsimp only
  split_ifs <;> refine ⟨rfl, rfl, rfl, ?_, ?_⟩ <;>
    simp only [Board.blueSum, Board.samSum] <;> omega

theorem Shrinks.trans {s t u : State} (h1 : Shrinks s t) (h2 : Shrinks t u) : Shrinks s u := by
  obtain ⟨a0, a1, a2, a3, a4⟩ := h1
  obtain ⟨b0, b1, b2, b3, b4⟩ := h2
  exact ⟨b0.trans a0, b1.trans a1, b2.trans a2, le_trans b3 a3, le_trans b4 a4⟩

theorem aimAirbase_shrinks {s u : State} (h : Shrinks s u) : Shrinks s (aimAirbase u) := by
  refine Shrinks.trans h ?_
  unfold aimAirbase
  dsimp only
  split_ifs <;> exact ⟨rfl, rfl, rfl, le_refl _, le_refl _⟩

theorem aimActiveSam_shrinks {s u : State} (h : Shrinks s u) : Shrinks s (aimActiveSam u) := by
  refine Shrinks.trans h ?_
  unfold aimActiveSam
  dsimp only
  split_ifs <;> exact ⟨rfl, rfl, rfl, le_refl _, le_refl _⟩

theorem aimPassiveSam_shrinks {s u : State} (h : Shrinks s u) : Shrinks s (aimPassiveSam u) := by
  refine Shrinks.trans h ?_
  unfold aimPassiveSam
  dsimp only
  split_ifs <;> exact ⟨rfl, rfl, rfl, le_refl _, le_refl _⟩

theorem phase7_shrinks {s t : State} {m : Int} (h : phase7 s m = .ok t) : Shrinks s t := by
  unfold phase7 at h
  dsimp only at h
  obtain ⟨u, hu, rfl⟩ := map_eq_ok h
  have h1 := groundKill_shrinks hu
  have h2 : Shrinks s u := by
    refine Shrinks.trans ?_ h1
    split_ifs <;>
      repeat (first
        | exact ⟨rfl, rfl, rfl, le_refl _, le_refl _⟩
        | apply aimAirbase_shrinks
        | apply aimActiveSam_shrinks
        | apply aimPassiveSam_shrinks)
  obtain ⟨a0, a1, a2, a3, a4⟩ := h2
  refine ⟨a0, a1, a2, ?_, a4⟩
  simp only [Board.blueSum] at a3 ⊢
  omega

theorem phase8_shrinks {s t : State} {m : Int} (h : phase8 s m = .ok t) :
    Shrinks s { t with current_phase_ := s.current_phase_ }
      ∧ t.current_phase_ = s.current_phase_ + 1 := by
  unfold phase8 at h
  dsimp only at h
  obtain ⟨u, hu, rfl⟩ := map_eq_ok h
  have h1 := groundKill_shrinks hu
  have h2 : Shrinks s u := by
    refine Shrinks.trans ?_ h1
    split_ifs <;>
      repeat (first
        | exact ⟨rfl, rfl, rfl, le_refl _, le_refl _⟩
        | apply aimAirbase_shrinks
        | apply aimActiveSam_shrinks
        | apply aimPassiveSam_shrinks)
  obtain ⟨a0, a1, a2, a3, a4⟩ := h2
  refine ⟨⟨rfl, a1, a2, a3, a4⟩, ?_⟩
  simp only [a0]

theorem phase9_shrinks {s t : State} {m : Int} (h : phase9 s m = .ok t) : Shrinks s t := by
  have key : ∀ s0 : State, Shrinks s s0 →
      ((if m = 1 then
          groundKill (aimActiveSam { s0 with red_hits_ := s0.red_hits_ + 1 })
        else .ok s0).bind fun s =>
      (if m = 2 then
          groundKill (aimPassiveSam { s with red_hits_ := s.red_hits_ + 1 })
        else .ok s).map fun s =>
      let s := if m = 3 then flipIntercept s else s
      let s := { s with board_ := { s.board_ with b6 := s.board_.b6 - 1 } }
      { s with board_ := { s.board_ with b7 := s.board_.b7 + 1 } }) = .ok t →
      Shrinks s t := by
    intro s0 hs0 h
    obtain ⟨u, hu, h⟩ := bind_eq_ok h
    obtain ⟨v, hv, rfl⟩ := map_eq_ok h
    have h1 : Shrinks s0 u := by
      split_ifs at hu
      · refine Shrinks.trans ?_ (groundKill_shrinks hu)
        apply aimActiveSam_shrinks
        exact ⟨rfl, rfl, rfl, le_refl _, le_refl _⟩
      · cases hu
        exact Shrinks.refl _
    have h2 : Shrinks u v := by
      split_ifs at hv
      · refine Shrinks.trans ?_ (groundKill_shrinks hv)
        apply aimPassiveSam_shrinks
        exact ⟨rfl, rfl, rfl, le_refl _, le_refl _⟩
      · cases hv
        exact Shrinks.refl _
    refine Shrinks.trans (Shrinks.trans hs0 (Shrinks.trans h1 h2)) ?_
    unfold flipIntercept
    dsimp only
    split_ifs <;> refine ⟨rfl, rfl, rfl, ?_, ?_⟩ <;>
      simp only [Board.blueSum, Board.samSum] <;> omega
  refine key (if m = 0 then flipAirbase s else s) ?_ h
  unfold flipAirbase
  dsimp only
  split_ifs <;> refine ⟨rfl, rfl, rfl, ?_, ?_⟩ <;>
    simp only [Board.blueSum, Board.samSum] <;> omega

theorem mem_LegalActions {i : Int} {s : State} {m : Int} (h : m ∈ LegalActions i s) :
    IsTerminal s = false ∧ (m ∈ phaseMoves i s ∨ (phaseMoves i s = [] ∧ m = 11)) := by
  unfold LegalActions at h
  by_cases ht : IsTerminal s = true
  · rw [if_pos ht] at h
    cases h
  · rw [if_neg ht] at h
    refine ⟨by simpa using ht, ?_⟩
    dsimp only at h
    by_cases he : (phaseMoves i s).isEmpty = true
    · rw [if_pos he] at h
      rw [List.isEmpty_iff] at he
      right
      rw [he] at h
      exact ⟨he, by simpa using h⟩
    · rw [if_neg he] at h
      exact Or.inl h

theorem phaseMoves_blue {i : Int} {s : State}
    (hp : s.current_phase_ = 0 ∨ s.current_phase_ = 1 ∨ s.current_phase_ = 2) :
    phaseMoves i s = placementLoop i s.blue_placeable_fighters_ := by
  unfold phaseMoves
  rcases hp with hp | hp | hp <;> simp [hp]

theorem phaseMoves_3 {i : Int} {s : State} (hp : s.current_phase_ = 3) :
    phaseMoves i s = placementLoop i s.red_placeable_fighters_ := by
  unfold phaseMoves
  simp [hp]

theorem phaseMoves_4 {i : Int} {s : State} (hp : s.current_phase_ = 4) :
    phaseMoves i s = placementLoop i s.red_placeable_sams_ := by
  unfold phaseMoves
  simp [hp]

theorem phaseMoves_5 {i : Int} {s : State} (hp : s.current_phase_ = 5) :
    phaseMoves i s = legal5 s := by
  unfold phaseMoves
  simp [hp]

theorem mem_LegalActions_phase5 {s : State} {m : Int} (h : m ∈ LegalActions 0 s)
    (hp : s.current_phase_ = 5) (hc : s.current_player_ = 0)
    (ha : s.is_attacking_ = false) (hm : m = 2 ∨ m = 3) :
    s.attacking_box_ = 2 ∨ s.attacking_box_ = 6 := by
  obtain ⟨_, h | ⟨_, h⟩⟩ := mem_LegalActions h
  · rw [phaseMoves_5 hp] at h
    by_contra hcon
    simp only [not_or] at hcon
    simp [legal5, hc, ha, hcon.1, hcon.2] at h
    split_ifs at h <;> simp at h <;> omega
  · omega

theorem PoolInv.init : PoolInv NewInitialState := by
  constructor <;> simp [NewInitialState, Board.zero, Board.blueSum, Board.samSum]

theorem PoolInv.of_shrinks {s t : State} (h : PoolInv s) (hs : Shrinks s t)
    (hp : 5 ≤ s.current_phase_) : PoolInv t := by
  obtain ⟨a0, a1, a2, a3, a4⟩ := hs
  have h1 := h.blue_late (by omega)
  have h2 := h.sam_late hp
  have := h.phase_hi
  constructor
  · omega
  · omega
  · intro hc; omega
  · intro _; exact ⟨by omega, by omega⟩
  · intro hc; omega
  · intro _; exact ⟨by omega, by omega⟩

theorem PoolInv.pass {s t : State} (h : PoolInv s) (ht : applyPass s = .ok t) :
    PoolInv t := by
  unfold applyPass at ht
  dsimp only at ht
  split_ifs at ht
  cases ht
  exact ⟨h.phase_lo, h.phase_hi, h.blue_early, h.blue_late, h.sam_early, h.sam_late⟩

theorem decideOutcome_frame (s : State) :
    ∃ o, decideOutcome s = { s with outcome_ := o } := by
  unfold decideOutcome
  split_ifs <;> exact ⟨_, rfl⟩

theorem applyAdvance_of_ne9 {s : State} (hp : s.current_phase_ ≠ 9) :
    ∃ o ml ma mp mb, applyAdvance s = { s with
      current_phase_ := s.current_phase_ + 1
      is_attacking_ := true
      current_player_ := 0
      outcome_ := o
      max_low_strike_attacks_ := ml
      max_active_sam_attacks_ := ma
      max_passive_sam_attacks_ := mp
      max_airbase_attacks_ := mb } := by
  unfold applyAdvance
  dsimp only
  split_ifs <;> first
    | (exfalso; omega)
    | exact ⟨_, _, _, _, _, rfl⟩
    | (obtain ⟨o, ho⟩ := decideOutcome_frame _
       rw [ho]
       exact ⟨_, _, _, _, _, rfl⟩)

theorem applyAdvance_of_eq9 {s : State} (hp : s.current_phase_ = 9) :
    ∃ o, applyAdvance s = { s with
      board_ := { Board.zero with b14 := s.board_.b15 }
      current_phase_ := 0
      current_wave_ := s.current_wave_ + 1
      low_strike_attacks_ := 0
      active_sam_attacks_ := 0
      passive_sam_attacks_ := 0
      airbase_attacks_ := 0
      red_placeable_fighters_ := s.board_.b8 + s.board_.b9 + s.board_.b14
      blue_placeable_fighters_ := s.blue_placeable_fighters_ + s.board_.b0
        + s.board_.b1 + s.board_.b2 + s.board_.b3 + s.board_.b4 + s.board_.b5
        + s.board_.b6 + s.board_.b7
      red_placeable_sams_ := s.red_placeable_sams_ + s.board_.b10 + s.board_.b11
        + s.board_.b12 + s.board_.b13
      is_attacking_ := true
      current_player_ := 0
      outcome_ := o } := by
  unfold applyAdvance nextWave
  dsimp only
  split_ifs <;> first
    | (exfalso; omega)
    | exact ⟨_, rfl⟩
    | (obtain ⟨o, ho⟩ := decideOutcome_frame _
       rw [ho]
       exact ⟨_, rfl⟩)

theorem PoolInv.advance {s : State} (h : PoolInv s)
    (hp : s.current_phase_ ≠ 0 ∧ s.current_phase_ ≠ 1 ∧ s.current_phase_ ≠ 2
      ∧ s.current_phase_ ≠ 4) : PoolInv (applyAdvance s) := by
  obtain ⟨h0, h1, h2, h4⟩ := hp
  have hlo := h.phase_lo
  have hhi := h.phase_hi
  have hbl := h.blue_late (by omega)
  have hse := h.sam_early
  have hsl := h.sam_late
  by_cases h9 : s.current_phase_ = 9
  · obtain ⟨o, ho⟩ := applyAdvance_of_eq9 h9
    rw [ho]
    obtain ⟨hs1, hs2⟩ := hsl (by omega)
    obtain ⟨hb1, hb2⟩ := hbl
    simp only [Board.blueSum, Board.samSum] at hb2 hs2
    constructor <;> dsimp only [Board.zero, Board.blueSum, Board.samSum] <;> intros <;>
      omega
  · obtain ⟨o, ml, ma, mp, mb, ho⟩ := applyAdvance_of_ne9 h9
    rw [ho]
    constructor <;> simp only [] <;> intros <;> omega

theorem PoolInv.of_late {t : State} (h1 : 5 ≤ t.current_phase_) (h2 : t.current_phase_ ≤ 9)
    (h3 : t.blue_placeable_fighters_ = 0) (h4 : t.board_.blueSum ≤ 10)
    (h5 : t.red_placeable_sams_ = 0) (h6 : t.board_.samSum ≤ 10) : PoolInv t := by
  constructor
  · omega
  · omega
  · intro hc; omega
  · intro _; exact ⟨h3, h4⟩
  · intro hc; omega
  · intro _; exact ⟨h5, h6⟩

theorem DoApplyAction_at0 {s : State} {m : Int} (h11 : m ≠ 11) (h12 : m ≠ 12)
    (hp : s.current_phase_ = 0) : DoApplyAction s m = .ok (phase0 s m) := by
  simp [DoApplyAction, h11, h12, hp]

theorem DoApplyAction_at1 {s : State} {m : Int} (h11 : m ≠ 11) (h12 : m ≠ 12)
    (hp : s.current_phase_ = 1) : DoApplyAction s m = .ok (phase1 s m) := by
  simp [DoApplyAction, h11, h12, hp]

theorem DoApplyAction_at2 {s : State} {m : Int} (h11 : m ≠ 11) (h12 : m ≠ 12)
    (hp : s.current_phase_ = 2) : DoApplyAction s m = .ok (phase2 s m) := by
  simp [DoApplyAction, h11, h12, hp]

theorem DoApplyAction_at3 {s : State} {m : Int} (h11 : m ≠ 11) (h12 : m ≠ 12)
    (hp : s.current_phase_ = 3) : DoApplyAction s m = .ok (phase3 s m) := by
  simp [DoApplyAction, h11, h12, hp]

theorem DoApplyAction_at4 {s : State} {m : Int} (h11 : m ≠ 11) (h12 : m ≠ 12)
    (hp : s.current_phase_ = 4) : DoApplyAction s m = .ok (phase4 s m) := by
  simp [DoApplyAction, h11, h12, hp]

theorem DoApplyAction_at5 {s : State} {m : Int} (h11 : m ≠ 11) (h12 : m ≠ 12)
    (hp : s.current_phase_ = 5) : DoApplyAction s m = phase5 s m := by
  simp [DoApplyAction, h11, h12, hp]

theorem DoApplyAction_at6 {s : State} {m : Int} (h11 : m ≠ 11) (h12 : m ≠ 12)
    (hp : s.current_phase_ = 6) : DoApplyAction s m = .ok (phase6 s m) := by
  simp [DoApplyAction, h11, h12, hp]

theorem DoApplyAction_at7 {s : State} {m : Int} (h11 : m ≠ 11) (h12 : m ≠ 12)
    (hp : s.current_phase_ = 7) : DoApplyAction s m = phase7 s m := by
  simp [DoApplyAction, h11, h12, hp]

theorem DoApplyAction_at8 {s : State} {m : Int} (h11 : m ≠ 11) (h12 : m ≠ 12)
    (hp : s.current_phase_ = 8) : DoApplyAction s m = phase8 s m := by
  simp [DoApplyAction, h11, h12, hp]

theorem DoApplyAction_at9 {s : State} {m : Int} (h11 : m ≠ 11) (h12 : m ≠ 12)
    (hp : s.current_phase_ = 9) : DoApplyAction s m = phase9 s m := by
  simp [DoApplyAction, h11, h12, hp]

theorem PoolInv.step {s t : State} (h : PoolInv s) (hst : StepZero s t) : PoolInv t := by
  obtain ⟨m, hm0, happ⟩ := hst
  obtain ⟨-, hmem⟩ := mem_LegalActions hm0
  have hlo := h.phase_lo
  have hhi := h.phase_hi
  by_cases h11 : m = 11
  · subst h11
    unfold DoApplyAction at happ
    rw [if_pos rfl] at happ
    exact h.pass happ
  have hmem : m ∈ phaseMoves 0 s := by
    rcases hmem with hmem | ⟨_, hmem⟩
    · exact hmem
    · exact absurd hmem h11
  by_cases h12 : m = 12
  · subst h12
    unfold DoApplyAction at happ
    rw [if_neg h11, if_pos rfl] at happ
    cases happ
    apply h.advance
    have hblue : ¬ (s.current_phase_ = 0 ∨ s.current_phase_ = 1 ∨ s.current_phase_ = 2) := by
      intro hp
      rw [phaseMoves_blue hp, mem_placementLoop] at hmem
      have := h.blue_early (by omega)
      omega
    have hsam : ¬ s.current_phase_ = 4 := by
      intro hp
      rw [phaseMoves_4 hp, mem_placementLoop] at hmem
      have := h.sam_early (by omega)
      omega
    omega
  have hcases : s.current_phase_ = 0 ∨ s.current_phase_ = 1 ∨ s.current_phase_ = 2
      ∨ s.current_phase_ = 3 ∨ s.current_phase_ = 4 ∨ s.current_phase_ = 5
      ∨ s.current_phase_ = 6 ∨ s.current_phase_ = 7 ∨ s.current_phase_ = 8
      ∨ s.current_phase_ = 9 := by omega
  rcases hcases with hp | hp | hp | hp | hp | hp | hp | hp | hp | hp
  · rw [DoApplyAction_at0 h11 h12 hp] at happ
    cases happ
    rw [phaseMoves_blue (Or.inl hp), mem_placementLoop] at hmem
    have he := h.blue_early (by omega)
    have hs := h.sam_early (by omega)
    constructor <;> dsimp only [phase0] <;> intros <;> omega
  · rw [DoApplyAction_at1 h11 h12 hp] at happ
    cases happ
    rw [phaseMoves_blue (Or.inr (Or.inl hp)), mem_placementLoop] at hmem
    have he := h.blue_early (by omega)
    have hs := h.sam_early (by omega)
    constructor <;> dsimp only [phase1] <;> intros <;> omega
  · rw [DoApplyAction_at2 h11 h12 hp] at happ
    cases happ
    rw [phaseMoves_blue (Or.inr (Or.inr hp)), mem_placementLoop] at hmem
    have he := h.blue_early (by omega)
    have hs := h.sam_early (by omega)
    constructor <;> dsimp only [phase2, Board.blueSum, Board.samSum] <;> intros <;> omega
  · rw [DoApplyAction_at3 h11 h12 hp] at happ
    cases happ
    have he := h.blue_late (by omega)
    have hs := h.sam_early (by omega)
    simp only [Board.blueSum] at he
    constructor <;> dsimp only [phase3, Board.blueSum, Board.samSum] <;> intros <;> omega
  · rw [DoApplyAction_at4 h11 h12 hp] at happ
    cases happ
    rw [phaseMoves_4 hp, mem_placementLoop] at hmem
    have he := h.blue_late (by omega)
    have hs := h.sam_early (by omega)
    simp only [Board.blueSum] at he
    constructor <;> dsimp only [phase4, Board.blueSum, Board.samSum] <;> intros <;> omega
  · rw [DoApplyAction_at5 h11 h12 hp] at happ
    have hsh := phase5_shrinks (fun hc ha hm => mem_LegalActions_phase5 hm0 hp hc ha hm) happ
    exact h.of_shrinks hsh (by omega)
  · rw [DoApplyAction_at6 h11 h12 hp] at happ
    cases happ
    exact h.of_shrinks (phase6_shrinks s m) (by omega)
  · rw [DoApplyAction_at7 h11 h12 hp] at happ
    exact h.of_shrinks (phase7_shrinks happ) (by omega)
  · rw [DoApplyAction_at8 h11 h12 hp] at happ
    obtain ⟨⟨-, a1, a2, a3, a4⟩, a5⟩ := phase8_shrinks happ
    have he := h.blue_late (by omega)
    have hs := h.sam_late (by omega)
    dsimp only at a1 a2 a3 a4
    exact PoolInv.of_late (by omega) (by omega) (by omega) (by omega) (by omega) (by omega)
  · rw [DoApplyAction_at9 h11 h12 hp] at happ
    exact h.of_shrinks (phase9_shrinks happ) (by omega)

/-! ## Reachability -/

theorem ReachableZero.poolInv {s : State} (h : ReachableZero s) : PoolInv s := by
  induction h with
  | init => exact PoolInv.init
  | step _ hst ih => exact ih.step hst

theorem ReachableZero.toReachable {s : State} (h : ReachableZero s) : Reachable s := by
  induction h with
  | init => exact Reachable.init
  | step _ hst ih =>
    obtain ⟨m, hm, happ⟩ := hst
    exact Reachable.step ih ⟨0, m, hm, happ⟩

theorem ReachableZero.ofPlay {s t : State} (ms : List Int) (hs : ReachableZero s)
    (h : playFrom s ms = some t) : ReachableZero t := by
  induction ms generalizing s with
  | nil =>
    simp only [CounterAir.playFrom, Option.some.injEq] at h
    exact h ▸ hs
  | cons m ms ih =>
    simp only [CounterAir.playFrom] at h
    split_ifs at h with hm
    cases hd : DoApplyAction s m with
    | error e => rw [hd] at h; cases h
    | ok u =>
      rw [hd] at h
      exact ih (ReachableZero.step hs ⟨m, hm, hd⟩) h

theorem Reachable.ofPlayWith {s t : State} (ms : List (Int × Int)) (hs : Reachable s)
    (h : playWith s ms = some t) : Reachable t := by
  induction ms generalizing s with
  | nil =>
    simp only [CounterAir.playWith, Option.some.injEq] at h
    exact h ▸ hs
  | cons p ms ih =>
    obtain ⟨i, m⟩ := p
    simp only [CounterAir.playWith] at h
    split_ifs at h with hm
    cases hd : DoApplyAction s m with
    | error e => rw [hd] at h; cases h
    | ok u =>
      rw [hd] at h
      exact ih (Reachable.step hs ⟨i, m, hm, hd⟩) h

theorem Reachable.playFrom {s t : State} (ms : List Int) (hs : Reachable s)
    (h : playFrom s ms = some t) : Reachable t := by
  induction ms generalizing s with
  | nil =>
    simp only [CounterAir.playFrom, Option.some.injEq] at h
    exact h ▸ hs
  | cons m ms ih =>
    simp only [CounterAir.playFrom] at h
    split_ifs at h with hm
    cases hd : DoApplyAction s m with
    | error e => rw [hd] at h; cases h
    | ok u =>
      rw [hd] at h
      exact ih (Reachable.step hs ⟨0, m, hm, hd⟩) h

theorem quietWaveEnd_reachable : Reachable quietWaveEnd :=
  Reachable.playFrom quietWave Reachable.init (by decide)

theorem quietWaveEnd_fromZero : ReachableZero quietWaveEnd :=
  ReachableZero.ofPlay quietWave ReachableZero.init (by decide)

theorem placementLoop_zero {p : Int} (hp : 0 ≤ p) : placementLoop 0 p = zeroTo p := by
  unfold placementLoop zeroTo
  have h1 : (p + 1 - 0).toNat = p.toNat + 1 := by omega
  rw [h1]
  apply List.map_congr_left
  intro k _
  simp

/-- With the counter of the placement loop started at `0`, a non-terminal state
of a placement phase whose pool is `p ≥ 0` is offered exactly `0, 1, …, p`. -/
theorem LegalActions_placement_zero {s : State} {p : Int} (ht : IsTerminal s = false)
    (hp : 0 ≤ p)
    (hph : (s.current_phase_ = 0 ∨ s.current_phase_ = 1 ∨ s.current_phase_ = 2)
        ∧ s.blue_placeable_fighters_ = p
      ∨ s.current_phase_ = 3 ∧ s.red_placeable_fighters_ = p
      ∨ s.current_phase_ = 4 ∧ s.red_placeable_sams_ = p) :
    LegalActions 0 s = zeroTo p := by
  have hmoves : phaseMoves 0 s = placementLoop 0 p := by
    rcases hph with ⟨h, rfl⟩ | ⟨h, rfl⟩ | ⟨h, rfl⟩
    · exact phaseMoves_blue h
    · exact phaseMoves_3 h
    · exact phaseMoves_4 h
  have hne : ¬ (placementLoop 0 p).isEmpty = true := by
    rw [List.isEmpty_iff, placementLoop_eq_nil]
    omega
  unfold LegalActions
  rw [ht]
  simp only [Bool.false_eq_true, if_false, hmoves, if_neg hne]
  exact placementLoop_zero hp

/-! ## The claims -/

/-- C1, the code at the failing start of the loop counter: `for (int i; …)`
gives `i` no value, and when it starts at `3` the initial state (phase 0, pool
10) is offered `3, …, 10` and not `0, …, 10`; only a start at `0` gives the
documented list. -/
theorem C1_placement_loop_counter_start :
    LegalActions 3 NewInitialState = [3, 4, 5, 6, 7, 8, 9, 10]
    ∧ LegalActions 3 NewInitialState ≠ zeroTo 10
    ∧ LegalActions 0 NewInitialState = [0, 1, 2, 3, 4, 5, 6, 7, 8, 9, 10] := by
  decide

/-- C2: in phase `p ∈ {0, 1}` a move `m` other than `11` and `12` stores `m`
in `board_[2p]`, takes `m` from `blue_placeable_fighters_`, moves to phase
`p + 1`, and changes nothing else. -/
theorem C2_place_escort_high_strike (s : State) (m : Int)
    (hp : s.current_phase_ = 0 ∨ s.current_phase_ = 1) (h11 : m ≠ 11) (h12 : m ≠ 12) :
    DoApplyAction s m = .ok { s with
      board_ := if s.current_phase_ = 0 then { s.board_ with b0 := m }
        else { s.board_ with b2 := m }
      blue_placeable_fighters_ := s.blue_placeable_fighters_ - m
      current_phase_ := s.current_phase_ + 1 } := by
  rcases hp with hp | hp <;> simp [DoApplyAction, h11, h12, hp, phase0, phase1]

/-- C2 at move `5` on the initial state: Escort-attacking is 5, the Blue pool
is 5, the phase is 1. -/
theorem C2_place_escort_high_strike_witness :
    (DoApplyAction NewInitialState 5).toOption.map
      (fun t => (t.board_.b0, t.blue_placeable_fighters_, t.current_phase_))
      = some (5, 5, 1) := by
  rw [C2_place_escort_high_strike NewInitialState 5 (Or.inl rfl) (by decide) (by decide)]
  decide

/-- C3: in phase 2, with Blue pool `P`, a move `m` other than `11` and `12`
gives `board_[4] = m`, `board_[6] = P - m`, an empty Blue pool, the other
player to move (`1 - current_player_`) and phase 3; the two cells sum to `P`. -/
theorem C3_place_sead_low_strike (s : State) (m : Int)
    (hp : s.current_phase_ = 2) (h11 : m ≠ 11) (h12 : m ≠ 12) :
    ∃ t, DoApplyAction s m = .ok t
      ∧ t.board_.b4 = m
      ∧ t.board_.b6 = s.blue_placeable_fighters_ - m
      ∧ t.blue_placeable_fighters_ = 0
      ∧ t.current_player_ = 1 - s.current_player_
      ∧ t.current_phase_ = 3
      ∧ t.board_.b4 + t.board_.b6 = s.blue_placeable_fighters_ := by
  refine ⟨phase2 s m, ?_, rfl, rfl, rfl, rfl, ?_, ?_⟩
  · simp [DoApplyAction, h11, h12, hp]
  · simp [phase2, hp]
  · simp [phase2]

/-- C3 at the state after the moves `3, 2` and the move `4`: SEAD 4, Low Strike
1, Red to move, phase 3. -/
theorem C3_place_sead_low_strike_witness :
    ∃ t, DoApplyAction { NewInitialState with
          current_phase_ := 2, blue_placeable_fighters_ := 5 } 4 = .ok t
      ∧ t.board_.b4 = 4 ∧ t.board_.b6 = 5 - 4 ∧ t.blue_placeable_fighters_ = 0
      ∧ t.current_player_ = 1 - 0 ∧ t.current_phase_ = 3
      ∧ t.board_.b4 + t.board_.b6 = 5 :=
  C3_place_sead_low_strike { NewInitialState with
    current_phase_ := 2, blue_placeable_fighters_ := 5 } 4 rfl (by decide) (by decide)

/-- C4: in phase 4, with SAM pool `S`, a move `m` other than `11` and `12`
gives `board_[10] = m`, `board_[12] = S - m`, an empty SAM pool,
`board_[16] = 4`, the other player to move and phase 5. -/
theorem C4_place_sams (s : State) (m : Int)
    (hp : s.current_phase_ = 4) (h11 : m ≠ 11) (h12 : m ≠ 12) :
    ∃ t, DoApplyAction s m = .ok t
      ∧ t.board_.b10 = m
      ∧ t.board_.b12 = s.red_placeable_sams_ - m
      ∧ t.red_placeable_sams_ = 0
      ∧ t.board_.b16 = 4
      ∧ t.current_player_ = 1 - s.current_player_
      ∧ t.current_phase_ = 5 := by
  refine ⟨phase4 s m, ?_, rfl, rfl, rfl, rfl, rfl, ?_⟩
  · simp [DoApplyAction, h11, h12, hp]
  · simp [phase4, hp]

/-- C4 at a phase-4 state with Red to move and four SAMs, move `1`. -/
theorem C4_place_sams_witness :
    ∃ t, DoApplyAction { NewInitialState with
          current_phase_ := 4, current_player_ := 1 } 1 = .ok t
      ∧ t.board_.b10 = 1 ∧ t.board_.b12 = 4 - 1 ∧ t.red_placeable_sams_ = 0
      ∧ t.board_.b16 = 4 ∧ t.current_player_ = 1 - 1 ∧ t.current_phase_ = 5 :=
  C4_place_sams { NewInitialState with current_phase_ := 4, current_player_ := 1 } 1
    rfl (by decide) (by decide)

/-- C5: with `num_moves_ < 200`, move `11` replaces `current_player_` by
`1 - current_player_`, adds one to `num_moves_`, sets `is_attacking_`, and
changes nothing else. -/
theorem C5_pass_frame (s : State) (h : s.num_moves_ < 200) :
    DoApplyAction s 11 = .ok { s with
      current_player_ := 1 - s.current_player_
      num_moves_ := s.num_moves_ + 1
      is_attacking_ := true } := by
  have : ¬ (s.num_moves_ + 1 > 200) := by omega
  simp [DoApplyAction, applyPass, this]

/-- C5 on the initial state: Red is to move and one move is counted. -/
theorem C5_pass_frame_witness :
    DoApplyAction NewInitialState 11 = .ok { NewInitialState with
      current_player_ := 1 - 0
      num_moves_ := 0 + 1
      is_attacking_ := true } :=
  C5_pass_frame NewInitialState (by decide)

/-- C6: move `11` ends in the fatal error exactly when `num_moves_` was at
least 200 before the move, returns a state exactly when it was at most 199, and
has no other way to fail. -/
theorem C6_pass_fatal_iff (s : State) :
    (DoApplyAction s 11 = .error Fault.fatal ↔ 200 ≤ s.num_moves_)
    ∧ ((∃ t, DoApplyAction s 11 = .ok t) ↔ s.num_moves_ ≤ 199)
    ∧ DoApplyAction s 11 ≠ .error Fault.outOfBounds := by
  simp only [DoApplyAction, applyPass, if_true]
  by_cases h : s.num_moves_ + 1 > 200
  · rw [if_pos h]
    refine ⟨?_, ?_, ?_⟩
    · constructor
      · intro _
        omega
      · intro _
        rfl
    · constructor
      · rintro ⟨t, ht⟩
        cases ht
      · intro h2
        omega
    · intro hc
      cases hc
  · rw [if_neg h]
    refine ⟨?_, ?_, ?_⟩
    · constructor
      · intro hc
        cases hc
      · intro h2
        omega
    · constructor
      · intro _
        omega
      · intro _
        exact ⟨_, rfl⟩
    · intro hc
      cases hc

/-- C7: in a phase `p` of `0 … 8`, move `12` gives phase `p + 1`,
`is_attacking_` set and Blue to move; besides these only `outcome_` and the
four `max_…_attacks_` caps can differ from the state before, so the wave, the
move count, the board, the hits, the points, the pools and the four attack
counters are unchanged. -/
theorem C7_advance_phase_frame (s : State)
    (hp : 0 ≤ s.current_phase_ ∧ s.current_phase_ ≤ 8) :
    ∃ o ml ma mp mb, DoApplyAction s 12 = .ok { s with
      current_phase_ := s.current_phase_ + 1
      is_attacking_ := true
      current_player_ := 0
      outcome_ := o
      max_low_strike_attacks_ := ml
      max_active_sam_attacks_ := ma
      max_passive_sam_attacks_ := mp
      max_airbase_attacks_ := mb } := by
  obtain ⟨o, ml, ma, mp, mb, h⟩ := @applyAdvance_of_ne9 s (by omega)
  refine ⟨o, ml, ma, mp, mb, ?_⟩
  rw [← h]
  simp [DoApplyAction]

/-- C7 at the initial state put in phase 5. -/
theorem C7_advance_phase_frame_witness :
    ∃ o ml ma mp mb, DoApplyAction { NewInitialState with current_phase_ := 5 } 12
      = .ok { NewInitialState with
        current_phase_ := 5 + 1
        is_attacking_ := true
        current_player_ := 0
        outcome_ := o
        max_low_strike_attacks_ := ml
        max_active_sam_attacks_ := ma
        max_passive_sam_attacks_ := mp
        max_airbase_attacks_ := mb } :=
  C7_advance_phase_frame { NewInitialState with current_phase_ := 5 }
    ⟨by decide, by decide⟩

/-- C8: in phase 9 of wave `w`, move `12` gives phase 0, wave `w + 1`, the four
attack counters at 0, `red_placeable_fighters_` equal to
`board_[8] + board_[9] + board_[14]` of the state before, Blue to move and
`is_attacking_` set. -/
theorem C8_next_wave (s : State) (hp : s.current_phase_ = 9) :
    ∃ t, DoApplyAction s 12 = .ok t
      ∧ t.current_phase_ = 0
      ∧ t.current_wave_ = s.current_wave_ + 1
      ∧ t.low_strike_attacks_ = 0
      ∧ t.active_sam_attacks_ = 0
      ∧ t.passive_sam_attacks_ = 0
      ∧ t.airbase_attacks_ = 0
      ∧ t.red_placeable_fighters_ = s.board_.b8 + s.board_.b9 + s.board_.b14
      ∧ t.current_player_ = 0
      ∧ t.is_attacking_ = true := by
  obtain ⟨o, h⟩ := applyAdvance_of_eq9 hp
  refine ⟨applyAdvance s, by simp [DoApplyAction], ?_⟩
  rw [h]
  exact ⟨rfl, rfl, rfl, rfl, rfl, rfl, rfl, rfl, rfl⟩

/-- C8 at the end of `quietWave`. -/
theorem C8_next_wave_witness :
    ∃ t, DoApplyAction quietWaveEnd 12 = .ok t
      ∧ t.current_phase_ = 0
      ∧ t.current_wave_ = 0 + 1
      ∧ t.low_strike_attacks_ = 0
      ∧ t.active_sam_attacks_ = 0
      ∧ t.passive_sam_attacks_ = 0
      ∧ t.airbase_attacks_ = 0
      ∧ t.red_placeable_fighters_ = 0 + 0 + 0
      ∧ t.current_player_ = 0
      ∧ t.is_attacking_ = true :=
  C8_next_wave quietWaveEnd rfl

/-- When every placement loop counter starts at `0`: in a state of phase 9
reached by legal play, move `12` leaves `blue_placeable_fighters_` equal to the
sum of `board_[0 … 7]` and `red_placeable_sams_` equal to the sum of
`board_[10 … 13]` of the state before: the `+=` of the source adds to pools
that are empty there. -/
theorem pools_recomputed_zero_start (s : State) (hr : ReachableZero s)
    (hp : s.current_phase_ = 9) :
    ∃ t, DoApplyAction s 12 = .ok t
      ∧ t.blue_placeable_fighters_ = s.board_.b0 + s.board_.b1 + s.board_.b2
          + s.board_.b3 + s.board_.b4 + s.board_.b5 + s.board_.b6 + s.board_.b7
      ∧ t.red_placeable_sams_ = s.board_.b10 + s.board_.b11 + s.board_.b12
          + s.board_.b13 := by
  have hinv := hr.poolInv
  obtain ⟨hb, -⟩ := hinv.blue_late (by omega)
  obtain ⟨hs, -⟩ := hinv.sam_late (by omega)
  obtain ⟨o, h⟩ := applyAdvance_of_eq9 hp
  refine ⟨applyAdvance s, by simp [DoApplyAction], ?_⟩
  rw [h]
  dsimp only
  omega

/-- The lemma `pools_recomputed_zero_start` at the end of `quietWave`: ten Blue
units and three SAMs survive. -/
theorem pools_recomputed_at_quietWaveEnd :
    ∃ t, DoApplyAction quietWaveEnd 12 = .ok t
      ∧ t.blue_placeable_fighters_ = 0 + 0 + 0 + 0 + 0 + 0 + 3 + 7
      ∧ t.red_placeable_sams_ = 0 + 0 + 3 + 0 :=
  pools_recomputed_zero_start quietWaveEnd quietWaveEnd_fromZero rfl

/-- C9, the code on a legal play: `leftoverPool` is legal play to a state of
phase 9 whose only legal move is `12`, where the cells `board_[0 … 7]` sum to
`-2`, the cells `board_[10 … 13]` to 4 and the Blue pool still holds 12.  Move
`12` leaves `blue_placeable_fighters_ = 10`, the old pool plus the sum and not
the sum `-2`; `red_placeable_sams_` is 4, the sum, its pool being empty. -/
theorem C9_pool_added_not_recomputed :
    Reachable (playWithEnd NewInitialState leftoverPool)
    ∧ (playWith NewInitialState leftoverPool).map
        (fun s => (s.current_phase_, LegalActions 0 s,
          s.board_.b0 + s.board_.b1 + s.board_.b2 + s.board_.b3 + s.board_.b4 + s.board_.b5
            + s.board_.b6 + s.board_.b7,
          s.board_.b10 + s.board_.b11 + s.board_.b12 + s.board_.b13,
          s.blue_placeable_fighters_, s.red_placeable_sams_))
        = some (9, [12], -2, 4, 12, 0)
    ∧ (playWith NewInitialState (leftoverPool ++ [(0, 12)])).map
        (fun t => (t.blue_placeable_fighters_, t.red_placeable_sams_)) = some (10, 4) :=
  ⟨Reachable.ofPlayWith leftoverPool Reachable.init (by decide), by decide, by decide⟩

/-- In phase 9, move `12` leaves in the Airbase-attacking cell `board_[14]` the
value the Airbase-evading cell `board_[15]` had before the move, and 0 in each
of the other seventeen cells, `board_[15]` included. -/
theorem rollover_board (s : State) (hp : s.current_phase_ = 9) :
    ∃ t, DoApplyAction s 12 = .ok t
      ∧ t.board_ = ⟨0, 0, 0, 0, 0, 0, 0, 0, 0, 0, 0, 0, 0, 0, s.board_.b15, 0, 0, 0⟩ := by
  obtain ⟨o, h⟩ := applyAdvance_of_eq9 hp
  refine ⟨applyAdvance s, by simp [DoApplyAction], ?_⟩
  rw [h]
  rfl

/-- The lemma `rollover_board` at the end of `quietWave`. -/
theorem rollover_board_at_quietWaveEnd :
    ∃ t, DoApplyAction quietWaveEnd 12 = .ok t
      ∧ t.board_ = ⟨0, 0, 0, 0, 0, 0, 0, 0, 0, 0, 0, 0, 0, 0, 4, 0, 0, 0⟩ :=
  rollover_board quietWaveEnd rfl

/-- C10, the code on a legal play: at the end of `quietWave`, a phase-9 state
whose only legal move is `12` and whose Airbase-evading cell `board_[15]`
holds 4, move `12` leaves `board_[15] = 0` and `board_[14] = 4`, the
Airbase-attacking cell, and a Red fighter pool of 0.  Three placements of Blue
later the only legal move of phase 3 is `0`, which assigns `board_[14] = 0`:
the four fighters are gone, with the points of Blue still at 1. -/
theorem C10_evading_fighters_vanish :
    playFrom NewInitialState quietWave = some quietWaveEnd
    ∧ (quietWaveEnd.current_phase_, LegalActions 0 quietWaveEnd, quietWaveEnd.board_.b14,
        quietWaveEnd.board_.b15, quietWaveEnd.blue_points_) = (9, [12], 0, 4, 1)
    ∧ (playFrom quietWaveEnd [12]).map
        (fun t => (t.board_.b14, t.board_.b15, t.red_placeable_fighters_)) = some (4, 0, 0)
    ∧ (playFrom quietWaveEnd [12, 0, 0, 0]).map
        (fun t => (t.current_phase_, t.board_.b14, LegalActions 0 t)) = some (3, 4, [0])
    ∧ (playFrom quietWaveEnd [12, 0, 0, 0, 0]).map
        (fun t => (t.board_.b8, t.board_.b9, t.board_.b14, t.board_.b15, t.blue_points_))
        = some (0, 0, 0, 0, 1) := by
  refine ⟨?_, ?_, ?_, ?_, ?_⟩ <;> decide

/-! ## The legal-move lists, statement by statement -/

theorem legal5_eq (s : State) :
    legal5 s =
      pushIfEmpty (s.board_.b8 = 0 ∨ (s.board_.b0 = 0 ∧ s.board_.b2 = 0 ∧ s.board_.b6 = 0)) 12
        ((fun moves =>
            if s.current_player_ = 1 then
              if s.is_attacking_ then
                pushIf (s.board_.b8 > 0 ∧ s.board_.b6 > 0) 2
                  (pushIf (s.board_.b8 > 0 ∧ s.board_.b2 > 0) 1
                    (pushIf (s.board_.b8 > 0 ∧ s.board_.b0 > 0) 0 moves))
              else moves ++ [0] ++ [1]
            else moves)
          (if s.current_player_ = 0 then
            if s.is_attacking_ then pushIf (s.board_.b0 > 0 ∧ s.board_.b8 > 0) 1 []
            else
              pushIf (s.attacking_box_ = 6) 3
                (pushIf (s.attacking_box_ = 2) 2
                  (pushIf (s.board_.b0 > 0) 1 ([] ++ [0])))
          else [])) := by
  rfl

theorem legal6_eq (s : State) :
    legal6 s =
      pushIf ((s.board_.b10 = 0 ∨ s.board_.b2 = 0)
          ∧ ((s.board_.b16 = 0 ∨ s.board_.b6 = 0)
            ∨ s.low_strike_attacks_ = s.max_low_strike_attacks_)
          ∧ (s.board_.b4 = 0 ∨ (s.board_.b10 = 0 ∧ s.board_.b16 = 0))) 12
        ((fun moves =>
            if s.current_player_ = 1 then
              if s.is_attacking_ then
                pushIf (s.board_.b16 > 0 ∧ s.board_.b6 > 0
                    ∧ s.low_strike_attacks_ < s.max_low_strike_attacks_) 1
                  (pushIf (s.board_.b10 > 0 ∧ s.board_.b2 > 0) 0 moves)
              else moves ++ [0]
            else moves)
          (if s.current_player_ = 0 then
            if s.is_attacking_ then
              if s.board_.b4 > 0 then
                pushIf (s.board_.b16 > 0) 1 (pushIf (s.board_.b10 > 0) 0 [])
              else []
            else
              pushIf (s.attacking_box_ = 6) 3
                (if s.attacking_box_ = 2 then
                  pushIf (s.board_.b4 > 0) 2 ([] ++ [0] ++ [1])
                else [])
          else [])) := by
  rfl

theorem legal7_eq (s : State) :
    legal7 s =
      orPush 12
        (if s.board_.b2 > 0 then
          pushIf ((s.board_.b12 > 0 ∨ s.board_.b13 > 0)
              ∧ s.passive_sam_attacks_ < s.max_passive_sam_attacks_) 2
            (pushIf ((s.board_.b10 > 0 ∨ s.board_.b11 > 0)
                ∧ s.active_sam_attacks_ < s.max_active_sam_attacks_) 1
              (pushIf ((s.board_.b14 > 0 ∨ s.board_.b15 > 0)
                  ∧ s.airbase_attacks_ < s.max_airbase_attacks_) 0 []))
        else []) := by
  rfl

theorem legal8_eq (s : State) :
    legal8 s =
      orPush 12
        (if s.current_wave_ = 0 ∨ s.current_wave_ = 2 then
          pushIf ((s.board_.b12 > 0 ∨ s.board_.b13 > 0)
              ∧ s.passive_sam_attacks_ < s.max_passive_sam_attacks_) 1
            (pushIf ((s.board_.b10 > 0 ∨ s.board_.b11 > 0)
                ∧ s.active_sam_attacks_ < s.max_active_sam_attacks_) 0 [])
        else []) := by
  rfl

theorem legal9_eq (s : State) :
    legal9 s =
      orPush 12
        (if s.board_.b6 > 0 then
          pushIf (s.board_.b8 > 0 ∨ s.board_.b9 > 0) 3
            (pushIf ((s.board_.b12 > 0 ∨ s.board_.b13 > 0)
                ∧ s.passive_sam_attacks_ < s.max_passive_sam_attacks_) 2
              (pushIf ((s.board_.b10 > 0 ∨ s.board_.b11 > 0)
                  ∧ s.active_sam_attacks_ < s.max_active_sam_attacks_) 1
                (pushIf (s.board_.b14 > 0) 0 [])))
        else []) := by
  rfl

theorem LegalActions_eq (i : Int) (s : State) :
    LegalActions i s = if IsTerminal s then [] else orPush 11 (phaseMoves i s) := by
  rfl

theorem player_cases (s : State) :
    ((s.current_player_ = 0) = True ∧ (s.current_player_ = 1) = False)
    ∨ ((s.current_player_ = 0) = False ∧ (s.current_player_ = 1) = True)
    ∨ ((s.current_player_ = 0) = False ∧ (s.current_player_ = 1) = False) := by
  by_cases h0 : s.current_player_ = 0
  · exact Or.inl ⟨eq_true h0, eq_false (by omega)⟩
  · by_cases h1 : s.current_player_ = 1
    · exact Or.inr (Or.inl ⟨eq_false h0, eq_true h1⟩)
    · exact Or.inr (Or.inr ⟨eq_false h0, eq_false h1⟩)

theorem attacking_cases (s : State) :
    (s.is_attacking_ = true) = True ∨ (s.is_attacking_ = true) = False := by
  by_cases ha : s.is_attacking_ = true
  · exact Or.inl (eq_true ha)
  · exact Or.inr (eq_false ha)

theorem placementLoop_increasing (i p : Int) :
    List.Pairwise (fun a b => a < b) (placementLoop i p) := by
  unfold placementLoop
  rw [List.pairwise_map]
  refine List.Pairwise.imp ?_ (List.pairwise_lt_range _)
  intro a b hab
  simp only [Int.ofNat_eq_coe]
  omega

theorem legal5_increasing (s : State) : List.Pairwise (fun a b => a < b) (legal5 s) := by
  rw [legal5_eq]
  rcases player_cases s with ⟨h0, h1⟩ | ⟨h0, h1⟩ | ⟨h0, h1⟩ <;>
    rcases attacking_cases s with ha | ha <;>
    simp only [h0, h1, ha, if_true, if_false, pushIfEmpty, pushIf] <;>
    first
      | decide
      | (split_ifs <;> decide)

theorem legal6_increasing (s : State) : List.Pairwise (fun a b => a < b) (legal6 s) := by
  rw [legal6_eq]
  rcases player_cases s with ⟨h0, h1⟩ | ⟨h0, h1⟩ | ⟨h0, h1⟩ <;>
    rcases attacking_cases s with ha | ha <;>
    simp only [h0, h1, ha, if_true, if_false, pushIf] <;>
    first
      | decide
      | (split_ifs <;> decide)

theorem legal7_increasing (s : State) : List.Pairwise (fun a b => a < b) (legal7 s) := by
  rw [legal7_eq]
  simp only [orPush, pushIf]
  split_ifs <;> decide

theorem legal8_increasing (s : State) : List.Pairwise (fun a b => a < b) (legal8 s) := by
  rw [legal8_eq]
  simp only [orPush, pushIf]
  split_ifs <;> decide

theorem legal9_increasing (s : State) : List.Pairwise (fun a b => a < b) (legal9 s) := by
  rw [legal9_eq]
  simp only [orPush, pushIf]
  split_ifs <;> decide

theorem phaseMoves_increasing (i : Int) (s : State) :
    List.Pairwise (fun a b => a < b) (phaseMoves i s) := by
  unfold phaseMoves
  split_ifs
  all_goals first
    | exact placementLoop_increasing _ _
    | exact legal5_increasing s
    | exact legal6_increasing s
    | exact legal7_increasing s
    | exact legal8_increasing s
    | exact legal9_increasing s
    | exact List.Pairwise.nil

/-! ## The accumulator `red_hits_` -/

theorem bump_red_hits {s t : State} {i d : Int} (h : s.bump i d = .ok t) :
    t.red_hits_ = s.red_hits_ := by
  obtain ⟨c, -, rfl⟩ := bump_ok h
  rfl

theorem blueLoss_red_hits {s t : State} (h : blueLoss s = .ok t) :
    t.red_hits_ = s.red_hits_ := by
  unfold blueLoss at h
  obtain ⟨u, hu, rfl⟩ := map_eq_ok h
  have h1 := bump_red_hits hu
  exact h1

theorem phase5BlueResolve_red_hits {s t : State} {m : Int}
    (h : phase5BlueResolve s m = .ok t) : t.red_hits_ = s.red_hits_ := by
  unfold phase5BlueResolve at h
  obtain ⟨u, hu, rfl⟩ := map_eq_ok h
  show u.red_hits_ = s.red_hits_
  dsimp only at hu
  split_ifs at hu
  · have h1 := blueLoss_red_hits hu
    exact h1
  · cases hu; rfl
  · obtain ⟨v, hv, rfl⟩ := map_eq_ok hu
    have h1 := blueLoss_red_hits hv
    exact h1
  · obtain ⟨v, hv, rfl⟩ := map_eq_ok hu
    cases hv; rfl
  · have h1 := blueLoss_red_hits hu
    exact h1
  · obtain ⟨v, hv, hu⟩ := bind_eq_ok hu
    have h1 := bump_red_hits hu
    have h2 := bump_red_hits hv
    dsimp only at h2
    omega
  · cases hu; rfl

theorem phase5_redHitsOk {s t : State} {m : Int} (h : phase5 s m = .ok t)
    (hs : RedHitsOk s) : RedHitsOk t := by
  unfold phase5 at h
  obtain ⟨u, hu, rfl⟩ := map_eq_ok h
  show RedHitsOk u
  obtain ⟨h1, h2⟩ := hs
  split_ifs at hu
  · cases hu
    unfold phase5BlueDeclare
    dsimp only
    split_ifs <;> exact ⟨h1, h2⟩
  · have := phase5BlueResolve_red_hits hu
    unfold RedHitsOk
    omega
  · cases hu
    unfold phase5RedDeclare
    dsimp only
    split_ifs <;> exact ⟨h1, h2⟩
  · cases hu
    unfold phase5RedResolve RedHitsOk
    dsimp only
    split_ifs <;> (try dsimp only) <;> omega
  · cases hu
    exact ⟨h1, h2⟩

theorem phase6_redHitsOk (s : State) (m : Int) (hs : RedHitsOk s) :
    RedHitsOk (phase6 s m) := by
  obtain ⟨h1, h2⟩ := hs
  unfold phase6 phase6BlueDeclare phase6BlueResolve phase6RedDeclare phase6RedResolve
    phase6HighStrikeLost RedHitsOk
  dsimp only
  split_ifs <;> (try dsimp only) <;> omega

theorem groundKill_redHitsOk {s t : State} (h : groundKill s = .ok t)
    (h1 : 1 ≤ s.red_hits_) (h2 : s.red_hits_ ≤ 4) : RedHitsOk t := by
  unfold groundKill at h
  split_ifs at h with h4
  · obtain ⟨u, hu, rfl⟩ := map_eq_ok h
    have := bump_red_hits hu
    unfold RedHitsOk
    dsimp only at this ⊢
    omega
  · cases h
    unfold RedHitsOk
    omega

theorem aim_red_hits (s : State) :
    (aimAirbase s).red_hits_ = s.red_hits_ ∧ (aimActiveSam s).red_hits_ = s.red_hits_
    ∧ (aimPassiveSam s).red_hits_ = s.red_hits_ := by
  unfold aimAirbase aimActiveSam aimPassiveSam
  dsimp only
  refine ⟨?_, ?_, ?_⟩ <;> split_ifs <;> rfl

theorem phase7_redHitsOk {s t : State} {m : Int} (h : phase7 s m = .ok t)
    (hs : RedHitsOk s) : RedHitsOk t := by
  obtain ⟨h1, h2⟩ := hs
  unfold phase7 at h
  dsimp only at h
  obtain ⟨u, hu, rfl⟩ := map_eq_ok h
  show RedHitsOk u
  refine groundKill_redHitsOk hu ?_ ?_ <;>
    split_ifs <;> simp only [(aim_red_hits _).1, (aim_red_hits _).2.1, (aim_red_hits _).2.2] <;>
    omega

theorem phase8_redHitsOk {s t : State} {m : Int} (h : phase8 s m = .ok t)
    (hs : RedHitsOk s) : RedHitsOk t := by
  obtain ⟨h1, h2⟩ := hs
  unfold phase8 at h
  dsimp only at h
  obtain ⟨u, hu, rfl⟩ := map_eq_ok h
  show RedHitsOk u
  refine groundKill_redHitsOk hu ?_ ?_ <;>
    split_ifs <;> simp only [(aim_red_hits _).1, (aim_red_hits _).2.1, (aim_red_hits _).2.2] <;>
    omega

theorem phase9_redHitsOk {s t : State} {m : Int} (h : phase9 s m = .ok t)
    (hs : RedHitsOk s) : RedHitsOk t := by
  have key : ∀ s0 : State, RedHitsOk s0 →
      ((if m = 1 then
          groundKill (aimActiveSam { s0 with red_hits_ := s0.red_hits_ + 1 })
        else .ok s0).bind fun s =>
      (if m = 2 then
          groundKill (aimPassiveSam { s with red_hits_ := s.red_hits_ + 1 })
        else .ok s).map fun s =>
      let s := if m = 3 then flipIntercept s else s
      let s := { s with board_ := { s.board_ with b6 := s.board_.b6 - 1 } }
      { s with board_ := { s.board_ with b7 := s.board_.b7 + 1 } }) = .ok t →
      RedHitsOk t := by
    intro s0 hs0 h
    obtain ⟨u, hu, h⟩ := bind_eq_ok h
    obtain ⟨v, hv, rfl⟩ := map_eq_ok h
    have h1 : RedHitsOk u := by
      obtain ⟨a1, a2⟩ := hs0
      split_ifs at hu
      · refine groundKill_redHitsOk hu ?_ ?_ <;>
          simp only [(aim_red_hits _).2.1] <;> omega
      · cases hu
        exact ⟨a1, a2⟩
    have h2 : RedHitsOk v := by
      obtain ⟨a1, a2⟩ := h1
      split_ifs at hv
      · refine groundKill_redHitsOk hv ?_ ?_ <;>
          simp only [(aim_red_hits _).2.2] <;> omega
      · cases hv
        exact ⟨a1, a2⟩
    obtain ⟨a1, a2⟩ := h2
    unfold flipIntercept RedHitsOk
    dsimp only
    split_ifs <;> exact ⟨a1, a2⟩
  refine key (if m = 0 then flipAirbase s else s) ?_ h
  obtain ⟨a1, a2⟩ := hs
  unfold flipAirbase
  split_ifs <;> exact ⟨a1, a2⟩

theorem DoApplyAction_no_case {s : State} {m : Int} (h11 : m ≠ 11) (h12 : m ≠ 12)
    (hp : s.current_phase_ < 0 ∨ 9 < s.current_phase_) : DoApplyAction s m = .ok s := by
  have e0 : ¬ s.current_phase_ = 0 := by omega
  have e1 : ¬ s.current_phase_ = 1 := by omega
  have e2 : ¬ s.current_phase_ = 2 := by omega
  have e3 : ¬ s.current_phase_ = 3 := by omega
  have e4 : ¬ s.current_phase_ = 4 := by omega
  have e5 : ¬ s.current_phase_ = 5 := by omega
  have e6 : ¬ s.current_phase_ = 6 := by omega
  have e7 : ¬ s.current_phase_ = 7 := by omega
  have e8 : ¬ s.current_phase_ = 8 := by omega
  have e9 : ¬ s.current_phase_ = 9 := by omega
  simp [DoApplyAction, h11, h12, e0, e1, e2, e3, e4, e5, e6, e7, e8, e9]

theorem phase_cases (s : State) :
    s.current_phase_ = 0 ∨ s.current_phase_ = 1 ∨ s.current_phase_ = 2
    ∨ s.current_phase_ = 3 ∨ s.current_phase_ = 4 ∨ s.current_phase_ = 5
    ∨ s.current_phase_ = 6 ∨ s.current_phase_ = 7 ∨ s.current_phase_ = 8
    ∨ s.current_phase_ = 9 ∨ (s.current_phase_ < 0 ∨ 9 < s.current_phase_) := by
  omega

/-- Whatever the move, `DoApplyAction` keeps `red_hits_` in `0 … 3`. -/
theorem DoApplyAction_redHitsOk {s t : State} {m : Int} (h : DoApplyAction s m = .ok t)
    (hs : RedHitsOk s) : RedHitsOk t := by
  by_cases h11 : m = 11
  · subst h11
    unfold DoApplyAction applyPass at h
    rw [if_pos rfl] at h
    dsimp only at h
    split_ifs at h
    cases h
    exact hs
  by_cases h12 : m = 12
  · subst h12
    unfold DoApplyAction at h
    rw [if_neg h11, if_pos rfl] at h
    cases h
    by_cases h9 : s.current_phase_ = 9
    · obtain ⟨o, ho⟩ := applyAdvance_of_eq9 h9
      rw [ho]
      exact hs
    · obtain ⟨o, ml, ma, mp, mb, ho⟩ := applyAdvance_of_ne9 h9
      rw [ho]
      exact hs
  obtain ⟨h1, h2⟩ := hs
  rcases phase_cases s with hp | hp | hp | hp | hp | hp | hp | hp | hp | hp | hp
  · rw [DoApplyAction_at0 h11 h12 hp] at h
    cases h
    exact ⟨h1, h2⟩
  · rw [DoApplyAction_at1 h11 h12 hp] at h
    cases h
    exact ⟨h1, h2⟩
  · rw [DoApplyAction_at2 h11 h12 hp] at h
    cases h
    exact ⟨h1, h2⟩
  · rw [DoApplyAction_at3 h11 h12 hp] at h
    cases h
    exact ⟨h1, h2⟩
  · rw [DoApplyAction_at4 h11 h12 hp] at h
    cases h
    exact ⟨h1, h2⟩
  · rw [DoApplyAction_at5 h11 h12 hp] at h
    exact phase5_redHitsOk h ⟨h1, h2⟩
  · rw [DoApplyAction_at6 h11 h12 hp] at h
    cases h
    exact phase6_redHitsOk s m ⟨h1, h2⟩
  · rw [DoApplyAction_at7 h11 h12 hp] at h
    exact phase7_redHitsOk h ⟨h1, h2⟩
  · rw [DoApplyAction_at8 h11 h12 hp] at h
    exact phase8_redHitsOk h ⟨h1, h2⟩
  · rw [DoApplyAction_at9 h11 h12 hp] at h
    exact phase9_redHitsOk h ⟨h1, h2⟩
  · rw [DoApplyAction_no_case h11 h12 hp] at h
    cases h
    exact ⟨h1, h2⟩

theorem Reachable.redHitsOk {s : State} (h : Reachable s) : RedHitsOk s := by
  induction h with
  | init => exact ⟨by decide, by decide⟩
  | step _ hst ih =>
    obtain ⟨i, m, -, happ⟩ := hst
    exact DoApplyAction_redHitsOk happ ih

/-! ## What the legal-move lists can hold -/

theorem mem_legal5_range {s : State} {m : Int} (h : m ∈ legal5 s) : 0 ≤ m ∧ m ≤ 12 := by
  rw [legal5_eq] at h
  rcases player_cases s with ⟨h0, h1⟩ | ⟨h0, h1⟩ | ⟨h0, h1⟩ <;>
    rcases attacking_cases s with ha | ha <;>
    simp only [h0, h1, ha, if_true, if_false, pushIfEmpty, pushIf] at h <;>
    split_ifs at h <;> simp at h <;> omega

theorem mem_legal6_range {s : State} {m : Int} (h : m ∈ legal6 s) : 0 ≤ m ∧ m ≤ 12 := by
  rw [legal6_eq] at h
  rcases player_cases s with ⟨h0, h1⟩ | ⟨h0, h1⟩ | ⟨h0, h1⟩ <;>
    rcases attacking_cases s with ha | ha <;>
    simp only [h0, h1, ha, if_true, if_false, pushIf] at h <;>
    split_ifs at h <;> simp at h <;> omega

theorem mem_legal5_red_declare {s : State} {m : Int} (h : m ∈ legal5 s)
    (hc : s.current_player_ = 1) (ha : s.is_attacking_ = true) :
    m = 0 ∨ m = 1 ∨ m = 2 ∨ m = 12 := by
  rw [legal5_eq] at h
  have h0 : ¬ s.current_player_ = 0 := by omega
  simp only [h0, hc, ha, if_true, if_false, pushIfEmpty, pushIf] at h
  split_ifs at h <;> simp at h <;> omega

theorem mem_legal7 {s : State} {m : Int} (h : m ∈ legal7 s) :
    (m = 0 ∧ (s.board_.b14 > 0 ∨ s.board_.b15 > 0)) ∨ m = 1 ∨ m = 2 ∨ m = 12 := by
  rw [legal7_eq] at h
  simp only [orPush, pushIf] at h
  split_ifs at h <;> simp at h <;> omega

theorem mem_legal8 {s : State} {m : Int} (h : m ∈ legal8 s) : m = 0 ∨ m = 1 ∨ m = 12 := by
  rw [legal8_eq] at h
  simp only [orPush, pushIf] at h
  split_ifs at h <;> simp at h <;> omega

theorem mem_legal9 {s : State} {m : Int} (h : m ∈ legal9 s) :
    m = 0 ∨ m = 1 ∨ m = 2 ∨ m = 3 ∨ m = 12 := by
  rw [legal9_eq] at h
  simp only [orPush, pushIf] at h
  split_ifs at h <;> simp at h <;> omega

theorem phaseMoves_6 {i : Int} {s : State} (hp : s.current_phase_ = 6) :
    phaseMoves i s = legal6 s := by
  unfold phaseMoves
  simp [hp]

theorem phaseMoves_7 {i : Int} {s : State} (hp : s.current_phase_ = 7) :
    phaseMoves i s = legal7 s := by
  unfold phaseMoves
  simp [hp]

theorem phaseMoves_8 {i : Int} {s : State} (hp : s.current_phase_ = 8) :
    phaseMoves i s = legal8 s := by
  unfold phaseMoves
  simp [hp]

theorem phaseMoves_9 {i : Int} {s : State} (hp : s.current_phase_ = 9) :
    phaseMoves i s = legal9 s := by
  unfold phaseMoves
  simp [hp]

theorem phaseMoves_no_case {i : Int} {s : State}
    (hp : s.current_phase_ < 0 ∨ 9 < s.current_phase_) : phaseMoves i s = [] := by
  have e0 : ¬ s.current_phase_ = 0 := by omega
  have e1 : ¬ s.current_phase_ = 1 := by omega
  have e2 : ¬ s.current_phase_ = 2 := by omega
  have e3 : ¬ s.current_phase_ = 3 := by omega
  have e4 : ¬ s.current_phase_ = 4 := by omega
  have e5 : ¬ s.current_phase_ = 5 := by omega
  have e6 : ¬ s.current_phase_ = 6 := by omega
  have e7 : ¬ s.current_phase_ = 7 := by omega
  have e8 : ¬ s.current_phase_ = 8 := by omega
  have e9 : ¬ s.current_phase_ = 9 := by omega
  simp [phaseMoves, e0, e1, e2, e3, e4, e5, e6, e7, e8, e9]

/-! ## The Red fighter cells -/

theorem Wanes.rfl_of (s : State) : Wanes s s := ⟨rfl, le_refl _, fun h => h⟩

theorem Wanes.chain {s t u : State} (h1 : Wanes s t) (h2 : Wanes t u) : Wanes s u := by
  obtain ⟨a1, a2, a3⟩ := h1
  obtain ⟨b1, b2, b3⟩ := h2
  exact ⟨b1.trans a1, le_trans b2 a2, fun h => b3 (a3 h)⟩

theorem bump_dec_wanes {s t : State} {i : Int} (h : s.bump i (-1) = .ok t)
    (h15 : i = 15 → 0 < s.board_.b15) : Wanes s t := by
  obtain ⟨c, hc, rfl⟩ := bump_ok h
  rcases Board.addAt_index hc with
    rfl | rfl | rfl | rfl | rfl | rfl | rfl | rfl | rfl | rfl | rfl | rfl | rfl | rfl
      | rfl | rfl | rfl | rfl <;>
    (simp [Board.addAt] at hc; subst hc; refine ⟨rfl, ?_, ?_⟩ <;>
      (try simp only [Board.redFighters]) <;> intros <;> omega)

theorem blueLoss_wanes {s t : State} (h : blueLoss s = .ok t)
    (hab : s.attacking_box_ ≠ 15) : Wanes s t := by
  unfold blueLoss at h
  obtain ⟨u, hu, rfl⟩ := map_eq_ok h
  have h1 := bump_dec_wanes hu (fun hc => absurd hc hab)
  exact h1

theorem phase5BlueResolve_wanes {s t : State} {m : Int}
    (hab : s.attacking_box_ = 0 ∨ s.attacking_box_ = 2 ∨ s.attacking_box_ = 6)
    (h : phase5BlueResolve s m = .ok t) : Wanes s t := by
  have hne : s.attacking_box_ ≠ 15 := by omega
  unfold phase5BlueResolve at h
  obtain ⟨u, hu, rfl⟩ := map_eq_ok h
  suffices Wanes s u from this
  dsimp only at hu
  split_ifs at hu
  · have h1 := blueLoss_wanes hu hne
    exact h1
  · cases hu; exact Wanes.rfl_of _
  · obtain ⟨v, hv, rfl⟩ := map_eq_ok hu
    have h1 := blueLoss_wanes hv hne
    exact h1
  · obtain ⟨v, hv, rfl⟩ := map_eq_ok hu
    cases hv
    exact ⟨rfl, le_refl _, fun h => h⟩
  · have h1 := blueLoss_wanes hu hne
    exact h1
  · obtain ⟨v, hv, hu⟩ := bind_eq_ok hu
    obtain ⟨c, hc, rfl⟩ := bump_ok hv
    obtain ⟨e, he, rfl⟩ := bump_ok hu
    simp only [] at hc he
    rcases hab with hb | hb | hb <;> rw [hb] at hc he <;>
      simp [Board.addAt] at hc he <;> subst hc <;> subst he <;>
      exact ⟨rfl, le_refl _, fun h => h⟩
  · cases hu; exact Wanes.rfl_of _

theorem phase5_wanes {s t : State} {m : Int}
    (hab : s.current_player_ = 0 → s.is_attacking_ = false →
      (s.attacking_box_ = 0 ∨ s.attacking_box_ = 2 ∨ s.attacking_box_ = 6))
    (h : phase5 s m = .ok t) : Wanes s t := by
  unfold phase5 at h
  obtain ⟨u, hu, rfl⟩ := map_eq_ok h
  suffices Wanes s u from this
  split_ifs at hu with hp ha hq hb
  · cases hu
    unfold phase5BlueDeclare
    dsimp only
    split_ifs <;> exact ⟨rfl, le_refl _, fun h => h⟩
  · have ha2 : s.is_attacking_ = false := by simpa using ha
    exact phase5BlueResolve_wanes (hab hp ha2) hu
  · cases hu
    unfold phase5RedDeclare
    dsimp only
    split_ifs <;> refine ⟨rfl, ?_, fun h => h⟩ <;>
      simp only [Board.redFighters] <;> omega
  · cases hu
    unfold phase5RedResolve
    dsimp only
    split_ifs <;> refine ⟨rfl, ?_, fun h => h⟩ <;>
      simp only [Board.redFighters] <;> omega
  · cases hu
    exact Wanes.rfl_of _

theorem phase6_wanes (s : State) (m : Int) : Wanes s (phase6 s m) := by
  unfold phase6 phase6BlueDeclare phase6BlueResolve phase6RedDeclare phase6RedResolve
    phase6HighStrikeLost
  dsimp only
  split_ifs <;> exact ⟨rfl, le_refl _, fun h => h⟩

theorem groundKill_wanes {s t : State} (h : groundKill s = .ok t)
    (h15 : s.attacking_box_ = 15 → 4 ≤ s.red_hits_ → 0 < s.board_.b15) : Wanes s t := by
  unfold groundKill at h
  split_ifs at h with h4
  · obtain ⟨u, hu, rfl⟩ := map_eq_ok h
    have h1 := bump_dec_wanes hu (fun hc => h15 hc h4)
    exact h1
  · cases h
    exact Wanes.rfl_of _

theorem aimAirbase_wanes {s u : State} (h : Wanes s u) : Wanes s (aimAirbase u) := by
  refine Wanes.chain h ?_
  unfold aimAirbase
  dsimp only
  split_ifs <;> exact ⟨rfl, le_refl _, fun h => h⟩

theorem aimActiveSam_wanes {s u : State} (h : Wanes s u) : Wanes s (aimActiveSam u) := by
  refine Wanes.chain h ?_
  unfold aimActiveSam
  dsimp only
  split_ifs <;> exact ⟨rfl, le_refl _, fun h => h⟩

theorem aimPassiveSam_wanes {s u : State} (h : Wanes s u) : Wanes s (aimPassiveSam u) := by
  refine Wanes.chain h ?_
  unfold aimPassiveSam
  dsimp only
  split_ifs <;> exact ⟨rfl, le_refl _, fun h => h⟩

theorem aimAirbase_target (s : State) :
    (aimAirbase s).board_ = s.board_
    ∧ ((aimAirbase s).attacking_box_ = 14 ∧ s.board_.b14 ≠ 0
      ∨ (aimAirbase s).attacking_box_ = 15 ∧ s.board_.b14 = 0) := by
  unfold aimAirbase
  dsimp only
  split_ifs with h <;> exact ⟨rfl, by simp [h]⟩

theorem aimActiveSam_target (s : State) :
    (aimActiveSam s).attacking_box_ = 10 ∨ (aimActiveSam s).attacking_box_ = 11 := by
  unfold aimActiveSam
  dsimp only
  split_ifs <;> simp

theorem aimPassiveSam_target (s : State) :
    (aimPassiveSam s).attacking_box_ = 12 ∨ (aimPassiveSam s).attacking_box_ = 13 := by
  unfold aimPassiveSam
  dsimp only
  split_ifs <;> simp

theorem phase7_wanes {s t : State} {m : Int}
    (hm : (m = 0 ∧ (s.board_.b14 > 0 ∨ s.board_.b15 > 0)) ∨ m = 1 ∨ m = 2)
    (h : phase7 s m = .ok t) : Wanes s t := by
  unfold phase7 at h
  dsimp only at h
  obtain ⟨u, hu, rfl⟩ := map_eq_ok h
  suffices Wanes s u from this
  have e01 : ¬ ((0 : Int) = 1) := by decide
  have e02 : ¬ ((0 : Int) = 2) := by decide
  have e10 : ¬ ((1 : Int) = 0) := by decide
  have e12 : ¬ ((1 : Int) = 2) := by decide
  have e20 : ¬ ((2 : Int) = 0) := by decide
  have e21 : ¬ ((2 : Int) = 1) := by decide
  have base : Wanes s { s with red_hits_ := s.red_hits_ + 1 } := ⟨rfl, le_refl _, fun h => h⟩
  rcases hm with ⟨rfl, hb⟩ | rfl | rfl
  · simp only [if_true, e01, e02, if_false] at hu
    refine Wanes.chain (aimAirbase_wanes base) (groundKill_wanes hu ?_)
    obtain ⟨hbd, ht⟩ := aimAirbase_target { s with red_hits_ := s.red_hits_ + 1 }
    rw [hbd]
    dsimp only at ht ⊢
    intro hc _
    omega
  · simp only [if_true, e10, e12, if_false] at hu
    refine Wanes.chain (aimActiveSam_wanes base) (groundKill_wanes hu ?_)
    have ht := aimActiveSam_target { s with red_hits_ := s.red_hits_ + 1 }
    intro hc _
    omega
  · simp only [if_true, e20, e21, if_false] at hu
    refine Wanes.chain (aimPassiveSam_wanes base) (groundKill_wanes hu ?_)
    have ht := aimPassiveSam_target { s with red_hits_ := s.red_hits_ + 1 }
    intro hc _
    omega

theorem phase8_wanes {s t : State} {m : Int} (hm : m = 0 ∨ m = 1)
    (h : phase8 s m = .ok t) : Wanes s t := by
  unfold phase8 at h
  dsimp only at h
  obtain ⟨u, hu, rfl⟩ := map_eq_ok h
  suffices Wanes s u from this
  have e01 : ¬ ((0 : Int) = 1) := by decide
  have e10 : ¬ ((1 : Int) = 0) := by decide
  have base : Wanes s { s with red_hits_ := s.red_hits_ + 1 } := ⟨rfl, le_refl _, fun h => h⟩
  rcases hm with rfl | rfl
  · simp only [if_true, e01, if_false] at hu
    refine Wanes.chain (aimActiveSam_wanes base) (groundKill_wanes hu ?_)
    have ht := aimActiveSam_target { s with red_hits_ := s.red_hits_ + 1 }
    intro hc _
    omega
  · simp only [if_true, e10, if_false] at hu
    refine Wanes.chain (aimPassiveSam_wanes base) (groundKill_wanes hu ?_)
    have ht := aimPassiveSam_target { s with red_hits_ := s.red_hits_ + 1 }
    intro hc _
    omega

theorem phase9_wanes {s t : State} {m : Int} (h : phase9 s m = .ok t) : Wanes s t := by
  have key : ∀ s0 : State, Wanes s s0 →
      ((if m = 1 then
          groundKill (aimActiveSam { s0 with red_hits_ := s0.red_hits_ + 1 })
        else .ok s0).bind fun s =>
      (if m = 2 then
          groundKill (aimPassiveSam { s with red_hits_ := s.red_hits_ + 1 })
        else .ok s).map fun s =>
      let s := if m = 3 then flipIntercept s else s
      let s := { s with board_ := { s.board_ with b6 := s.board_.b6 - 1 } }
      { s with board_ := { s.board_ with b7 := s.board_.b7 + 1 } }) = .ok t →
      Wanes s t := by
    intro s0 hs0 h
    obtain ⟨u, hu, h⟩ := bind_eq_ok h
    obtain ⟨v, hv, rfl⟩ := map_eq_ok h
    have h1 : Wanes s0 u := by
      split_ifs at hu
      · have base : Wanes s0 { s0 with red_hits_ := s0.red_hits_ + 1 } :=
          ⟨rfl, le_refl _, fun h => h⟩
        refine Wanes.chain (aimActiveSam_wanes base) (groundKill_wanes hu ?_)
        have ht := aimActiveSam_target { s0 with red_hits_ := s0.red_hits_ + 1 }
        intro hc _
        omega
      · cases hu
        exact Wanes.rfl_of _
    have h2 : Wanes u v := by
      split_ifs at hv
      · have base : Wanes u { u with red_hits_ := u.red_hits_ + 1 } :=
          ⟨rfl, le_refl _, fun h => h⟩
        refine Wanes.chain (aimPassiveSam_wanes base) (groundKill_wanes hv ?_)
        have ht := aimPassiveSam_target { u with red_hits_ := u.red_hits_ + 1 }
        intro hc _
        omega
      · cases hv
        exact Wanes.rfl_of _
    refine Wanes.chain (Wanes.chain hs0 (Wanes.chain h1 h2)) ?_
    unfold flipIntercept
    dsimp only
    split_ifs <;> refine ⟨rfl, ?_, ?_⟩ <;>
      (try simp only [Board.redFighters]) <;> intros <;> omega
  refine key (if m = 0 then flipAirbase s else s) ?_ h
  unfold flipAirbase
  dsimp only
  split_ifs <;> refine ⟨rfl, ?_, ?_⟩ <;>
    (try simp only [Board.redFighters]) <;> intros <;> omega

/-! ## The invariant `BoundInv` -/

theorem phase5_target {s t : State} {m : Int} (h : phase5 s m = .ok t)
    (hm : s.current_player_ = 1 → s.is_attacking_ = true → (m = 0 ∨ m = 1 ∨ m = 2)) :
    t.current_player_ = 0 → t.is_attacking_ = false →
      (t.attacking_box_ = 0 ∨ t.attacking_box_ = 2 ∨ t.attacking_box_ = 6) := by
  unfold phase5 at h
  obtain ⟨u, hu, rfl⟩ := map_eq_ok h
  dsimp only
  split_ifs at hu with hp ha hq hb
  · cases hu
    unfold phase5BlueDeclare
    dsimp only
    intro hc
    exact absurd hc (by decide)
  · unfold phase5BlueResolve at hu
    obtain ⟨v, -, rfl⟩ := map_eq_ok hu
    dsimp only
    intro _ hc
    exact absurd hc (by decide)
  · cases hu
    have e01 : ¬ ((0 : Int) = 1) := by decide
    have e02 : ¬ ((0 : Int) = 2) := by decide
    have e10 : ¬ ((1 : Int) = 0) := by decide
    have e12 : ¬ ((1 : Int) = 2) := by decide
    have e20 : ¬ ((2 : Int) = 0) := by decide
    have e21 : ¬ ((2 : Int) = 1) := by decide
    unfold phase5RedDeclare
    rcases hm hq hb with rfl | rfl | rfl
    · simp only [if_true, e01, e02, if_false]
      intro _ _
      simp
    · simp only [if_true, e10, e12, if_false]
      intro _ _
      simp
    · simp only [if_true, e20, e21, if_false]
      intro _ _
      simp
  · cases hu
    unfold phase5RedResolve
    dsimp only
    intro _ hc
    exact absurd hc (by decide)
  · cases hu
    intro hc
    exact absurd hc hp

theorem BoundInv.initial : BoundInv NewInitialState := by
  refine ⟨PoolInv.init, ?_, ?_, ?_, ?_, ?_, ?_⟩ <;>
    simp [NewInitialState, Board.zero, Board.samSum, Board.redFighters]

theorem BoundInv.of_combat {s t : State} (h : BoundInv s) (hp : 5 ≤ s.current_phase_)
    (hpool : PoolInv t) (hw : Wanes s t) (hsam : t.board_.samSum ≤ s.board_.samSum)
    (hph : 5 ≤ t.current_phase_)
    (ht : t.current_phase_ = 5 → t.current_player_ = 0 → t.is_attacking_ = false →
      (t.attacking_box_ = 0 ∨ t.attacking_box_ = 2 ∨ t.attacking_box_ = 6)) :
    BoundInv t := by
  obtain ⟨w1, w2, w3⟩ := hw
  obtain ⟨f1, f2, f3⟩ := h.fighters_late (by omega)
  have s1 := h.sam_late hp
  refine ⟨hpool, ?_, ht, ?_, ?_, ?_, ?_⟩
  · intro hc; omega
  · intro hc; omega
  · intro _; omega
  · intro hc; omega
  · intro _
    exact ⟨by omega, w3 f2, by omega⟩

theorem BoundInv.next {s t : State} (h : BoundInv s) (hst : StepZero s t) : BoundInv t := by
  have hpool : PoolInv t := h.pool.step hst
  obtain ⟨m, hm0, happ⟩ := hst
  obtain ⟨-, hmem⟩ := mem_LegalActions hm0
  have hlo := h.pool.phase_lo
  have hhi := h.pool.phase_hi
  by_cases h11 : m = 11
  · subst h11
    unfold DoApplyAction applyPass at happ
    rw [if_pos rfl] at happ
    dsimp only at happ
    split_ifs at happ
    cases happ
    refine ⟨hpool, fun _ => rfl, ?_, h.sam_early, h.sam_late, h.fighters_early,
      h.fighters_late⟩
    intro _ _ hc
    exact Bool.noConfusion hc
  have hmem : m ∈ phaseMoves 0 s := by
    rcases hmem with hmem | ⟨_, hmem⟩
    · exact hmem
    · exact absurd hmem h11
  by_cases h12 : m = 12
  · subst h12
    unfold DoApplyAction at happ
    rw [if_neg h11, if_pos rfl] at happ
    cases happ
    have hblue : ¬ (s.current_phase_ = 0 ∨ s.current_phase_ = 1 ∨ s.current_phase_ = 2) := by
      intro hp
      rw [phaseMoves_blue hp, mem_placementLoop] at hmem
      have := h.pool.blue_early (by omega)
      omega
    have h3 : ¬ s.current_phase_ = 3 := by
      intro hp
      rw [phaseMoves_3 hp, mem_placementLoop] at hmem
      have := h.fighters_early (by omega)
      omega
    have h4 : ¬ s.current_phase_ = 4 := by
      intro hp
      rw [phaseMoves_4 hp, mem_placementLoop] at hmem
      have := h.sam_early (by omega)
      omega
    have hp5 : 5 ≤ s.current_phase_ := by omega
    obtain ⟨f1, f2, f3⟩ := h.fighters_late (by omega)
    have s1 := h.sam_late hp5
    obtain ⟨p1, p2⟩ := h.pool.sam_late hp5
    simp only [Board.samSum, Board.redFighters] at s1 f3
    by_cases h9 : s.current_phase_ = 9
    · obtain ⟨o, ho⟩ := applyAdvance_of_eq9 h9
      rw [ho] at hpool ⊢
      refine ⟨hpool, fun _ => rfl, ?_, ?_, ?_, ?_, ?_⟩ <;>
        dsimp only [Board.zero, Board.samSum, Board.redFighters] <;> intros <;> omega
    · obtain ⟨o, ml, ma, mp, mb, ho⟩ := applyAdvance_of_ne9 h9
      rw [ho] at hpool ⊢
      refine ⟨hpool, fun _ => rfl, ?_, ?_, ?_, ?_, ?_⟩ <;>
        dsimp only [Board.samSum, Board.redFighters] <;> intros <;> omega
  rcases phase_cases s with hp | hp | hp | hp | hp | hp | hp | hp | hp | hp | hp
  · rw [DoApplyAction_at0 h11 h12 hp] at happ
    cases happ
    have ha := h.attacking_early (by omega)
    have hs := h.sam_early (by omega)
    have hf := h.fighters_early (by omega)
    refine ⟨hpool, fun _ => ha, ?_, ?_, ?_, ?_, ?_⟩ <;>
      dsimp only [phase0] <;> intros <;> omega
  · rw [DoApplyAction_at1 h11 h12 hp] at happ
    cases happ
    have ha := h.attacking_early (by omega)
    have hs := h.sam_early (by omega)
    have hf := h.fighters_early (by omega)
    refine ⟨hpool, fun _ => ha, ?_, ?_, ?_, ?_, ?_⟩ <;>
      dsimp only [phase1] <;> intros <;> omega
  · rw [DoApplyAction_at2 h11 h12 hp] at happ
    cases happ
    have ha := h.attacking_early (by omega)
    have hs := h.sam_early (by omega)
    have hf := h.fighters_early (by omega)
    refine ⟨hpool, fun _ => ha, ?_, ?_, ?_, ?_, ?_⟩ <;>
      dsimp only [phase2] <;> intros <;> omega
  · rw [DoApplyAction_at3 h11 h12 hp] at happ
    cases happ
    rw [phaseMoves_3 hp, mem_placementLoop] at hmem
    have ha := h.attacking_early (by omega)
    have hs := h.sam_early (by omega)
    have hf := h.fighters_early (by omega)
    refine ⟨hpool, fun _ => ha, ?_, ?_, ?_, ?_, ?_⟩ <;>
      dsimp only [phase3, Board.redFighters] <;> intros <;> omega
  · rw [DoApplyAction_at4 h11 h12 hp] at happ
    cases happ
    rw [phaseMoves_4 hp, mem_placementLoop] at hmem
    have ha := h.attacking_early (by omega)
    have hs := h.sam_early (by omega)
    have hf := h.fighters_late (by omega)
    have hz := h.pool.sam_early (by omega)
    simp only [Board.redFighters] at hf
    refine ⟨hpool, ?_, ?_, ?_, ?_, ?_, ?_⟩
    · dsimp only [phase4]
      intro hc
      omega
    · dsimp only [phase4]
      intro _ _ hc
      rw [ha] at hc
      exact absurd hc (by decide)
    · dsimp only [phase4]
      intro hc
      omega
    · dsimp only [phase4, Board.samSum]
      intro _
      omega
    · dsimp only [phase4]
      intro hc
      omega
    · dsimp only [phase4, Board.redFighters]
      intro _
      omega
  · rw [DoApplyAction_at5 h11 h12 hp] at happ
    rw [phaseMoves_5 hp] at hmem
    have hsh := phase5_shrinks (fun hc ha hm => mem_LegalActions_phase5 hm0 hp hc ha hm) happ
    have hw := phase5_wanes (h.target5 hp) happ
    have ht := phase5_target happ (fun hc ha => by
      have := mem_legal5_red_declare hmem hc ha
      omega)
    obtain ⟨a0, -, -, -, a4⟩ := hsh
    exact h.of_combat (by omega) hpool hw a4 (by omega) (fun _ => ht)
  · rw [DoApplyAction_at6 h11 h12 hp] at happ
    cases happ
    obtain ⟨a0, -, -, -, a4⟩ := phase6_shrinks s m
    exact h.of_combat (by omega) hpool (phase6_wanes s m) a4 (by omega)
      (fun hc => by omega)
  · rw [DoApplyAction_at7 h11 h12 hp] at happ
    rw [phaseMoves_7 hp] at hmem
    have hm := mem_legal7 hmem
    obtain ⟨a0, -, -, -, a4⟩ := phase7_shrinks happ
    exact h.of_combat (by omega) hpool (phase7_wanes (by omega) happ) a4 (by omega)
      (fun hc => by omega)
  · rw [DoApplyAction_at8 h11 h12 hp] at happ
    rw [phaseMoves_8 hp] at hmem
    have hm := mem_legal8 hmem
    obtain ⟨⟨-, -, -, -, a4⟩, a5⟩ := phase8_shrinks happ
    exact h.of_combat (by omega) hpool (phase8_wanes (by omega) happ) a4 (by omega)
      (fun hc => by omega)
  · rw [DoApplyAction_at9 h11 h12 hp] at happ
    obtain ⟨a0, -, -, -, a4⟩ := phase9_shrinks happ
    exact h.of_combat (by omega) hpool (phase9_wanes happ) a4 (by omega)
      (fun hc => by omega)
  · omega

theorem ReachableZero.boundInv {s : State} (h : ReachableZero s) : BoundInv s := by
  induction h with
  | init => exact BoundInv.initial
  | step _ hst ih => exact ih.next hst

/-! ## The claims C11 to C20 -/

theorem IsTerminal_iff (s : State) :
    IsTerminal s = true ↔ s.outcome_ ≠ kInvalidPlayer ∨ s.current_wave_ = 5 := by
  simp [IsTerminal, FinalRoundEnd]

/-- C11: in phase 9 of wave 4, move `12` gives a terminal state of wave 5 whose
`Returns` is `(1, -1)` when `blue_points_ > red_points_ + 2`, or when
`blue_points_ = red_points_ + 2` and `blue_hits_ > red_hits_`; `(0, 0)` when
`blue_points_ = red_points_ + 2` and `blue_hits_ = red_hits_`; and `(-1, 1)`
otherwise. -/
theorem C11_final_returns (s : State) (hp : s.current_phase_ = 9) (hw : s.current_wave_ = 4) :
    ∃ t, DoApplyAction s 12 = .ok t
      ∧ IsTerminal t = true
      ∧ t.current_wave_ = 5
      ∧ Returns t =
        (if s.blue_points_ > s.red_points_ + 2
            ∨ (s.blue_points_ = s.red_points_ + 2 ∧ s.blue_hits_ > s.red_hits_) then (1, -1)
          else if s.blue_points_ = s.red_points_ + 2 ∧ s.blue_hits_ = s.red_hits_ then (0, 0)
          else (-1, 1)) := by
  refine ⟨applyAdvance s, by simp [DoApplyAction], ?_⟩
  have h5 : ¬ ((9 : Int) = 5) := by decide
  have h6 : ¬ ((9 : Int) = 6) := by decide
  unfold applyAdvance nextWave
  simp only [hp, hw, h5, h6, if_false, if_true]
  have hfin : ∀ u : State, u.current_wave_ = 4 + 1 → FinalRoundEnd u = true := by
    intro u hu
    simp [FinalRoundEnd, hu]
  rw [if_pos (hfin _ rfl)]
  unfold decideOutcome
  dsimp only
  split_ifs <;> simp_all [IsTerminal, FinalRoundEnd, Returns, kInvalidPlayer] <;> omega

/-- C11 at the two scenarios: points 5 to 3 with hits 2 to 1 is a Blue win
`(1, -1)`, and with hits 1 to 1 a draw `(0, 0)`. -/
theorem C11_final_returns_witness :
    (∃ t, DoApplyAction (lastPhase 5 3 2 1) 12 = .ok t ∧ IsTerminal t = true
      ∧ Returns t = (1, -1))
    ∧ (∃ t, DoApplyAction (lastPhase 5 3 1 1) 12 = .ok t ∧ IsTerminal t = true
      ∧ Returns t = (0, 0)) := by
  constructor
  · obtain ⟨t, h1, h2, -, h4⟩ := C11_final_returns (lastPhase 5 3 2 1) rfl rfl
    exact ⟨t, h1, h2, h4.trans (by decide)⟩
  · obtain ⟨t, h1, h2, -, h4⟩ := C11_final_returns (lastPhase 5 3 1 1) rfl rfl
    exact ⟨t, h1, h2, h4.trans (by decide)⟩

/-- C12, the code on a legal play: after `lowStrikeRaid` Blue answers with
move `0` at `blue_hits_ = 2`, and `blue_hits_` becomes 4; the test of this
branch is `blue_hits_ > 4`, so the accumulator is not wrapped at 4. -/
theorem C12_blue_hits_reach_four :
    (playFrom NewInitialState (lowStrikeRaid ++ [0])).map (fun s => s.blue_hits_) = some 4 := by
  decide

/-- C13: in every state reached by legal play `red_hits_` lies in `0 … 3`. -/
theorem C13_red_hits_bound (s : State) (hr : Reachable s) :
    0 ≤ s.red_hits_ ∧ s.red_hits_ ≤ 3 :=
  hr.redHitsOk

/-- C13 at the end of `quietWave`. -/
theorem C13_red_hits_bound_witness :
    0 ≤ quietWaveEnd.red_hits_ ∧ quietWaveEnd.red_hits_ ≤ 3 :=
  C13_red_hits_bound quietWaveEnd quietWaveEnd_reachable

/-- C14, the code at `h = 2`: after `lowStrikeRaid` the state is a phase-5
answer of Blue with `blue_hits_ = 2` and target cell 6; move `0` is legal and
leaves `blue_hits_ = 4`, the target cell at 10 and `red_points_` at 0, where
the claim has `(2 + 2) mod 4 = 0`, one unit destroyed and one point. -/
theorem C14_no_defense_at_two :
    (playFrom NewInitialState lowStrikeRaid).map
      (fun s => (s.current_phase_, s.current_player_, s.is_attacking_, LegalActions 0 s))
      = some (5, 0, false, [0, 3])
    ∧ (playFrom NewInitialState lowStrikeRaid).map
      (fun s => (s.blue_hits_, s.attacking_box_, s.board_.b6, s.red_points_))
      = some (2, 6, 10, 0)
    ∧ (playFrom NewInitialState (lowStrikeRaid ++ [0])).map
      (fun s => (s.blue_hits_, s.attacking_box_, s.board_.b6, s.red_points_))
      = some (4, 6, 10, 0) := by
  refine ⟨?_, ?_, ?_⟩ <;> decide

/-- C15: `LegalActions` is empty exactly on the terminal states, and a state is
terminal exactly when its outcome is determined or `current_wave_ = 5`. -/
theorem C15_no_moves_iff_terminal (i : Int) (s : State) :
    (LegalActions i s = [] ↔ IsTerminal s = true)
    ∧ (IsTerminal s = true ↔ s.outcome_ ≠ kInvalidPlayer ∨ s.current_wave_ = 5) := by
  refine ⟨?_, IsTerminal_iff s⟩
  unfold LegalActions
  by_cases ht : IsTerminal s = true
  · rw [if_pos ht]
    exact ⟨fun _ => ht, fun _ => rfl⟩
  · rw [if_neg ht]
    refine ⟨fun h => ?_, fun h => absurd h ht⟩
    exfalso
    dsimp only at h
    by_cases he : (phaseMoves i s).isEmpty = true
    · rw [if_pos he] at h
      simp at h
    · rw [if_neg he] at h
      rw [h] at he
      exact he rfl

/-- C16, the code on a legal play: after `sparedStrike` the state is a
non-terminal state of phase 6 and `LegalActions` is `[0, 12]`: the advance
move stands beside a move of the phase. -/
theorem C16_advance_beside_a_move :
    (playFrom NewInitialState sparedStrike).map
      (fun s => (s.current_phase_, IsTerminal s, LegalActions 0 s))
      = some (6, false, [0, 12]) := by
  decide

/-- C17, the code on a legal play: after `escortTwice` the Escort-attacking
cell `board_[0]` is `-1`. -/
theorem C17_escort_below_zero :
    (playFrom NewInitialState escortTwice).map (fun s => s.board_.b0) = some (-1) := by
  decide

set_option maxRecDepth 100000 in
/-- C18, the code on a legal play: `stalemate` followed by 184 pass moves is
legal and ends in wave 1 with `num_moves_ = 200`; the only legal move there is
the pass, and `DoApplyAction` ends it with the fatal error. -/
theorem C18_pass_guard_trips :
    (playFrom NewInitialState (stalemate ++ List.replicate 184 11)).map
      (fun s => (s.current_wave_, s.num_moves_, LegalActions 0 s, faultOf (DoApplyAction s 11)))
      = some (1, 200, [11], some Fault.fatal) := by
  decide

/-- When every placement loop counter starts at `0`: in every state reached by
legal play each legal move lies in `0 … 12`, the pools are bounded (Blue
fighters by 10, Red fighters by 4, SAMs by 4), and a placement count offered in
the phases `0 … 4` is at most 10. -/
theorem moves_and_pools_bounded_zero_start (s : State) (hr : ReachableZero s) :
    (∀ m ∈ LegalActions 0 s, 0 ≤ m ∧ m ≤ 12)
    ∧ s.blue_placeable_fighters_ ≤ 10
    ∧ s.red_placeable_fighters_ ≤ 4
    ∧ s.red_placeable_sams_ ≤ 4
    ∧ (s.current_phase_ ≤ 4 → ∀ m ∈ phaseMoves 0 s, 0 ≤ m ∧ m ≤ 10) := by
  have h := hr.boundInv
  have hlo := h.pool.phase_lo
  have hblue : s.blue_placeable_fighters_ ≤ 10 := by
    by_cases hp : s.current_phase_ ≤ 2
    · have := h.pool.blue_early hp
      omega
    · have := h.pool.blue_late (by omega)
      omega
  have hred : s.red_placeable_fighters_ ≤ 4 := by
    by_cases hp : s.current_phase_ ≤ 3
    · have := h.fighters_early hp
      omega
    · have := h.fighters_late (by omega)
      omega
  have hsam : s.red_placeable_sams_ ≤ 4 := by
    by_cases hp : s.current_phase_ ≤ 4
    · exact h.sam_early hp
    · have := h.pool.sam_late (by omega)
      omega
  have hplace : s.current_phase_ ≤ 4 → ∀ m ∈ phaseMoves 0 s, 0 ≤ m ∧ m ≤ 10 := by
    intro hp m hm
    have hc : s.current_phase_ = 0 ∨ s.current_phase_ = 1 ∨ s.current_phase_ = 2
        ∨ s.current_phase_ = 3 ∨ s.current_phase_ = 4 := by omega
    rcases hc with hc | hc | hc | hc | hc
    · rw [phaseMoves_blue (Or.inl hc), mem_placementLoop] at hm
      omega
    · rw [phaseMoves_blue (Or.inr (Or.inl hc)), mem_placementLoop] at hm
      omega
    · rw [phaseMoves_blue (Or.inr (Or.inr hc)), mem_placementLoop] at hm
      omega
    · rw [phaseMoves_3 hc, mem_placementLoop] at hm
      omega
    · rw [phaseMoves_4 hc, mem_placementLoop] at hm
      omega
  refine ⟨?_, hblue, hred, hsam, hplace⟩
  intro m hm
  obtain ⟨-, hmem | ⟨-, rfl⟩⟩ := mem_LegalActions hm
  swap
  · exact ⟨by decide, by decide⟩
  by_cases hp : s.current_phase_ ≤ 4
  · have := hplace hp m hmem
    omega
  rcases phase_cases s with hc | hc | hc | hc | hc | hc | hc | hc | hc | hc | hc
  · omega
  · omega
  · omega
  · omega
  · omega
  · rw [phaseMoves_5 hc] at hmem
    exact mem_legal5_range hmem
  · rw [phaseMoves_6 hc] at hmem
    exact mem_legal6_range hmem
  · rw [phaseMoves_7 hc] at hmem
    have := mem_legal7 hmem
    omega
  · rw [phaseMoves_8 hc] at hmem
    have := mem_legal8 hmem
    omega
  · rw [phaseMoves_9 hc] at hmem
    have := mem_legal9 hmem
    omega
  · rw [phaseMoves_no_case hc] at hmem
    cases hmem

/-- The lemma `moves_and_pools_bounded_zero_start` at the initial state. -/
theorem moves_and_pools_bounded_at_start :
    (∀ m ∈ LegalActions 0 NewInitialState, 0 ≤ m ∧ m ≤ 12)
    ∧ NewInitialState.blue_placeable_fighters_ ≤ 10
    ∧ NewInitialState.red_placeable_fighters_ ≤ 4
    ∧ NewInitialState.red_placeable_sams_ ≤ 4
    ∧ (NewInitialState.current_phase_ ≤ 4 →
        ∀ m ∈ phaseMoves 0 NewInitialState, 0 ≤ m ∧ m ≤ 10) :=
  moves_and_pools_bounded_zero_start NewInitialState ReachableZero.init

/-- C19, the code on a legal play: started at `-2`, the placement loop of the
initial state offers the moves `-2` and `-1`, outside `0 … 12`.  Move `-2`
leads to a state of phase 1 with 12 fighters in the Blue pool, above 10, where
the loop started at `0` offers the placement counts `0 … 12`: the counts 11
and 12 are offered, and `DoApplyAction` reads them as the pass and the
advance. -/
theorem C19_counts_leave_range :
    LegalActions (-2) NewInitialState = [-2, -1, 0, 1, 2, 3, 4, 5, 6, 7, 8, 9, 10]
    ∧ Reachable (playWithEnd NewInitialState [(-2, -2)])
    ∧ (playWith NewInitialState [(-2, -2)]).map
        (fun s => (s.current_phase_, s.blue_placeable_fighters_, phaseMoves 0 s,
          LegalActions 0 s))
        = some (1, 12, [0, 1, 2, 3, 4, 5, 6, 7, 8, 9, 10, 11, 12],
            [0, 1, 2, 3, 4, 5, 6, 7, 8, 9, 10, 11, 12])
    ∧ (playWith NewInitialState [(-2, -2), (0, 11)]).map
        (fun t => (t.current_phase_, t.board_.b1, t.blue_placeable_fighters_))
        = some (1, 0, 12)
    ∧ (playWith NewInitialState [(-2, -2), (0, 12)]).map
        (fun t => (t.current_phase_, t.board_.b1, t.blue_placeable_fighters_))
        = some (2, 0, 12) :=
  ⟨by decide, Reachable.ofPlayWith [(-2, -2)] Reachable.init (by decide), by decide,
    by decide, by decide⟩

/-- C20: whatever the state and the start of the placement loop counter, the
list `LegalActions` returns is strictly increasing. -/
theorem C20_legal_moves_increasing (i : Int) (s : State) :
    List.Pairwise (fun a b => a < b) (LegalActions i s) := by
  rw [LegalActions_eq]
  by_cases ht : IsTerminal s = true
  · rw [if_pos ht]
    exact List.Pairwise.nil
  · rw [if_neg ht]
    unfold orPush
    by_cases he : (phaseMoves i s).isEmpty = true
    · rw [if_pos he]
      rw [List.isEmpty_iff] at he
      rw [he]
      decide
    · rw [if_neg he]
      exact phaseMoves_increasing i s

/-! ## The wave, the outcome and the quota caps -/

theorem bump_frozen {s t : State} {i d : Int} (h : s.bump i d = .ok t) :
    frozen t = frozen s := by
  obtain ⟨c, -, rfl⟩ := bump_ok h
  rfl

theorem blueLoss_frozen {s t : State} (h : blueLoss s = .ok t) : frozen t = frozen s := by
  unfold blueLoss at h
  obtain ⟨u, hu, rfl⟩ := map_eq_ok h
  have h1 := bump_frozen hu
  exact h1

theorem phase5BlueResolve_frozen {s t : State} {m : Int}
    (h : phase5BlueResolve s m = .ok t) : frozen t = frozen s := by
  unfold phase5BlueResolve at h
  obtain ⟨u, hu, rfl⟩ := map_eq_ok h
  show frozen u = frozen s
  dsimp only at hu
  split_ifs at hu
  · have h1 := blueLoss_frozen hu
    exact h1
  · cases hu; rfl
  · obtain ⟨v, hv, rfl⟩ := map_eq_ok hu
    have h1 := blueLoss_frozen hv
    exact h1
  · obtain ⟨v, hv, rfl⟩ := map_eq_ok hu
    cases hv; rfl
  · have h1 := blueLoss_frozen hu
    exact h1
  · obtain ⟨v, hv, hu⟩ := bind_eq_ok hu
    have h1 := bump_frozen hu
    have h2 := bump_frozen hv
    exact h1.trans h2
  · cases hu; rfl

theorem phase5_frozen {s t : State} {m : Int} (h : phase5 s m = .ok t) :
    frozen t = frozen s := by
  unfold phase5 at h
  obtain ⟨u, hu, rfl⟩ := map_eq_ok h
  show frozen u = frozen s
  split_ifs at hu
  · cases hu
    unfold phase5BlueDeclare
    dsimp only
    split_ifs <;> rfl
  · exact phase5BlueResolve_frozen hu
  · cases hu
    unfold phase5RedDeclare
    dsimp only
    split_ifs <;> rfl
  · cases hu
    unfold phase5RedResolve
    dsimp only
    split_ifs <;> rfl
  · cases hu
    rfl

theorem phase6_frozen (s : State) (m : Int) : frozen (phase6 s m) = frozen s := by
  unfold phase6 phase6BlueDeclare phase6BlueResolve phase6RedDeclare phase6RedResolve
    phase6HighStrikeLost
  dsimp only
  split_ifs <;> rfl

theorem groundKill_frozen {s t : State} (h : groundKill s = .ok t) :
    frozen t = frozen s := by
  unfold groundKill at h
  split_ifs at h
  · obtain ⟨u, hu, rfl⟩ := map_eq_ok h
    have h1 := bump_frozen hu
    exact h1
  · cases h
    rfl

theorem aim_frozen (s : State) :
    frozen (aimAirbase s) = frozen s ∧ frozen (aimActiveSam s) = frozen s
    ∧ frozen (aimPassiveSam s) = frozen s := by
  unfold aimAirbase aimActiveSam aimPassiveSam
  dsimp only
  refine ⟨?_, ?_, ?_⟩ <;> split_ifs <;> rfl

theorem phase7_frozen {s t : State} {m : Int} (h : phase7 s m = .ok t) :
    frozen t = frozen s := by
  unfold phase7 at h
  dsimp only at h
  obtain ⟨u, hu, rfl⟩ := map_eq_ok h
  show frozen u = frozen s
  refine (groundKill_frozen hu).trans ?_
  split_ifs <;>
    (try simp only [(aim_frozen _).1, (aim_frozen _).2.1, (aim_frozen _).2.2]) <;> rfl

theorem phase8_frozen {s t : State} {m : Int} (h : phase8 s m = .ok t) :
    frozen t = frozen s := by
  unfold phase8 at h
  dsimp only at h
  obtain ⟨u, hu, rfl⟩ := map_eq_ok h
  show frozen u = frozen s
  refine (groundKill_frozen hu).trans ?_
  split_ifs <;>
    (try simp only [(aim_frozen _).1, (aim_frozen _).2.1, (aim_frozen _).2.2]) <;> rfl

theorem phase9_frozen {s t : State} {m : Int} (h : phase9 s m = .ok t) :
    frozen t = frozen s := by
  have key : ∀ s0 : State,
      ((if m = 1 then
          groundKill (aimActiveSam { s0 with red_hits_ := s0.red_hits_ + 1 })
        else .ok s0).bind fun s =>
      (if m = 2 then
          groundKill (aimPassiveSam { s with red_hits_ := s.red_hits_ + 1 })
        else .ok s).map fun s =>
      let s := if m = 3 then flipIntercept s else s
      let s := { s with board_ := { s.board_ with b6 := s.board_.b6 - 1 } }
      { s with board_ := { s.board_ with b7 := s.board_.b7 + 1 } }) = .ok t →
      frozen t = frozen s0 := by
    intro s0 h
    obtain ⟨u, hu, h⟩ := bind_eq_ok h
    obtain ⟨v, hv, rfl⟩ := map_eq_ok h
    have h1 : frozen u = frozen s0 := by
      split_ifs at hu
      · exact (groundKill_frozen hu).trans (aim_frozen _).2.1
      · cases hu
        rfl
    have h2 : frozen v = frozen u := by
      split_ifs at hv
      · exact (groundKill_frozen hv).trans (aim_frozen _).2.2
      · cases hv
        rfl
    refine Eq.trans ?_ (h2.trans h1)
    unfold flipIntercept
    dsimp only
    split_ifs <;> rfl
  refine (key (if m = 0 then flipAirbase s else s) h).trans ?_
  unfold flipAirbase
  split_ifs <;> rfl

/-- No move but `12` writes the wave, the outcome or a quota cap. -/
theorem DoApplyAction_frozen {s t : State} {m : Int} (h : DoApplyAction s m = .ok t)
    (h12 : m ≠ 12) : frozen t = frozen s := by
  by_cases h11 : m = 11
  · subst h11
    unfold DoApplyAction applyPass at h
    rw [if_pos rfl] at h
    dsimp only at h
    split_ifs at h
    cases h
    rfl
  rcases phase_cases s with hp | hp | hp | hp | hp | hp | hp | hp | hp | hp | hp
  · rw [DoApplyAction_at0 h11 h12 hp] at h
    cases h
    rfl
  · rw [DoApplyAction_at1 h11 h12 hp] at h
    cases h
    rfl
  · rw [DoApplyAction_at2 h11 h12 hp] at h
    cases h
    rfl
  · rw [DoApplyAction_at3 h11 h12 hp] at h
    cases h
    rfl
  · rw [DoApplyAction_at4 h11 h12 hp] at h
    cases h
    rfl
  · rw [DoApplyAction_at5 h11 h12 hp] at h
    exact phase5_frozen h
  · rw [DoApplyAction_at6 h11 h12 hp] at h
    cases h
    exact phase6_frozen s m
  · rw [DoApplyAction_at7 h11 h12 hp] at h
    exact phase7_frozen h
  · rw [DoApplyAction_at8 h11 h12 hp] at h
    exact phase8_frozen h
  · rw [DoApplyAction_at9 h11 h12 hp] at h
    exact phase9_frozen h
  · rw [DoApplyAction_no_case h11 h12 hp] at h
    cases h
    rfl



/-- Move `12` writes `max_low_strike_attacks_` when it leaves phase 5 and the
other three caps when it leaves phase 6, from the board before the move. -/
theorem applyAdvance_caps (s : State) :
    (applyAdvance s).max_low_strike_attacks_
      = (if s.current_phase_ = 5 then min s.board_.b6 4 else s.max_low_strike_attacks_)
    ∧ (applyAdvance s).max_active_sam_attacks_
      = (if s.current_phase_ = 6 then s.board_.b10 + s.board_.b11
          else s.max_active_sam_attacks_)
    ∧ (applyAdvance s).max_passive_sam_attacks_
      = (if s.current_phase_ = 6 then s.board_.b12 + s.board_.b13
          else s.max_passive_sam_attacks_)
    ∧ (applyAdvance s).max_airbase_attacks_
      = (if s.current_phase_ = 6 then s.board_.b14 + s.board_.b15
          else s.max_airbase_attacks_) := by
  unfold applyAdvance nextWave
  dsimp only
  split_ifs <;> first
    | (exfalso; omega)
    | exact ⟨rfl, rfl, rfl, rfl⟩
    | (obtain ⟨o, ho⟩ := decideOutcome_frame _
       rw [ho]
       exact ⟨rfl, rfl, rfl, rfl⟩)

/-- Move `12` adds one to the wave in phase 9 and leaves it in any other
phase. -/
theorem applyAdvance_wave (s : State) :
    (applyAdvance s).current_wave_
      = (if s.current_phase_ = 9 then s.current_wave_ + 1 else s.current_wave_) := by
  unfold applyAdvance nextWave
  dsimp only
  split_ifs <;> first
    | (exfalso; omega)
    | rfl
    | (obtain ⟨o, ho⟩ := decideOutcome_frame _
       rw [ho])

/-- Move `12` writes the outcome only when the wave after it is 5. -/
theorem applyAdvance_outcome (s : State) (h : (applyAdvance s).current_wave_ ≠ 5) :
    (applyAdvance s).outcome_ = s.outcome_ := by
  rw [applyAdvance_wave] at h
  unfold applyAdvance nextWave FinalRoundEnd
  dsimp only
  split_ifs at h ⊢ <;> first
    | (exfalso; omega)
    | rfl
    | (exfalso; simp_all)

/-! ## The phase along legal play -/

theorem bump_phase {s t : State} {i d : Int} (h : s.bump i d = .ok t) :
    t.current_phase_ = s.current_phase_ := by
  obtain ⟨c, -, rfl⟩ := bump_ok h
  rfl

theorem blueLoss_phase {s t : State} (h : blueLoss s = .ok t) :
    t.current_phase_ = s.current_phase_ := by
  unfold blueLoss at h
  obtain ⟨u, hu, rfl⟩ := map_eq_ok h
  have h1 := bump_phase hu
  exact h1

theorem phase5BlueResolve_phase {s t : State} {m : Int}
    (h : phase5BlueResolve s m = .ok t) : t.current_phase_ = s.current_phase_ := by
  unfold phase5BlueResolve at h
  obtain ⟨u, hu, rfl⟩ := map_eq_ok h
  show u.current_phase_ = s.current_phase_
  dsimp only at hu
  split_ifs at hu
  · have h1 := blueLoss_phase hu
    exact h1
  · cases hu; rfl
  · obtain ⟨v, hv, rfl⟩ := map_eq_ok hu
    have h1 := blueLoss_phase hv
    exact h1
  · obtain ⟨v, hv, rfl⟩ := map_eq_ok hu
    cases hv; rfl
  · have h1 := blueLoss_phase hu
    exact h1
  · obtain ⟨v, hv, hu⟩ := bind_eq_ok hu
    have h1 := bump_phase hu
    have h2 := bump_phase hv
    exact h1.trans h2
  · cases hu; rfl

/-- Whatever the move, phase 5 leaves `current_phase_` as it is. -/
theorem phase5_phase {s t : State} {m : Int} (h : phase5 s m = .ok t) :
    t.current_phase_ = s.current_phase_ := by
  unfold phase5 at h
  obtain ⟨u, hu, rfl⟩ := map_eq_ok h
  show u.current_phase_ = s.current_phase_
  split_ifs at hu
  · cases hu
    unfold phase5BlueDeclare
    dsimp only
    split_ifs <;> rfl
  · exact phase5BlueResolve_phase hu
  · cases hu
    unfold phase5RedDeclare
    dsimp only
    split_ifs <;> rfl
  · cases hu
    unfold phase5RedResolve
    dsimp only
    split_ifs <;> rfl
  · cases hu
    rfl

/-- Whatever the move, `DoApplyAction` keeps `current_phase_` in `0 … 9`. -/
theorem DoApplyAction_phase_range {s t : State} {m : Int} (h : DoApplyAction s m = .ok t)
    (h0 : 0 ≤ s.current_phase_) (h9 : s.current_phase_ ≤ 9) :
    0 ≤ t.current_phase_ ∧ t.current_phase_ ≤ 9 := by
  by_cases h11 : m = 11
  · subst h11
    unfold DoApplyAction applyPass at h
    rw [if_pos rfl] at h
    dsimp only at h
    split_ifs at h
    cases h
    exact ⟨h0, h9⟩
  by_cases h12 : m = 12
  · subst h12
    unfold DoApplyAction at h
    rw [if_neg h11, if_pos rfl] at h
    cases h
    by_cases hp : s.current_phase_ = 9
    · obtain ⟨o, ho⟩ := applyAdvance_of_eq9 hp
      rw [ho]
      dsimp only
      omega
    · obtain ⟨o, ml, ma, mp, mb, ho⟩ := applyAdvance_of_ne9 hp
      rw [ho]
      dsimp only
      omega
  rcases phase_cases s with hp | hp | hp | hp | hp | hp | hp | hp | hp | hp | hp
  · rw [DoApplyAction_at0 h11 h12 hp] at h
    cases h
    dsimp only [phase0]
    omega
  · rw [DoApplyAction_at1 h11 h12 hp] at h
    cases h
    dsimp only [phase1]
    omega
  · rw [DoApplyAction_at2 h11 h12 hp] at h
    cases h
    dsimp only [phase2]
    omega
  · rw [DoApplyAction_at3 h11 h12 hp] at h
    cases h
    dsimp only [phase3]
    omega
  · rw [DoApplyAction_at4 h11 h12 hp] at h
    cases h
    dsimp only [phase4]
    omega
  · rw [DoApplyAction_at5 h11 h12 hp] at h
    have := phase5_phase h
    omega
  · rw [DoApplyAction_at6 h11 h12 hp] at h
    cases h
    have := (phase6_shrinks s m).1
    omega
  · rw [DoApplyAction_at7 h11 h12 hp] at h
    have := (phase7_shrinks h).1
    omega
  · rw [DoApplyAction_at8 h11 h12 hp] at h
    have := (phase8_shrinks h).2
    omega
  · rw [DoApplyAction_at9 h11 h12 hp] at h
    have := (phase9_shrinks h).1
    omega
  · omega

theorem Reachable.phaseRange {s : State} (h : Reachable s) :
    0 ≤ s.current_phase_ ∧ s.current_phase_ ≤ 9 := by
  induction h with
  | init => exact ⟨by decide, by decide⟩
  | step _ hst ih =>
    obtain ⟨i, m, -, happ⟩ := hst
    exact DoApplyAction_phase_range happ ih.1 ih.2

/-! ## The wave and the outcome along legal play -/

theorem WaveOk.keep {i : Int} {s t : State} {m : Int} (hs : WaveOk s)
    (hm : m ∈ LegalActions i s)
    (h : DoApplyAction s m = .ok t) : WaveOk t := by
  obtain ⟨h0, h5, -⟩ := hs
  obtain ⟨ht, -⟩ := mem_LegalActions hm
  have hn : ¬ (s.outcome_ ≠ kInvalidPlayer ∨ s.current_wave_ = 5) := by
    rw [← IsTerminal_iff, ht]
    exact Bool.noConfusion
  have ho : s.outcome_ = kInvalidPlayer := by
    by_contra hc
    exact hn (Or.inl hc)
  have hw : s.current_wave_ ≠ 5 := fun hc => hn (Or.inr hc)
  by_cases h12 : m = 12
  · subst h12
    have e : t = applyAdvance s := by
      unfold DoApplyAction at h
      rw [if_neg (by decide), if_pos rfl] at h
      cases h
      rfl
    subst e
    have hwave := applyAdvance_wave s
    refine ⟨?_, ?_, ?_⟩
    · rw [hwave]
      split_ifs <;> omega
    · rw [hwave]
      split_ifs <;> omega
    · intro hlt
      rw [applyAdvance_outcome s (by omega)]
      exact ho
  · have hf := DoApplyAction_frozen h h12
    have e1 : t.current_wave_ = s.current_wave_ := congrArg (fun p => p.1) hf
    have e2 : t.outcome_ = s.outcome_ := congrArg (fun p => p.2.1) hf
    refine ⟨by omega, by omega, fun _ => ?_⟩
    rw [e2]
    exact ho

theorem Reachable.waveOk {s : State} (h : Reachable s) : WaveOk s := by
  induction h with
  | init => exact ⟨by decide, by decide, fun _ => rfl⟩
  | step _ hst ih =>
    obtain ⟨i, m, hm, happ⟩ := hst
    exact ih.keep hm happ

/-- C21: in every state reached by legal play the phase lies in `0 … 9` and
the wave in `0 … 5`. -/
theorem C21_phase_and_wave_range (s : State) (hr : Reachable s) :
    0 ≤ s.current_phase_ ∧ s.current_phase_ ≤ 9
    ∧ 0 ≤ s.current_wave_ ∧ s.current_wave_ ≤ 5 :=
  ⟨hr.phaseRange.1, hr.phaseRange.2, hr.waveOk.1, hr.waveOk.2.1⟩

/-- C21 at the end of `quietWave`. -/
theorem C21_phase_and_wave_range_witness :
    0 ≤ quietWaveEnd.current_phase_ ∧ quietWaveEnd.current_phase_ ≤ 9
    ∧ 0 ≤ quietWaveEnd.current_wave_ ∧ quietWaveEnd.current_wave_ ≤ 5 :=
  C21_phase_and_wave_range quietWaveEnd quietWaveEnd_reachable

/-- C26: whenever `DoApplyAction` returns, `max_low_strike_attacks_` is
`min(board_[6], 4)` of the board before the move if the move is 12 in phase 5
and is unchanged otherwise; the caps of the Active SAMs, the Passive SAMs and
the Airbase are `board_[10] + board_[11]`, `board_[12] + board_[13]` and
`board_[14] + board_[15]` of the board before the move if the move is 12 in
phase 6 and are unchanged otherwise. -/
theorem C26_caps_frozen (s t : State) (m : Int) (h : DoApplyAction s m = .ok t) :
    t.max_low_strike_attacks_
      = (if m = 12 ∧ s.current_phase_ = 5 then min s.board_.b6 4
          else s.max_low_strike_attacks_)
    ∧ t.max_active_sam_attacks_
      = (if m = 12 ∧ s.current_phase_ = 6 then s.board_.b10 + s.board_.b11
          else s.max_active_sam_attacks_)
    ∧ t.max_passive_sam_attacks_
      = (if m = 12 ∧ s.current_phase_ = 6 then s.board_.b12 + s.board_.b13
          else s.max_passive_sam_attacks_)
    ∧ t.max_airbase_attacks_
      = (if m = 12 ∧ s.current_phase_ = 6 then s.board_.b14 + s.board_.b15
          else s.max_airbase_attacks_) := by
  by_cases h12 : m = 12
  · subst h12
    have e : t = applyAdvance s := by
      unfold DoApplyAction at h
      rw [if_neg (by decide), if_pos rfl] at h
      cases h
      rfl
    subst e
    simp only [true_and]
    exact applyAdvance_caps s
  · have hf := DoApplyAction_frozen h h12
    have e3 : t.max_low_strike_attacks_ = s.max_low_strike_attacks_ :=
      congrArg (fun p => p.2.2.1) hf
    have e4 : t.max_active_sam_attacks_ = s.max_active_sam_attacks_ :=
      congrArg (fun p => p.2.2.2.1) hf
    have e5 : t.max_passive_sam_attacks_ = s.max_passive_sam_attacks_ :=
      congrArg (fun p => p.2.2.2.2.1) hf
    have e6 : t.max_airbase_attacks_ = s.max_airbase_attacks_ :=
      congrArg (fun p => p.2.2.2.2.2) hf
    simp only [h12, false_and, if_false]
    exact ⟨e3, e4, e5, e6⟩

/-- C26 at the move `12` that leaves phase 5 with ten Low Strike fighters: the
cap becomes `min(10, 4) = 4`. -/
theorem C26_caps_frozen_witness :
    (applyAdvance (playEnd NewInitialState [0, 0, 0, 0, 0])).max_low_strike_attacks_ = 4 :=
  (C26_caps_frozen (playEnd NewInitialState [0, 0, 0, 0, 0]) _ 12 rfl).1.trans (by decide)

/-- C27: whenever `DoApplyAction` returns and the move is not 12 or the wave
after it is not 5, the outcome is the one before the move; and in every state
reached by legal play with `current_wave_ < 5` the outcome is undetermined
(`kInvalidPlayer`). -/
theorem C27_outcome_written_at_wave_five :
    (∀ (s t : State) (m : Int), DoApplyAction s m = .ok t →
      (m ≠ 12 ∨ t.current_wave_ ≠ 5) → t.outcome_ = s.outcome_)
    ∧ (∀ s : State, Reachable s → s.current_wave_ < 5 → s.outcome_ = kInvalidPlayer) := by
  constructor
  · intro s t m h hc
    by_cases h12 : m = 12
    · subst h12
      have e : t = applyAdvance s := by
        unfold DoApplyAction at h
        rw [if_neg (by decide), if_pos rfl] at h
        cases h
        rfl
      subst e
      rcases hc with hc | hc
      · exact absurd rfl hc
      · exact applyAdvance_outcome s hc
    · exact congrArg (fun p => p.2.1) (DoApplyAction_frozen h h12)
  · intro s hr hw
    exact hr.waveOk.2.2 hw


/-- C27 at the end of `quietWave`: move `12` starts wave 1 and leaves the
outcome undetermined. -/
theorem C27_outcome_written_at_wave_five_witness :
    (applyAdvance quietWaveEnd).outcome_ = kInvalidPlayer
    ∧ quietWaveEnd.outcome_ = kInvalidPlayer :=
  ⟨C27_outcome_written_at_wave_five.1 quietWaveEnd _ 12 rfl (Or.inr (by decide)),
    C27_outcome_written_at_wave_five.2 quietWaveEnd quietWaveEnd_reachable (by decide)⟩

/-- C24: a phase-8 state that is not terminal and whose wave is neither 0 nor
2 has the legal-move list `[12]`, whatever the placement loop counter starts
from: the UAV moves `0` and `1` are offered in waves 0 and 2 only. -/
theorem C24_uav_waves_only (i : Int) (s : State) (ht : IsTerminal s = false)
    (hp : s.current_phase_ = 8) (h0 : s.current_wave_ ≠ 0) (h2 : s.current_wave_ ≠ 2) :
    LegalActions i s = [12] := by
  rw [LegalActions_eq, ht, phaseMoves_8 hp, legal8_eq]
  have hw : ¬ (s.current_wave_ = 0 ∨ s.current_wave_ = 2) := by omega
  rw [if_neg hw]
  rfl

/-- C24 in phase 8 of wave 1, reached from `quietWaveEnd` by
`secondWaveQuiet`. -/
theorem C24_uav_waves_only_witness :
    LegalActions 0 (playEnd quietWaveEnd secondWaveQuiet) = [12] :=
  C24_uav_waves_only 0 _ (by decide) (by decide) (by decide) (by decide)

/-- C28: in phase 7 with `red_hits_ = r`, `0 ≤ r < 4`, a move `m` among `0`
(Airbase), `1` (Active SAM), `2` (Passive SAM) leaves `red_hits_ = (r + 1) mod
4`, adds one to the attack counter of its category and nothing to the other
two; when `r + 1 < 4` the points of Blue stay and the board changes by
`board_[2] - 1`, `board_[3] + 1` only; when `r + 1 ≥ 4` Blue gains one point
and, before that same High Strike flip, one unit leaves the attacking slot of
the category if that slot is non-zero, otherwise its evading slot. -/
theorem C28_high_strike_attack (s : State) (m : Int) (hp : s.current_phase_ = 7)
    (hr0 : 0 ≤ s.red_hits_) (hr4 : s.red_hits_ < 4) (hm : m = 0 ∨ m = 1 ∨ m = 2) :
    ∃ t, DoApplyAction s m = .ok t
      ∧ t.red_hits_ = (s.red_hits_ + 1) % 4
      ∧ t.airbase_attacks_ = s.airbase_attacks_ + (if m = 0 then 1 else 0)
      ∧ t.active_sam_attacks_ = s.active_sam_attacks_ + (if m = 1 then 1 else 0)
      ∧ t.passive_sam_attacks_ = s.passive_sam_attacks_ + (if m = 2 then 1 else 0)
      ∧ (s.red_hits_ + 1 < 4 →
          t.blue_points_ = s.blue_points_
          ∧ t.board_ = { s.board_ with b2 := s.board_.b2 - 1, b3 := s.board_.b3 + 1 })
      ∧ (s.red_hits_ + 1 ≥ 4 →
          t.blue_points_ = s.blue_points_ + 1
          ∧ ∃ c, s.board_.addAt (specStruckCell s.board_ m) (-1) = some c
            ∧ t.board_ = { c with b2 := c.b2 - 1, b3 := c.b3 + 1 }) := by
  have h11 : m ≠ 11 := by omega
  have h12 : m ≠ 12 := by omega
  have hr : s.red_hits_ = 0 ∨ s.red_hits_ = 1 ∨ s.red_hits_ = 2 ∨ s.red_hits_ = 3 := by
    omega
  rw [DoApplyAction_at7 h11 h12 hp]
  rcases hm with rfl | rfl | rfl
  · by_cases hz : s.board_.b14 = 0 <;> rcases hr with h | h | h | h <;>
      simp [phase7, aimAirbase, groundKill, State.bump, Board.addAt, specStruckCell, hz, h,
        Except.map]
  · by_cases hz : s.board_.b10 = 0 <;> rcases hr with h | h | h | h <;>
      simp [phase7, aimActiveSam, groundKill, State.bump, Board.addAt, specStruckCell, hz, h,
        Except.map]
  · by_cases hz : s.board_.b12 = 0 <;> rcases hr with h | h | h | h <;>
      simp [phase7, aimPassiveSam, groundKill, State.bump, Board.addAt, specStruckCell, hz, h,
        Except.map]

/-- C28 at the start of phase 7 after `strikeOpening`, where move `0` is
legal and `red_hits_` is 0: the Airbase is attacked once, no unit is lost. -/
theorem C28_high_strike_attack_witness :
    LegalActions 0 (playEnd NewInitialState strikeOpening) = [0, 2]
    ∧ ∃ t, DoApplyAction (playEnd NewInitialState strikeOpening) 0 = .ok t
      ∧ t.red_hits_ = 1 ∧ t.airbase_attacks_ = 1 ∧ t.blue_points_ = 0
      ∧ t.board_ = ⟨0, 0, 1, 1, 0, 0, 8, 0, 0, 0, 0, 0, 4, 0, 4, 0, 0, 4⟩ := by
  refine ⟨by decide, ?_⟩
  obtain ⟨t, h1, h2, h3, -, -, h6, -⟩ :=
    C28_high_strike_attack (playEnd NewInitialState strikeOpening) 0 (by decide) (by decide)
      (by decide) (Or.inl rfl)
  obtain ⟨h7, h8⟩ := h6 (by decide)
  exact ⟨t, h1, h2.trans (by decide), h3.trans (by decide), h7.trans (by decide),
    h8.trans (by decide)⟩

/-- C29: in phase 9 the moves `0` and `3` leave `red_hits_`, `blue_hits_`, the
points and the four attack counters as they were.  Move `0` changes the board
by `board_[14] - 1`, `board_[15] + 1`; move `3` by `board_[8] - 1` if
`board_[8] > 0`, otherwise `board_[9] - 1`, and `board_[15] + 1`; both also by
`board_[6] - 1`, `board_[7] + 1`. -/
theorem C29_flips_without_damage (s : State) (hp : s.current_phase_ = 9) :
    (∃ t, DoApplyAction s 0 = .ok t
      ∧ t.red_hits_ = s.red_hits_ ∧ t.blue_hits_ = s.blue_hits_
      ∧ t.blue_points_ = s.blue_points_ ∧ t.red_points_ = s.red_points_
      ∧ t.low_strike_attacks_ = s.low_strike_attacks_
      ∧ t.active_sam_attacks_ = s.active_sam_attacks_
      ∧ t.passive_sam_attacks_ = s.passive_sam_attacks_
      ∧ t.airbase_attacks_ = s.airbase_attacks_
      ∧ t.board_ = { s.board_ with
          b14 := s.board_.b14 - 1, b15 := s.board_.b15 + 1
          b6 := s.board_.b6 - 1, b7 := s.board_.b7 + 1 })
    ∧ (∃ t, DoApplyAction s 3 = .ok t
      ∧ t.red_hits_ = s.red_hits_ ∧ t.blue_hits_ = s.blue_hits_
      ∧ t.blue_points_ = s.blue_points_ ∧ t.red_points_ = s.red_points_
      ∧ t.low_strike_attacks_ = s.low_strike_attacks_
      ∧ t.active_sam_attacks_ = s.active_sam_attacks_
      ∧ t.passive_sam_attacks_ = s.passive_sam_attacks_
      ∧ t.airbase_attacks_ = s.airbase_attacks_
      ∧ t.board_ =
          if s.board_.b8 > 0 then
            { s.board_ with
              b8 := s.board_.b8 - 1, b15 := s.board_.b15 + 1
              b6 := s.board_.b6 - 1, b7 := s.board_.b7 + 1 }
          else
            { s.board_ with
              b9 := s.board_.b9 - 1, b15 := s.board_.b15 + 1
              b6 := s.board_.b6 - 1, b7 := s.board_.b7 + 1 }) := by
  constructor
  · rw [DoApplyAction_at9 (by decide) (by decide) hp]
    simp [phase9, flipAirbase, Except.map, Except.bind]
  · rw [DoApplyAction_at9 (by decide) (by decide) hp]
    by_cases h8 : s.board_.b8 > 0 <;>
      simp [phase9, flipIntercept, Except.map, Except.bind, h8]

/-- C29 at the start of phase 9 after `lowStrikeOpening`, where the moves `0`
and `3` are legal: the board was `…, 10, 0, 0, 1, …, 3, 0, …` in the cells 6
to 9 and 14, 15. -/
theorem C29_flips_without_damage_witness :
    LegalActions 0 (playEnd NewInitialState lowStrikeOpening) = [0, 2, 3]
    ∧ (∃ t, DoApplyAction (playEnd NewInitialState lowStrikeOpening) 0 = .ok t
      ∧ t.board_ = ⟨0, 0, 0, 0, 0, 0, 9, 1, 0, 1, 0, 0, 4, 0, 2, 1, 0, 4⟩)
    ∧ (∃ t, DoApplyAction (playEnd NewInitialState lowStrikeOpening) 3 = .ok t
      ∧ t.board_ = ⟨0, 0, 0, 0, 0, 0, 9, 1, 0, 0, 0, 0, 4, 0, 3, 1, 0, 4⟩) := by
  refine ⟨by decide, ?_, ?_⟩
  · obtain ⟨t, h1, -, -, -, -, -, -, -, -, h2⟩ :=
      (C29_flips_without_damage (playEnd NewInitialState lowStrikeOpening) (by decide)).1
    exact ⟨t, h1, h2.trans (by decide)⟩
  · obtain ⟨t, h1, -, -, -, -, -, -, -, -, h2⟩ :=
      (C29_flips_without_damage (playEnd NewInitialState lowStrikeOpening) (by decide)).2
    exact ⟨t, h1, h2.trans (by decide)⟩

/-- C30: in phase 3 with Red fighter pool `F`, a move `m` other than 11 and 12
gives `board_[8] = m` and `board_[14] = F - m`, whatever `board_[14]` held,
empties the pool, moves to phase 4 and leaves the player to move and
`num_moves_` as they were. -/
theorem C30_place_intercept (s : State) (m : Int) (hp : s.current_phase_ = 3)
    (h11 : m ≠ 11) (h12 : m ≠ 12) :
    ∃ t, DoApplyAction s m = .ok t
      ∧ t.board_.b8 = m
      ∧ t.board_.b14 = s.red_placeable_fighters_ - m
      ∧ t.red_placeable_fighters_ = 0
      ∧ t.current_phase_ = 4
      ∧ t.current_player_ = s.current_player_
      ∧ t.num_moves_ = s.num_moves_ := by
  refine ⟨phase3 s m, DoApplyAction_at3 h11 h12 hp, rfl, rfl, rfl, ?_, rfl, rfl⟩
  show s.current_phase_ + 1 = 4
  omega

/-- C30 in phase 3 of wave 1, reached from `quietWaveEnd` by the moves 12, 0,
0, 0: the rollover has carried four fighters into `board_[14]` and left the
pool at 0, and move `0` leaves `board_[14] = 0`. -/
theorem C30_place_intercept_witness :
    (playEnd quietWaveEnd [12, 0, 0, 0]).board_.b14 = 4
    ∧ (playEnd quietWaveEnd [12, 0, 0, 0]).red_placeable_fighters_ = 0
    ∧ ∃ t, DoApplyAction (playEnd quietWaveEnd [12, 0, 0, 0]) 0 = .ok t
      ∧ t.board_.b8 = 0 ∧ t.board_.b14 = 0 ∧ t.current_phase_ = 4 := by
  refine ⟨by decide, by decide, ?_⟩
  obtain ⟨t, h1, h2, h3, -, h5, -⟩ :=
    C30_place_intercept (playEnd quietWaveEnd [12, 0, 0, 0]) 0 (by decide) (by decide)
      (by decide)
  exact ⟨t, h1, h2, h3.trans (by decide), h5⟩

/-! ## Units and points in combat -/

theorem bump_within (s : State) {i : Int} (d : Int) (h0 : 0 ≤ i) (h17 : i ≤ 17) :
    ∃ c, s.bump i d = .ok { s with board_ := c } ∧ c.total = s.board_.total + d := by
  have hi : i = 0 ∨ i = 1 ∨ i = 2 ∨ i = 3 ∨ i = 4 ∨ i = 5 ∨ i = 6 ∨ i = 7 ∨ i = 8
      ∨ i = 9 ∨ i = 10 ∨ i = 11 ∨ i = 12 ∨ i = 13 ∨ i = 14 ∨ i = 15 ∨ i = 16
      ∨ i = 17 := by omega
  rcases hi with
    rfl | rfl | rfl | rfl | rfl | rfl | rfl | rfl | rfl | rfl | rfl | rfl | rfl | rfl
      | rfl | rfl | rfl | rfl <;>
    exact ⟨_, rfl, by simp only [Board.total]; omega⟩

theorem blueLoss_settles (s : State) (h0 : 0 ≤ s.attacking_box_)
    (h17 : s.attacking_box_ ≤ 17) :
    ∃ t, blueLoss s = .ok t ∧ Settles s t := by
  obtain ⟨c, hc, ht⟩ :=
    bump_within { s with blue_hits_ := s.blue_hits_ - 4 } (-1) h0 h17
  unfold blueLoss
  dsimp only at hc ⊢
  rw [hc]
  refine ⟨_, rfl, ?_⟩
  unfold Settles
  dsimp only at ht ⊢
  omega

theorem groundKill_settles (s : State) (h0 : 0 ≤ s.attacking_box_)
    (h17 : s.attacking_box_ ≤ 17) :
    ∃ t, groundKill s = .ok t ∧ Settles s t := by
  unfold groundKill
  split_ifs
  · obtain ⟨c, hc, ht⟩ :=
      bump_within { s with red_hits_ := s.red_hits_ - 4 } (-1) h0 h17
    dsimp only at hc ⊢
    rw [hc]
    refine ⟨_, rfl, ?_⟩
    unfold Settles
    dsimp only at ht ⊢
    omega
  · refine ⟨s, rfl, ?_⟩
    unfold Settles
    omega

theorem phase5BlueResolve_settles (s : State) (m : Int) (h0 : 0 ≤ s.attacking_box_)
    (h16 : s.attacking_box_ ≤ 16) :
    ∃ t, phase5BlueResolve s m = .ok t ∧ Settles s t := by
  unfold phase5BlueResolve
  dsimp only
  split_ifs
  · obtain ⟨t, ht, hs⟩ :=
      blueLoss_settles { s with blue_hits_ := s.blue_hits_ + 2 } h0 (by dsimp only; omega)
    rw [ht]
    refine ⟨_, rfl, ?_⟩
    unfold Settles at hs ⊢
    dsimp only at hs ⊢
    omega
  · refine ⟨_, rfl, ?_⟩
    unfold Settles
    dsimp only
    omega
  · obtain ⟨t, ht, hs⟩ :=
      blueLoss_settles { s with blue_hits_ := s.blue_hits_ + 1 } h0 (by dsimp only; omega)
    rw [ht]
    refine ⟨_, rfl, ?_⟩
    unfold Settles at hs ⊢
    simp only [Board.total] at hs ⊢
    omega
  · refine ⟨_, rfl, ?_⟩
    unfold Settles
    simp only [Board.total]
    omega
  · obtain ⟨t, ht, hs⟩ :=
      blueLoss_settles { s with blue_hits_ := s.blue_hits_ + 1 } h0 (by dsimp only; omega)
    rw [ht]
    refine ⟨_, rfl, ?_⟩
    unfold Settles at hs ⊢
    dsimp only at hs ⊢
    omega
  · obtain ⟨c, hc, ht⟩ :=
      bump_within { s with blue_hits_ := s.blue_hits_ + 1 } (-1) h0
        (show s.attacking_box_ ≤ 17 by omega)
    obtain ⟨e, he, hu⟩ :=
      bump_within { s with blue_hits_ := s.blue_hits_ + 1, board_ := c } 1
        (show 0 ≤ s.attacking_box_ + 1 by omega) (show s.attacking_box_ + 1 ≤ 17 by omega)
    dsimp only at hc he ⊢
    rw [hc]
    refine ⟨_, congrArg (Except.map _) he, ?_⟩
    unfold Settles
    dsimp only at ht hu ⊢
    omega
  · refine ⟨_, rfl, ?_⟩
    unfold Settles
    dsimp only
    omega

theorem phase5_settles (s : State) (m : Int) (h0 : 0 ≤ s.attacking_box_)
    (h16 : s.attacking_box_ ≤ 16) :
    ∃ t, phase5 s m = .ok t ∧ Settles s t := by
  unfold phase5
  split_ifs
  · refine ⟨_, rfl, ?_⟩
    unfold phase5BlueDeclare Settles
    dsimp only
    split_ifs <;> dsimp only [Board.total] <;> omega
  · obtain ⟨t, ht, hs⟩ := phase5BlueResolve_settles s m h0 h16
    rw [ht]
    refine ⟨_, rfl, ?_⟩
    unfold Settles at hs ⊢
    dsimp only at hs ⊢
    omega
  · refine ⟨_, rfl, ?_⟩
    unfold phase5RedDeclare Settles
    dsimp only
    split_ifs <;> dsimp only [Board.total] <;> omega
  · refine ⟨_, rfl, ?_⟩
    unfold phase5RedResolve Settles
    dsimp only
    split_ifs <;> dsimp only [Board.total] <;> omega
  · refine ⟨_, rfl, ?_⟩
    unfold Settles
    dsimp only
    omega

theorem phase6_settles (s : State) (m : Int) : Settles s (phase6 s m) := by
  unfold phase6 phase6BlueDeclare phase6BlueResolve phase6RedDeclare phase6RedResolve
    phase6HighStrikeLost Settles
  dsimp only
  split_ifs <;> dsimp only [Board.total] <;> omega

theorem aim_sameUnits {s u : State} (h1 : u.board_.total = s.board_.total)
    (h2 : u.blue_points_ = s.blue_points_) (h3 : u.red_points_ = s.red_points_) :
    SameUnits s (aimAirbase u) ∧ SameUnits s (aimActiveSam u)
    ∧ SameUnits s (aimPassiveSam u) := by
  unfold aimAirbase aimActiveSam aimPassiveSam
  dsimp only
  refine ⟨?_, ?_, ?_⟩ <;> split_ifs <;> refine ⟨h1, h2, h3, ?_, ?_⟩ <;> dsimp only <;> omega

theorem sameUnits_if {s u : State} {f : State → State} (c : Prop) [Decidable c]
    (hu : SameUnits s u) (hf : SameUnits s (f u)) :
    SameUnits s (if c then f u else u) := by
  split_ifs
  · exact hf
  · exact hu

/-- The damage step on a state `u` with the board total and the points of `s`,
followed by a step `f` that changes neither the board total nor the points. -/
theorem groundKill_then {s u : State} {f : State → State}
    (hf : ∀ v, (f v).board_.total = v.board_.total ∧ (f v).blue_points_ = v.blue_points_
      ∧ (f v).red_points_ = v.red_points_)
    (hu : SameUnits s u) :
    ∃ t, (groundKill u).map f = .ok t ∧ Settles s t := by
  obtain ⟨u1, u2, u3, u5, u6⟩ := hu
  obtain ⟨t, ht, hs⟩ := groundKill_settles u u5 u6
  rw [ht]
  refine ⟨_, rfl, ?_⟩
  obtain ⟨f1, f2, f3⟩ := hf t
  unfold Settles at hs ⊢
  omega

theorem phase7_settles (s : State) (m : Int) (h0 : 0 ≤ s.attacking_box_)
    (h17 : s.attacking_box_ ≤ 17) :
    ∃ t, phase7 s m = .ok t ∧ Settles s t := by
  unfold phase7
  dsimp only
  refine groundKill_then ?_ ?_
  · intro v
    dsimp only [Board.total]
    refine ⟨?_, rfl, rfl⟩
    omega
  · have a0 : SameUnits s { s with red_hits_ := s.red_hits_ + 1 } :=
      ⟨rfl, rfl, rfl, h0, h17⟩
    have a1 := sameUnits_if (m = 0) a0 (aim_sameUnits a0.1 a0.2.1 a0.2.2.1).1
    have a2 := sameUnits_if (m = 1) a1 (aim_sameUnits a1.1 a1.2.1 a1.2.2.1).2.1
    exact sameUnits_if (m = 2) a2 (aim_sameUnits a2.1 a2.2.1 a2.2.2.1).2.2

theorem phase8_settles (s : State) (m : Int) (h0 : 0 ≤ s.attacking_box_)
    (h17 : s.attacking_box_ ≤ 17) :
    ∃ t, phase8 s m = .ok t ∧ Settles s t := by
  unfold phase8
  dsimp only
  refine groundKill_then ?_ ?_
  · intro v
    exact ⟨rfl, rfl, rfl⟩
  · have a0 : SameUnits s { s with red_hits_ := s.red_hits_ + 1 } :=
      ⟨rfl, rfl, rfl, h0, h17⟩
    have a1 := sameUnits_if (m = 0) a0 (aim_sameUnits a0.1 a0.2.1 a0.2.2.1).2.1
    exact sameUnits_if (m = 1) a1 (aim_sameUnits a1.1 a1.2.1 a1.2.2.1).2.2

theorem bind_ok_map (x : Except Fault State) (f : State → State) :
    (x.bind fun s => (Except.ok s : Except Fault State).map f) = x.map f := by
  cases x <;> rfl

theorem phase9_settles (s : State) (m : Int) : ∃ t, phase9 s m = .ok t ∧ Settles s t := by
  have key : ∀ s0 : State, s0.board_.total = s.board_.total →
      s0.blue_points_ = s.blue_points_ → s0.red_points_ = s.red_points_ →
      ∃ t, ((if m = 1 then
          groundKill (aimActiveSam { s0 with red_hits_ := s0.red_hits_ + 1 })
        else .ok s0).bind fun s =>
      (if m = 2 then
          groundKill (aimPassiveSam { s with red_hits_ := s.red_hits_ + 1 })
        else .ok s).map fun s =>
      let s := if m = 3 then flipIntercept s else s
      let s := { s with board_ := { s.board_ with b6 := s.board_.b6 - 1 } }
      { s with board_ := { s.board_ with b7 := s.board_.b7 + 1 } }) = .ok t
        ∧ Settles s t := by
    intro s0 e1 e2 e3
    have hflip : ∀ v : State,
        ((fun s : State =>
          let s := if m = 3 then flipIntercept s else s
          let s := { s with board_ := { s.board_ with b6 := s.board_.b6 - 1 } }
          { s with board_ := { s.board_ with b7 := s.board_.b7 + 1 } }) v).board_.total
          = v.board_.total
        ∧ ((fun s : State =>
          let s := if m = 3 then flipIntercept s else s
          let s := { s with board_ := { s.board_ with b6 := s.board_.b6 - 1 } }
          { s with board_ := { s.board_ with b7 := s.board_.b7 + 1 } }) v).blue_points_
          = v.blue_points_
        ∧ ((fun s : State =>
          let s := if m = 3 then flipIntercept s else s
          let s := { s with board_ := { s.board_ with b6 := s.board_.b6 - 1 } }
          { s with board_ := { s.board_ with b7 := s.board_.b7 + 1 } }) v).red_points_
          = v.red_points_ := by
      intro v
      unfold flipIntercept
      dsimp only
      refine ⟨?_, ?_, ?_⟩ <;> split_ifs <;> dsimp only [Board.total] <;> omega
    rcases (show m = 1 ∨ m = 2 ∨ (m ≠ 1 ∧ m ≠ 2) by omega) with h1 | h2 | ⟨h1, h2⟩
    · have h2 : ¬ m = 2 := by omega
      simp only [eq_true h1, eq_false h2, if_true, if_false]
      rw [bind_ok_map]
      exact groundKill_then hflip
        (@aim_sameUnits s { s0 with red_hits_ := s0.red_hits_ + 1 } e1 e2 e3).2.1
    · have h1 : ¬ m = 1 := by omega
      simp only [eq_true h2, eq_false h1, if_true, if_false]
      exact groundKill_then hflip
        (@aim_sameUnits s { s0 with red_hits_ := s0.red_hits_ + 1 } e1 e2 e3).2.2
    · simp only [eq_false h1, eq_false h2, if_false]
      refine ⟨_, rfl, ?_⟩
      obtain ⟨f1, f2, f3⟩ := hflip s0
      unfold Settles
      dsimp only at f1 f2 f3 ⊢
      omega
  unfold phase9
  dsimp only
  refine key (if m = 0 then flipAirbase s else s) ?_ ?_ ?_ <;>
    (unfold flipAirbase; split_ifs <;> dsimp only [Board.total] <;> omega)

/-- C25: in a phase from 5 to 9 with `0 ≤ attacking_box_ ≤ 16`, a move other
than 11 and 12 is always applied (`DoApplyAction` returns), and it leaves the
sum of the eighteen cells, the points of Blue and the points of Red together
unchanged: the board total after the move is the total before minus the
points awarded.  No side loses a point, the points awarded are 0 or 1, and the
board total does not increase. -/
theorem C25_units_conserved (s : State) (m : Int) (hp5 : 5 ≤ s.current_phase_)
    (hp9 : s.current_phase_ ≤ 9) (hb0 : 0 ≤ s.attacking_box_)
    (hb16 : s.attacking_box_ ≤ 16) (h11 : m ≠ 11) (h12 : m ≠ 12) :
    ∃ t, DoApplyAction s m = .ok t
      ∧ t.board_.total + t.blue_points_ + t.red_points_
          = s.board_.total + s.blue_points_ + s.red_points_
      ∧ t.board_.total
          = s.board_.total
            - ((t.blue_points_ - s.blue_points_) + (t.red_points_ - s.red_points_))
      ∧ s.blue_points_ ≤ t.blue_points_ ∧ s.red_points_ ≤ t.red_points_
      ∧ ((t.blue_points_ - s.blue_points_) + (t.red_points_ - s.red_points_) = 0
        ∨ (t.blue_points_ - s.blue_points_) + (t.red_points_ - s.red_points_) = 1)
      ∧ t.board_.total ≤ s.board_.total := by
  have key : ∃ t, DoApplyAction s m = .ok t ∧ Settles s t := by
    have hp : s.current_phase_ = 5 ∨ s.current_phase_ = 6 ∨ s.current_phase_ = 7
        ∨ s.current_phase_ = 8 ∨ s.current_phase_ = 9 := by omega
    rcases hp with hp | hp | hp | hp | hp
    · rw [DoApplyAction_at5 h11 h12 hp]
      exact phase5_settles s m hb0 hb16
    · rw [DoApplyAction_at6 h11 h12 hp]
      exact ⟨_, rfl, phase6_settles s m⟩
    · rw [DoApplyAction_at7 h11 h12 hp]
      exact phase7_settles s m hb0 (by omega)
    · rw [DoApplyAction_at8 h11 h12 hp]
      exact phase8_settles s m hb0 (by omega)
    · rw [DoApplyAction_at9 h11 h12 hp]
      exact phase9_settles s m
  obtain ⟨t, ht, h1, h2, h3, h4⟩ := key
  refine ⟨t, ht, h1, ?_, h2, h3, ?_, ?_⟩ <;> omega

/-- C25 at the last move of `escortTwice`, a Blue answer of phase 5 in which
an Escort fighter is lost and Red gains a point: cells and points add up to 22
before and after. -/
theorem C25_units_conserved_witness :
    (playEnd NewInitialState escortTwice.dropLast).board_.total = 21
    ∧ (playEnd NewInitialState escortTwice.dropLast).blue_points_ = 1
    ∧ (playEnd NewInitialState escortTwice.dropLast).red_points_ = 0
    ∧ ∃ t, DoApplyAction (playEnd NewInitialState escortTwice.dropLast) 1 = .ok t
      ∧ t.board_.total + t.blue_points_ + t.red_points_ = 22 := by
  refine ⟨by decide, by decide, by decide, ?_⟩
  obtain ⟨t, h1, h2, -⟩ :=
    C25_units_conserved (playEnd NewInitialState escortTwice.dropLast) 1 (by decide)
      (by decide) (by decide) (by decide) (by decide) (by decide)
  exact ⟨t, h1, h2.trans (by decide)⟩

/-! ## The attack counters -/

theorem bump_used {s t : State} {i d : Int} (h : s.bump i d = .ok t) : used t = used s := by
  obtain ⟨c, -, rfl⟩ := bump_ok h
  rfl

theorem groundKill_used {s t : State} (h : groundKill s = .ok t) : used t = used s := by
  unfold groundKill at h
  split_ifs at h
  · obtain ⟨u, hu, rfl⟩ := map_eq_ok h
    have h1 := bump_used hu
    exact h1
  · cases h
    rfl

theorem aim_used (s : State) :
    used (aimAirbase s)
      = (s.low_strike_attacks_, s.active_sam_attacks_, s.passive_sam_attacks_,
          s.airbase_attacks_ + 1)
    ∧ used (aimActiveSam s)
      = (s.low_strike_attacks_, s.active_sam_attacks_ + 1, s.passive_sam_attacks_,
          s.airbase_attacks_)
    ∧ used (aimPassiveSam s)
      = (s.low_strike_attacks_, s.active_sam_attacks_, s.passive_sam_attacks_ + 1,
          s.airbase_attacks_) := by
  unfold aimAirbase aimActiveSam aimPassiveSam
  dsimp only
  refine ⟨?_, ?_, ?_⟩ <;> split_ifs <;> rfl

/-- Phase 6 adds one to `low_strike_attacks_` at the AAA declaration of Red and
writes no other counter. -/
theorem phase6_used (s : State) (m : Int) :
    used (phase6 s m)
      = (s.low_strike_attacks_
          + (if s.current_player_ = 1 ∧ s.is_attacking_ = true ∧ m = 1 then 1 else 0),
        s.active_sam_attacks_, s.passive_sam_attacks_, s.airbase_attacks_) := by
  unfold phase6 phase6BlueDeclare phase6BlueResolve phase6RedDeclare phase6RedResolve
    phase6HighStrikeLost used
  dsimp only
  split_ifs <;> simp_all

/-- Phase 7 adds one to the counter of the category attacked. -/
theorem phase7_used {s t : State} {m : Int} (h : phase7 s m = .ok t) :
    used t
      = (s.low_strike_attacks_,
        s.active_sam_attacks_ + (if m = 1 then 1 else 0),
        s.passive_sam_attacks_ + (if m = 2 then 1 else 0),
        s.airbase_attacks_ + (if m = 0 then 1 else 0)) := by
  unfold phase7 at h
  dsimp only at h
  obtain ⟨u, hu, rfl⟩ := map_eq_ok h
  show used u = _
  rw [groundKill_used hu]
  split_ifs <;>
    (try simp only [(aim_used _).1, (aim_used _).2.1, (aim_used _).2.2]) <;>
    simp_all [used]

/-- Phase 8 adds one to the counter of the category attacked. -/
theorem phase8_used {s t : State} {m : Int} (h : phase8 s m = .ok t) :
    used t
      = (s.low_strike_attacks_,
        s.active_sam_attacks_ + (if m = 0 then 1 else 0),
        s.passive_sam_attacks_ + (if m = 1 then 1 else 0),
        s.airbase_attacks_) := by
  unfold phase8 at h
  dsimp only at h
  obtain ⟨u, hu, rfl⟩ := map_eq_ok h
  show used u = _
  rw [groundKill_used hu]
  split_ifs <;>
    (try simp only [(aim_used _).1, (aim_used _).2.1, (aim_used _).2.2]) <;>
    simp_all [used]

/-- Phase 9 adds one to the counter of the category attacked. -/
theorem phase9_used {s t : State} {m : Int} (h : phase9 s m = .ok t) :
    used t
      = (s.low_strike_attacks_,
        s.active_sam_attacks_ + (if m = 1 then 1 else 0),
        s.passive_sam_attacks_ + (if m = 2 then 1 else 0),
        s.airbase_attacks_) := by
  have key : ∀ s0 : State,
      ((if m = 1 then
          groundKill (aimActiveSam { s0 with red_hits_ := s0.red_hits_ + 1 })
        else .ok s0).bind fun s =>
      (if m = 2 then
          groundKill (aimPassiveSam { s with red_hits_ := s.red_hits_ + 1 })
        else .ok s).map fun s =>
      let s := if m = 3 then flipIntercept s else s
      let s := { s with board_ := { s.board_ with b6 := s.board_.b6 - 1 } }
      { s with board_ := { s.board_ with b7 := s.board_.b7 + 1 } }) = .ok t →
      used t
        = (s0.low_strike_attacks_,
          s0.active_sam_attacks_ + (if m = 1 then 1 else 0),
          s0.passive_sam_attacks_ + (if m = 2 then 1 else 0),
          s0.airbase_attacks_) := by
    intro s0 h
    obtain ⟨u, hu, h⟩ := bind_eq_ok h
    obtain ⟨v, hv, rfl⟩ := map_eq_ok h
    have h1 : used u
        = (s0.low_strike_attacks_, s0.active_sam_attacks_ + (if m = 1 then 1 else 0),
          s0.passive_sam_attacks_, s0.airbase_attacks_) := by
      split_ifs at hu ⊢
      · rw [groundKill_used hu, (aim_used _).2.1]
      · cases hu
        simp [used]
    have h2 : used v
        = (u.low_strike_attacks_, u.active_sam_attacks_,
          u.passive_sam_attacks_ + (if m = 2 then 1 else 0), u.airbase_attacks_) := by
      split_ifs at hv ⊢
      · rw [groundKill_used hv, (aim_used _).2.2]
      · cases hv
        simp [used]
    have h3 : used ((fun s : State =>
        let s := if m = 3 then flipIntercept s else s
        let s := { s with board_ := { s.board_ with b6 := s.board_.b6 - 1 } }
        { s with board_ := { s.board_ with b7 := s.board_.b7 + 1 } }) v) = used v := by
      unfold flipIntercept
      dsimp only
      split_ifs <;> rfl
    rw [h3, h2]
    simp only [used, Prod.mk.injEq] at h1
    obtain ⟨a1, a2, a3, a4⟩ := h1
    rw [a1, a2, a3, a4]
  have h0 := key (if m = 0 then flipAirbase s else s) h
  rw [h0]
  unfold flipAirbase
  split_ifs <;> rfl

/-! ## The guards of the legal-move lists -/

theorem mem_legal6_guards {s : State} {m : Int} (h : m ∈ legal6 s) :
    (s.current_player_ = 1 → s.is_attacking_ = true → m = 1 →
      s.low_strike_attacks_ < s.max_low_strike_attacks_)
    ∧ (s.is_attacking_ = true → m = 0 → 0 < s.board_.b10)
    ∧ (s.current_player_ = 1 → s.is_attacking_ = false → m = 0 ∨ m = 12)
    ∧ (s.current_player_ = 0 → s.is_attacking_ = true → m = 0 ∨ m = 1 ∨ m = 12) := by
  rw [legal6_eq] at h
  rcases player_cases s with ⟨h0, h1⟩ | ⟨h0, h1⟩ | ⟨h0, h1⟩ <;>
    rcases attacking_cases s with ha | ha <;>
    simp only [h0, h1, ha, if_true, if_false, pushIf] at h <;>
    split_ifs at h <;> simp at h <;> simp_all <;> omega

theorem mem_legal7_guards {s : State} {m : Int} (h : m ∈ legal7 s) :
    (m = 0 → s.airbase_attacks_ < s.max_airbase_attacks_)
    ∧ (m = 1 → s.active_sam_attacks_ < s.max_active_sam_attacks_)
    ∧ (m = 2 → s.passive_sam_attacks_ < s.max_passive_sam_attacks_) := by
  rw [legal7_eq] at h
  simp only [orPush, pushIf] at h
  split_ifs at h <;> simp at h <;> simp_all <;> omega

theorem mem_legal8_guards {s : State} {m : Int} (h : m ∈ legal8 s) :
    (m = 0 → s.active_sam_attacks_ < s.max_active_sam_attacks_)
    ∧ (m = 1 → s.passive_sam_attacks_ < s.max_passive_sam_attacks_) := by
  rw [legal8_eq] at h
  simp only [orPush, pushIf] at h
  split_ifs at h <;> simp at h <;> simp_all

theorem mem_legal9_guards {s : State} {m : Int} (h : m ∈ legal9 s) :
    (m = 1 → s.active_sam_attacks_ < s.max_active_sam_attacks_)
    ∧ (m = 2 → s.passive_sam_attacks_ < s.max_passive_sam_attacks_) := by
  rw [legal9_eq] at h
  simp only [orPush, pushIf] at h
  split_ifs at h <;> simp at h <;> simp_all <;> omega

/-- Move `12` clears the four counters in phase 9 and leaves them in any other
phase. -/
theorem applyAdvance_used (s : State) :
    used (applyAdvance s) = if s.current_phase_ = 9 then (0, 0, 0, 0) else used s := by
  by_cases h9 : s.current_phase_ = 9
  · obtain ⟨o, ho⟩ := applyAdvance_of_eq9 h9
    rw [ho, if_pos h9]
    rfl
  · obtain ⟨o, ml, ma, mp, mb, ho⟩ := applyAdvance_of_ne9 h9
    rw [ho, if_neg h9]
    rfl

theorem DoApplyAction_advance {s t : State} (h : DoApplyAction s 12 = .ok t) :
    t = applyAdvance s := by
  unfold DoApplyAction at h
  rw [if_neg (by decide), if_pos rfl] at h
  cases h
  rfl

/-- A legal move of phase 6, 7, 8 or 9, other than move `12` in phase 6 or 9,
keeps each quota inequality that holds before it. -/
theorem quota_kept {i : Int} {s t : State} {m : Int} (hp6 : 6 ≤ s.current_phase_)
    (hp9 : s.current_phase_ ≤ 9) (hm : m ∈ LegalActions i s)
    (hx : m = 12 → s.current_phase_ = 7 ∨ s.current_phase_ = 8)
    (h : DoApplyAction s m = .ok t) :
    (s.low_strike_attacks_ ≤ s.max_low_strike_attacks_ →
      t.low_strike_attacks_ ≤ t.max_low_strike_attacks_)
    ∧ (s.active_sam_attacks_ ≤ s.max_active_sam_attacks_ →
      t.active_sam_attacks_ ≤ t.max_active_sam_attacks_)
    ∧ (s.passive_sam_attacks_ ≤ s.max_passive_sam_attacks_ →
      t.passive_sam_attacks_ ≤ t.max_passive_sam_attacks_)
    ∧ (s.airbase_attacks_ ≤ s.max_airbase_attacks_ →
      t.airbase_attacks_ ≤ t.max_airbase_attacks_) := by
  obtain ⟨-, hmem⟩ := mem_LegalActions hm
  by_cases h12 : m = 12
  · subst h12
    have hph := hx rfl
    have e := DoApplyAction_advance h
    subst e
    have hu := applyAdvance_used s
    obtain ⟨c1, c2, c3, c4⟩ := applyAdvance_caps s
    rw [if_neg (by omega)] at hu c1 c2 c3 c4
    simp only [used, Prod.mk.injEq] at hu
    obtain ⟨u1, u2, u3, u4⟩ := hu
    rw [c1, c2, c3, c4, u1, u2, u3, u4]
    exact ⟨id, id, id, id⟩
  have hf := DoApplyAction_frozen h h12
  simp only [frozen, Prod.mk.injEq] at hf
  obtain ⟨-, -, f3, f4, f5, f6⟩ := hf
  rw [f3, f4, f5, f6]
  by_cases h11 : m = 11
  · subst h11
    unfold DoApplyAction applyPass at h
    rw [if_pos rfl] at h
    dsimp only at h
    split_ifs at h
    cases h
    exact ⟨id, id, id, id⟩
  have hmem : m ∈ phaseMoves i s := by
    rcases hmem with hmem | ⟨_, hmem⟩
    · exact hmem
    · exact absurd hmem h11
  have hp : s.current_phase_ = 6 ∨ s.current_phase_ = 7 ∨ s.current_phase_ = 8
      ∨ s.current_phase_ = 9 := by omega
  rcases hp with hp | hp | hp | hp
  · rw [DoApplyAction_at6 h11 h12 hp] at h
    cases h
    rw [phaseMoves_6 hp] at hmem
    obtain ⟨g1, -, -, -⟩ := mem_legal6_guards hmem
    have hu := phase6_used s m
    simp only [used, Prod.mk.injEq] at hu
    obtain ⟨u1, u2, u3, u4⟩ := hu
    rw [u1, u2, u3, u4]
    refine ⟨?_, id, id, id⟩
    intro hle
    split_ifs with hc
    · have := g1 hc.1 hc.2.1 hc.2.2
      omega
    · omega
  · rw [DoApplyAction_at7 h11 h12 hp] at h
    rw [phaseMoves_7 hp] at hmem
    obtain ⟨g0, g1, g2⟩ := mem_legal7_guards hmem
    have hu := phase7_used h
    simp only [used, Prod.mk.injEq] at hu
    obtain ⟨u1, u2, u3, u4⟩ := hu
    rw [u1, u2, u3, u4]
    refine ⟨id, ?_, ?_, ?_⟩ <;> intro hle <;> split_ifs with hc <;> omega
  · rw [DoApplyAction_at8 h11 h12 hp] at h
    rw [phaseMoves_8 hp] at hmem
    obtain ⟨g0, g1⟩ := mem_legal8_guards hmem
    have hu := phase8_used h
    simp only [used, Prod.mk.injEq] at hu
    obtain ⟨u1, u2, u3, u4⟩ := hu
    rw [u1, u2, u3, u4]
    refine ⟨id, ?_, ?_, id⟩ <;> intro hle <;> split_ifs with hc <;> omega
  · rw [DoApplyAction_at9 h11 h12 hp] at h
    rw [phaseMoves_9 hp] at hmem
    obtain ⟨g1, g2⟩ := mem_legal9_guards hmem
    have hu := phase9_used h
    simp only [used, Prod.mk.injEq] at hu
    obtain ⟨u1, u2, u3, u4⟩ := hu
    rw [u1, u2, u3, u4]
    refine ⟨id, ?_, ?_, id⟩ <;> intro hle <;> split_ifs with hc <;> omega

/-! ## The cells the quota caps are read from -/

theorem bump_low {s t : State} {i d : Int} (h : s.bump i d = .ok t) (hi : i ≤ 7) :
    used t = used s ∧ t.board_.ground = s.board_.ground
    ∧ t.board_.b6 = s.board_.b6 + (if i = 6 then d else 0)
    ∧ t.attacking_box_ = s.attacking_box_ := by
  obtain ⟨c, hc, rfl⟩ := bump_ok h
  rcases Board.addAt_index hc with
    rfl | rfl | rfl | rfl | rfl | rfl | rfl | rfl | rfl | rfl | rfl | rfl | rfl | rfl
      | rfl | rfl | rfl | rfl <;>
    first
      | (exfalso; omega)
      | (simp [Board.addAt] at hc; subst hc; simp [used, Board.ground])

theorem phase5BlueResolve_cells {s t : State} {m : Int}
    (hab : s.attacking_box_ = 0 ∨ s.attacking_box_ = 2 ∨ s.attacking_box_ = 6)
    (h : phase5BlueResolve s m = .ok t) :
    used t = used s ∧ t.board_.ground = s.board_.ground
    ∧ s.board_.b6 - 1 ≤ t.board_.b6 ∧ t.board_.b6 ≤ s.board_.b6
    ∧ (s.attacking_box_ ≠ 6 → t.board_.b6 = s.board_.b6)
    ∧ t.is_attacking_ = true := by
  unfold phase5BlueResolve at h
  obtain ⟨u, hu, rfl⟩ := map_eq_ok h
  dsimp only at hu ⊢
  have hloss : ∀ s1 v : State, blueLoss s1 = .ok v →
      s1.attacking_box_ = s.attacking_box_ →
      used v = used s1 ∧ v.board_.ground = s1.board_.ground
      ∧ v.board_.b6 = s1.board_.b6 + (if s.attacking_box_ = 6 then -1 else 0) := by
    intro s1 v hv e
    unfold blueLoss at hv
    obtain ⟨w, hw, rfl⟩ := map_eq_ok hv
    obtain ⟨w1, w2, w3, -⟩ := bump_low hw (by dsimp only; omega)
    dsimp only at w3
    rw [e] at w3
    exact ⟨w1, w2, w3⟩
  split_ifs at hu
  · obtain ⟨a1, a2, a3⟩ := hloss _ _ hu rfl
    refine ⟨a1, a2, ?_, ?_, ?_, rfl⟩ <;> split_ifs at a3 <;> dsimp only at a3 <;> omega
  · cases hu
    refine ⟨rfl, rfl, ?_, ?_, fun _ => rfl, rfl⟩ <;> (try dsimp only) <;> omega
  · obtain ⟨v, hv, rfl⟩ := map_eq_ok hu
    obtain ⟨a1, a2, a3⟩ := hloss _ _ hv rfl
    refine ⟨a1, a2, ?_, ?_, ?_, rfl⟩ <;> split_ifs at a3 <;> dsimp only at a3 ⊢ <;> omega
  · obtain ⟨v, hv, rfl⟩ := map_eq_ok hu
    cases hv
    refine ⟨rfl, rfl, ?_, ?_, fun _ => rfl, rfl⟩ <;> (try dsimp only) <;> omega
  · obtain ⟨a1, a2, a3⟩ := hloss _ _ hu rfl
    refine ⟨a1, a2, ?_, ?_, ?_, rfl⟩ <;> split_ifs at a3 <;> dsimp only at a3 <;> omega
  · obtain ⟨v, hv, hu⟩ := bind_eq_ok hu
    obtain ⟨v1, v2, v3, v4⟩ := bump_low hv (by omega)
    rw [v4] at hu
    obtain ⟨w1, w2, w3, -⟩ := bump_low hu (by dsimp only; omega)
    dsimp only at v3 w3
    refine ⟨w1.trans v1, w2.trans v2, ?_, ?_, ?_, rfl⟩ <;>
      split_ifs at v3 w3 <;> omega
  · cases hu
    refine ⟨rfl, rfl, ?_, ?_, fun _ => rfl, rfl⟩ <;> (try dsimp only) <;> omega


theorem mem_legal5_low_guard {s : State} {m : Int} (h : m ∈ legal5 s)
    (hc : s.current_player_ = 1) (ha : s.is_attacking_ = true) (hm : m = 2) :
    0 < s.board_.b6 := by
  rw [legal5_eq] at h
  have h0 : ¬ s.current_player_ = 0 := by omega
  simp only [h0, hc, ha, if_true, if_false, pushIfEmpty, pushIf] at h
  split_ifs at h <;> simp at h <;> omega

theorem phase5_cells {s t : State} {m : Int} (h : phase5 s m = .ok t)
    (htgt : s.current_player_ = 0 → s.is_attacking_ = false →
      (s.attacking_box_ = 0 ∨ s.attacking_box_ = 2 ∨ s.attacking_box_ = 6))
    (hm : s.current_player_ = 1 → s.is_attacking_ = true → (m = 0 ∨ m = 1 ∨ m = 2)) :
    used t = used s ∧ t.board_.ground = s.board_.ground
    ∧ s.board_.b6 - 1 ≤ t.board_.b6 ∧ t.board_.b6 ≤ s.board_.b6
    ∧ (¬ (s.current_player_ = 0 ∧ s.is_attacking_ = false ∧ s.attacking_box_ = 6) →
        t.board_.b6 = s.board_.b6)
    ∧ (t.current_player_ = 0 → t.is_attacking_ = false → t.attacking_box_ = 6 →
        s.current_player_ = 1 ∧ s.is_attacking_ = true ∧ m = 2) := by
  unfold phase5 at h
  obtain ⟨u, hu, rfl⟩ := map_eq_ok h
  dsimp only
  split_ifs at hu with hp ha hq hb
  · cases hu
    unfold phase5BlueDeclare
    dsimp only
    split_ifs <;>
      refine ⟨rfl, rfl, ?_, ?_, fun _ => rfl, fun hc => absurd hc (by decide)⟩ <;>
      (try dsimp only) <;> omega
  · have hf : s.is_attacking_ = false := by simpa using ha
    obtain ⟨a1, a2, a3, a4, a5, a6⟩ := phase5BlueResolve_cells (htgt hp hf) hu
    refine ⟨a1, a2, a3, a4, fun hn => a5 (fun hc => hn ⟨hp, hf, hc⟩), ?_⟩
    intro _ hc
    rw [a6] at hc
    exact Bool.noConfusion hc
  · cases hu
    refine ⟨?_, ?_, ?_, ?_, ?_, ?_⟩ <;> rcases hm hq hb with rfl | rfl | rfl <;>
      simp [phase5RedDeclare, used, Board.ground, hq, hb]
  · cases hu
    unfold phase5RedResolve
    dsimp only
    refine ⟨?_, ?_, ?_, ?_, ?_, ?_⟩
    · split_ifs <;> rfl
    · split_ifs <;> rfl
    · split_ifs <;> (try dsimp only) <;> omega
    · split_ifs <;> (try dsimp only) <;> omega
    · intro _
      split_ifs <;> rfl
    · intro _ hc
      exact Bool.noConfusion hc
  · cases hu
    exact ⟨rfl, rfl, by omega, le_refl _, fun _ => rfl, fun hc => absurd hc hp⟩

theorem phase6_cells (s : State) (m : Int)
    (hd : s.current_player_ = 0 → s.is_attacking_ = true → m = 0 ∨ m = 1)
    (hr : s.current_player_ = 1 → s.is_attacking_ = false → m = 0) :
    (phase6 s m).board_.b12 = s.board_.b12 ∧ (phase6 s m).board_.b13 = s.board_.b13
    ∧ (phase6 s m).board_.b14 = s.board_.b14
    ∧ s.board_.b11 ≤ (phase6 s m).board_.b11
    ∧ s.board_.b10 - 1 ≤ (phase6 s m).board_.b10
    ∧ ((phase6 s m).board_.b10 < s.board_.b10 →
        s.current_player_ = 1 ∧ m = 0
        ∧ (s.is_attacking_ = true ∨ s.attacking_box_ = 10))
    ∧ ((phase6 s m).current_player_ = 1 → (phase6 s m).is_attacking_ = false →
        (phase6 s m).attacking_box_ = 10 →
        s.current_player_ = 0 ∧ s.is_attacking_ = true ∧ m = 0
        ∧ (phase6 s m).board_.b10 = s.board_.b10) := by
  unfold phase6 phase6BlueDeclare phase6BlueResolve phase6RedDeclare phase6RedResolve
    phase6HighStrikeLost
  dsimp only
  split_ifs <;> simp_all


/-! ## The invariant `QuotaInv` -/

theorem QuotaInv.atStart : QuotaInv NewInitialState := by
  refine ⟨BoundInv.initial, ?_, ?_, ?_, ?_, ?_, ?_, ?_, ?_, ?_⟩ <;>
    simp [NewInitialState, Board.zero]

/-- Move `12` is offered from phase 5 on only. -/
theorem advance_from_combat {s : State} (h : BoundInv s) (hmem : 12 ∈ phaseMoves 0 s) :
    5 ≤ s.current_phase_ := by
  have hlo := h.pool.phase_lo
  have hblue : ¬ (s.current_phase_ = 0 ∨ s.current_phase_ = 1 ∨ s.current_phase_ = 2) := by
    intro hp
    rw [phaseMoves_blue hp, mem_placementLoop] at hmem
    have := h.pool.blue_early (by omega)
    omega
  have h3 : ¬ s.current_phase_ = 3 := by
    intro hp
    rw [phaseMoves_3 hp, mem_placementLoop] at hmem
    have := h.fighters_early (by omega)
    omega
  have h4 : ¬ s.current_phase_ = 4 := by
    intro hp
    rw [phaseMoves_4 hp, mem_placementLoop] at hmem
    have := h.sam_early (by omega)
    omega
  omega

theorem QuotaInv.passed {s t : State} (h : QuotaInv s) (hb : BoundInv t)
    (happ : DoApplyAction s 11 = .ok t) : QuotaInv t := by
  unfold DoApplyAction applyPass at happ
  rw [if_pos rfl] at happ
  dsimp only at happ
  split_ifs at happ
  cases happ
  refine ⟨hb, h.caps, h.within, h.low_early, h.ground_early, h.low_strike, h.sams,
    h.airbase, ?_, ?_⟩
  · intro _ _ hc
    exact Bool.noConfusion hc
  · intro _ _ hc
    exact Bool.noConfusion hc

theorem QuotaInv.advanced {s : State} (h : QuotaInv s) (hb : BoundInv (applyAdvance s))
    (hp5 : 5 ≤ s.current_phase_) : QuotaInv (applyAdvance s) := by
  have hhi := h.base.pool.phase_hi
  obtain ⟨c1, c2, c3, c4⟩ := h.caps
  obtain ⟨w1, w2, w3, w4⟩ := h.within
  obtain ⟨-, f15, -⟩ := h.base.fighters_late (by omega)
  have hc := applyAdvance_caps s
  by_cases h9 : s.current_phase_ = 9
  · obtain ⟨o, ho⟩ := applyAdvance_of_eq9 h9
    rw [ho] at hb ⊢
    refine ⟨hb, ?_, ?_, ?_, ?_, ?_, ?_, ?_, ?_, ?_⟩ <;>
      dsimp only [Board.zero] <;> intros <;> omega
  · obtain ⟨o, ml, ma, mp, mb, ho⟩ := applyAdvance_of_ne9 h9
    rw [ho] at hb hc ⊢
    dsimp only at hc
    obtain ⟨e1, e2, e3, e4⟩ := hc
    have hl := h.low_early
    have hg := h.ground_early
    have h6 := h.low_strike (by omega)
    have hs := h.sams hp5
    have ha := h.airbase (by omega)
    refine ⟨hb, ?_, ?_, ?_, ?_, ?_, ?_, ?_, ?_, ?_⟩
    · dsimp only
      split_ifs at e1 e2 e3 e4 <;> omega
    · dsimp only
      split_ifs at e1 e2 e3 e4 <;> omega
    · dsimp only
      intro _
      omega
    · dsimp only
      intro _
      omega
    · dsimp only
      intro _ _
      omega
    · dsimp only
      intro _ _
      omega
    · dsimp only
      intro _ _
      omega
    · dsimp only
      intro _ _ hc
      exact Bool.noConfusion hc
    · dsimp only
      intro _ _ hc
      exact Bool.noConfusion hc

theorem QuotaInv.stepped {s t : State} (h : QuotaInv s) (hst : StepZero s t) :
    QuotaInv t := by
  have hb : BoundInv t := h.base.next hst
  obtain ⟨m, hm0, happ⟩ := hst
  obtain ⟨-, hmem⟩ := mem_LegalActions hm0
  have hlo := h.base.pool.phase_lo
  have hhi := h.base.pool.phase_hi
  by_cases h11 : m = 11
  · subst h11
    exact h.passed hb happ
  have hmem : m ∈ phaseMoves 0 s := by
    rcases hmem with hmem | ⟨_, hmem⟩
    · exact hmem
    · exact absurd hmem h11
  by_cases h12 : m = 12
  · subst h12
    have e := DoApplyAction_advance happ
    subst e
    exact h.advanced hb (advance_from_combat h.base hmem)
  have hf := DoApplyAction_frozen happ h12
  simp only [frozen, Prod.mk.injEq] at hf
  obtain ⟨-, -, f3, f4, f5, f6⟩ := hf
  obtain ⟨c1, c2, c3, c4⟩ := h.caps
  obtain ⟨w1, w2, w3, w4⟩ := h.within
  have hcaps : 0 ≤ t.max_low_strike_attacks_ ∧ 0 ≤ t.max_active_sam_attacks_
      ∧ 0 ≤ t.max_passive_sam_attacks_ ∧ 0 ≤ t.max_airbase_attacks_ := by
    rw [f3, f4, f5, f6]
    exact h.caps
  rcases phase_cases s with hp | hp | hp | hp | hp | hp | hp | hp | hp | hp | hp
  · rw [DoApplyAction_at0 h11 h12 hp] at happ
    cases happ
    have hl := h.low_early (by omega)
    have hg := h.ground_early (by omega)
    refine ⟨hb, h.caps, h.within, ?_, ?_, ?_, ?_, ?_, ?_, ?_⟩ <;>
      dsimp only [phase0] <;> intros <;> omega
  · rw [DoApplyAction_at1 h11 h12 hp] at happ
    cases happ
    have hl := h.low_early (by omega)
    have hg := h.ground_early (by omega)
    refine ⟨hb, h.caps, h.within, ?_, ?_, ?_, ?_, ?_, ?_, ?_⟩ <;>
      dsimp only [phase1] <;> intros <;> omega
  · rw [DoApplyAction_at2 h11 h12 hp] at happ
    cases happ
    rw [phaseMoves_blue (Or.inr (Or.inr hp)), mem_placementLoop] at hmem
    have hl := h.low_early (by omega)
    have hg := h.ground_early (by omega)
    refine ⟨hb, h.caps, h.within, ?_, ?_, ?_, ?_, ?_, ?_, ?_⟩ <;>
      dsimp only [phase2] <;> intros <;> omega
  · rw [DoApplyAction_at3 h11 h12 hp] at happ
    cases happ
    rw [phaseMoves_3 hp, mem_placementLoop] at hmem
    have hl := h.low_early (by omega)
    have hg := h.ground_early (by omega)
    have h6 := h.low_strike (by omega) (by omega)
    refine ⟨hb, h.caps, h.within, ?_, ?_, ?_, ?_, ?_, ?_, ?_⟩ <;>
      dsimp only [phase3] <;> intros <;> omega
  · rw [DoApplyAction_at4 h11 h12 hp] at happ
    cases happ
    rw [phaseMoves_4 hp, mem_placementLoop] at hmem
    have hl := h.low_early (by omega)
    have hg := h.ground_early (by omega)
    have h6 := h.low_strike (by omega) (by omega)
    have h14 := h.airbase (by omega) (by omega)
    have hz := h.base.pool.sam_early (by omega)
    have ha := h.base.attacking_early (by omega)
    refine ⟨hb, h.caps, h.within, ?_, ?_, ?_, ?_, ?_, ?_, ?_⟩
    · dsimp only [phase4]
      intro _
      omega
    · dsimp only [phase4]
      intro _
      omega
    · dsimp only [phase4]
      intro _ _
      omega
    · dsimp only [phase4]
      intro _ _
      omega
    · dsimp only [phase4]
      intro _ _
      omega
    · dsimp only [phase4]
      intro _ _ hc
      rw [ha] at hc
      exact Bool.noConfusion hc
    · dsimp only [phase4]
      intro hc
      omega
  · rw [DoApplyAction_at5 h11 h12 hp] at happ
    rw [phaseMoves_5 hp] at hmem
    have hph := (phase5_shrinks
      (fun hc ha hm => mem_LegalActions_phase5 hm0 hp hc ha hm) happ).1
    obtain ⟨k1, k2, k3, k4, k5, k6⟩ := phase5_cells happ (h.base.target5 hp)
      (fun hc ha => by
        have := mem_legal5_red_declare hmem hc ha
        omega)
    simp only [used, Prod.mk.injEq] at k1
    simp only [Board.ground, Prod.mk.injEq] at k2
    obtain ⟨u1, u2, u3, u4⟩ := k1
    obtain ⟨g10, g11, g12, g13, g14⟩ := k2
    have hl := h.low_early (by omega)
    have hg := h.ground_early (by omega)
    have h6 := h.low_strike (by omega) (by omega)
    have hs := h.sams (by omega) (by omega)
    have h14 := h.airbase (by omega) (by omega)
    have htl := h.target_low hp
    refine ⟨hb, hcaps, ?_, ?_, ?_, ?_, ?_, ?_, ?_, ?_⟩
    · rw [f3, f4, f5, f6, u1, u2, u3, u4]
      exact h.within
    · intro _
      omega
    · intro _
      omega
    · intro _ _
      by_cases hc : s.current_player_ = 0 ∧ s.is_attacking_ = false ∧ s.attacking_box_ = 6
      · have := htl hc.1 hc.2.1 hc.2.2
        omega
      · have := k5 hc
        omega
    · intro _ _
      omega
    · intro _ _
      omega
    · intro _ a1 a2 a3
      obtain ⟨b1, b2, b3⟩ := k6 a1 a2 a3
      have := mem_legal5_low_guard hmem b1 b2 b3
      have := k5 (fun hc => by omega)
      omega
    · intro hc
      omega
  · have hq := quota_kept (by omega) (by omega) hm0 (fun hc => absurd hc h12) happ
    rw [DoApplyAction_at6 h11 h12 hp] at happ
    cases happ
    rw [phaseMoves_6 hp] at hmem
    obtain ⟨-, g2, g3, g4⟩ := mem_legal6_guards hmem
    obtain ⟨k12, k13, k14, k11, k10, kd, kt⟩ := phase6_cells s m
      (fun hc ha => by
        have := g4 hc ha
        omega)
      (fun hc ha => by
        have := g3 hc ha
        omega)
    have hu := phase6_used s m
    simp only [used, Prod.mk.injEq] at hu
    obtain ⟨-, u2, u3, u4⟩ := hu
    have hph : (phase6 s m).current_phase_ = s.current_phase_ := (phase6_shrinks s m).1
    have hg := h.ground_early (by omega)
    have hs := h.sams (by omega) (by omega)
    have h14 := h.airbase (by omega) (by omega)
    have hts := h.target_sam hp
    refine ⟨hb, hcaps, ⟨hq.1 w1, hq.2.1 w2, hq.2.2.1 w3, hq.2.2.2 w4⟩, ?_, ?_, ?_, ?_, ?_,
      ?_, ?_⟩
    · intro hc
      omega
    · intro _
      omega
    · intro _ hc
      omega
    · intro _ _
      refine ⟨?_, by omega, by omega, by omega⟩
      by_cases hlt : (phase6 s m).board_.b10 < s.board_.b10
      · obtain ⟨d1, d2, d3⟩ := kd hlt
        rcases attacking_cases s with ha | ha
        · have := g2 (of_eq_true ha) d2
          omega
        · have ha2 : s.is_attacking_ = false := by
            simpa using of_eq_false ha
          rcases d3 with d3 | d3
          · exact absurd d3 (of_eq_false ha)
          · have := hts d1 ha2 d3
            omega
      · omega
    · intro _ _
      omega
    · intro hc
      omega
    · intro _ a1 a2 a3
      obtain ⟨b1, b2, b3, b4⟩ := kt a1 a2 a3
      have := g2 b2 b3
      omega
  · have hq := quota_kept (by omega) (by omega) hm0 (fun hc => absurd hc h12) happ
    rw [DoApplyAction_at7 h11 h12 hp] at happ
    have hph := (phase7_shrinks happ).1
    refine ⟨hb, hcaps, ⟨hq.1 w1, hq.2.1 w2, hq.2.2.1 w3, hq.2.2.2 w4⟩, ?_, ?_, ?_, ?_, ?_,
      ?_, ?_⟩ <;> intros <;> omega
  · have hq := quota_kept (by omega) (by omega) hm0 (fun hc => absurd hc h12) happ
    rw [DoApplyAction_at8 h11 h12 hp] at happ
    have hph := (phase8_shrinks happ).2
    refine ⟨hb, hcaps, ⟨hq.1 w1, hq.2.1 w2, hq.2.2.1 w3, hq.2.2.2 w4⟩, ?_, ?_, ?_, ?_, ?_,
      ?_, ?_⟩ <;> intros <;> omega
  · have hq := quota_kept (by omega) (by omega) hm0 (fun hc => absurd hc h12) happ
    rw [DoApplyAction_at9 h11 h12 hp] at happ
    have hph := (phase9_shrinks happ).1
    refine ⟨hb, hcaps, ⟨hq.1 w1, hq.2.1 w2, hq.2.2.1 w3, hq.2.2.2 w4⟩, ?_, ?_, ?_, ?_, ?_,
      ?_, ?_⟩ <;> intros <;> omega
  · omega

theorem ReachableZero.quotaInv {s : State} (h : ReachableZero s) : QuotaInv s := by
  induction h with
  | init => exact QuotaInv.atStart
  | step _ hst ih => exact ih.stepped hst

/-! ## The declarations of phase 5 and phase 6 -/

theorem mem_legal5_declare {s : State} {m : Int} (h : m ∈ legal5 s)
    (ha : s.is_attacking_ = true) (h12 : m ≠ 12) :
    (s.current_player_ = 0 ∧ m = 1)
    ∨ (s.current_player_ = 1 ∧ (m = 0 ∨ m = 1 ∨ m = 2)) := by
  rw [legal5_eq] at h
  rcases player_cases s with ⟨h0, h1⟩ | ⟨h0, h1⟩ | ⟨h0, h1⟩ <;>
    simp only [h0, h1, ha, if_true, if_false, pushIfEmpty, pushIf] at h <;>
    split_ifs at h <;> simp at h <;> simp_all <;> omega

theorem mem_legal6_declare {s : State} {m : Int} (h : m ∈ legal6 s)
    (ha : s.is_attacking_ = true) (h12 : m ≠ 12) :
    (s.current_player_ = 0 ∨ s.current_player_ = 1) ∧ (m = 0 ∨ m = 1) := by
  rw [legal6_eq] at h
  rcases player_cases s with ⟨h0, h1⟩ | ⟨h0, h1⟩ | ⟨h0, h1⟩ <;>
    simp only [h0, h1, ha, if_true, if_false, pushIf] at h <;>
    split_ifs at h <;> simp at h <;> simp_all

/-- Every declaration of phase 5 and phase 6 hands the move to the other
player, takes one attacker from its attacking cell to its evading cell and
writes the target as in `DeclareTable`; it clears `is_attacking_` unless it is
the AAA declaration of Red in phase 6. -/
theorem declare_effect (i : Int) (s : State) (m : Int)
    (hp : s.current_phase_ = 5 ∨ s.current_phase_ = 6) (ha : s.is_attacking_ = true)
    (hm : m ∈ LegalActions i s) (h11 : m ≠ 11) (h12 : m ≠ 12) :
    ∃ t, DoApplyAction s m = .ok t
      ∧ t.current_player_ = 1 - s.current_player_
      ∧ (t.is_attacking_ = false ↔
          ¬ (s.current_phase_ = 6 ∧ s.current_player_ = 1 ∧ m = 1))
      ∧ ∃ c, DeclareTable s.current_phase_ s.current_player_ m c t.attacking_box_
        ∧ s.board_.flip c = some t.board_ := by
  obtain ⟨-, hmem⟩ := mem_LegalActions hm
  have hmem : m ∈ phaseMoves i s := by
    rcases hmem with hmem | ⟨_, hmem⟩
    · exact hmem
    · exact absurd hmem h11
  rcases hp with hp | hp
  · rw [phaseMoves_5 hp] at hmem
    rw [DoApplyAction_at5 h11 h12 hp]
    have hn : ¬ s.current_phase_ = 6 := by omega
    have h5 : ∀ u : State, (s.current_player_ = 0 → u = phase5BlueDeclare s m) →
        (s.current_player_ = 1 → u = phase5RedDeclare s m) →
        phase5 s m = .ok { u with num_moves_ := u.num_moves_ + 1 } := by
      intro u hb hr
      unfold phase5
      by_cases h0 : s.current_player_ = 0
      · rw [if_pos h0, if_pos ha, hb h0]
        rfl
      · have h1 : s.current_player_ = 1 := by
          rcases mem_legal5_declare hmem ha h12 with ⟨hc, -⟩ | ⟨hc, -⟩
          · exact absurd hc h0
          · exact hc
        rw [if_neg h0, if_pos h1, if_pos ha, hr h1]
        rfl
    rcases mem_legal5_declare hmem ha h12 with ⟨hc, rfl⟩ | ⟨hc, rfl | rfl | rfl⟩
    · refine ⟨_, h5 _ (fun _ => rfl) (fun h1 => by omega), ?_, ?_, 0, ?_, ?_⟩
      all_goals simp [phase5BlueDeclare, DeclareTable, hc, hp, Board.flip, Board.addAt]
      omega
    · refine ⟨_, h5 _ (fun h0 => by omega) (fun _ => rfl), ?_, ?_, 8, ?_, ?_⟩
      all_goals simp [phase5RedDeclare, DeclareTable, hc, hp, Board.flip, Board.addAt]
      omega
    · refine ⟨_, h5 _ (fun h0 => by omega) (fun _ => rfl), ?_, ?_, 8, ?_, ?_⟩
      all_goals simp [phase5RedDeclare, DeclareTable, hc, hp, Board.flip, Board.addAt]
      omega
    · refine ⟨_, h5 _ (fun h0 => by omega) (fun _ => rfl), ?_, ?_, 8, ?_, ?_⟩
      all_goals simp [phase5RedDeclare, DeclareTable, hc, hp, Board.flip, Board.addAt]
      omega
  · rw [phaseMoves_6 hp] at hmem
    rw [DoApplyAction_at6 h11 h12 hp]
    obtain ⟨hc | hc, rfl | rfl⟩ := mem_legal6_declare hmem ha h12
    · refine ⟨_, rfl, ?_, ?_, 4, ?_, ?_⟩
      all_goals
        simp [phase6, phase6BlueDeclare, DeclareTable, hc, ha, hp, Board.flip, Board.addAt]
      omega
    · refine ⟨_, rfl, ?_, ?_, 4, ?_, ?_⟩
      all_goals
        simp [phase6, phase6BlueDeclare, DeclareTable, hc, ha, hp, Board.flip, Board.addAt]
      omega
    · refine ⟨_, rfl, ?_, ?_, 10, ?_, ?_⟩
      all_goals
        simp [phase6, phase6RedDeclare, DeclareTable, hc, ha, hp, Board.flip, Board.addAt]
      omega
    · refine ⟨_, rfl, ?_, ?_, 16, ?_, ?_⟩
      all_goals
        simp [phase6, phase6RedDeclare, DeclareTable, hc, ha, hp, Board.flip, Board.addAt]
      omega

/-- C22: on a declare sub-turn of phase 5 or 6 every legal move other than 11
and 12 is applied, hands the move to the other player, takes one attacker from
its attacking cell `c` to the evading cell `c + 1` and writes the target to
`attacking_box_` (the eight cases of `DeclareTable`); `is_attacking_` is
cleared by every declaration except the AAA declaration of Red in phase 6
(move `1`), which leaves it set.  On the legal play `aaaTurn` that move is the
only legal one; after it `attacking_box_ = 6`, one AAA unit has gone from cell
16 to cell 17, `is_attacking_` is still set, Blue is to move and has no move
but the pass `11`: the attack is never answered. -/
theorem C22_declare_clears_flag_except_aaa :
    (∀ (i : Int) (s : State) (m : Int),
      (s.current_phase_ = 5 ∨ s.current_phase_ = 6) → s.is_attacking_ = true →
      m ∈ LegalActions i s → m ≠ 11 → m ≠ 12 →
      ∃ t, DoApplyAction s m = .ok t
        ∧ t.current_player_ = 1 - s.current_player_
        ∧ (t.is_attacking_ = false ↔
            ¬ (s.current_phase_ = 6 ∧ s.current_player_ = 1 ∧ m = 1))
        ∧ ∃ c, DeclareTable s.current_phase_ s.current_player_ m c t.attacking_box_
          ∧ s.board_.flip c = some t.board_)
    ∧ (playFrom NewInitialState aaaTurn).map
        (fun s => (s.current_phase_, s.current_player_, s.is_attacking_, LegalActions 0 s))
        = some (6, 1, true, [1])
    ∧ (playFrom NewInitialState (aaaTurn ++ [1])).map
        (fun s => (s.attacking_box_, s.board_.b16, s.board_.b17, s.is_attacking_,
          s.current_player_))
        = some (6, 3, 1, true, 0)
    ∧ (playFrom NewInitialState (aaaTurn ++ [1])).map (fun s => LegalActions 0 s)
        = some [11] := by
  refine ⟨declare_effect, ?_, ?_, ?_⟩ <;> decide

/-- When every placement loop counter starts at `0`, no attack counter exceeds
its cap in a state reached by legal play; and in any state of phase 6, 7, 8 or
9, reached or not, a legal move other than move `12` in phase 6 or phase 9
keeps each of the four inequalities that holds before it. -/
theorem quotas_never_exceeded_zero_start :
    (∀ s : State, ReachableZero s →
      s.low_strike_attacks_ ≤ s.max_low_strike_attacks_
      ∧ s.active_sam_attacks_ ≤ s.max_active_sam_attacks_
      ∧ s.passive_sam_attacks_ ≤ s.max_passive_sam_attacks_
      ∧ s.airbase_attacks_ ≤ s.max_airbase_attacks_)
    ∧ (∀ (i : Int) (s t : State) (m : Int),
      6 ≤ s.current_phase_ → s.current_phase_ ≤ 9 → m ∈ LegalActions i s →
      (m = 12 → s.current_phase_ = 7 ∨ s.current_phase_ = 8) →
      DoApplyAction s m = .ok t →
      (s.low_strike_attacks_ ≤ s.max_low_strike_attacks_ →
        t.low_strike_attacks_ ≤ t.max_low_strike_attacks_)
      ∧ (s.active_sam_attacks_ ≤ s.max_active_sam_attacks_ →
        t.active_sam_attacks_ ≤ t.max_active_sam_attacks_)
      ∧ (s.passive_sam_attacks_ ≤ s.max_passive_sam_attacks_ →
        t.passive_sam_attacks_ ≤ t.max_passive_sam_attacks_)
      ∧ (s.airbase_attacks_ ≤ s.max_airbase_attacks_ →
        t.airbase_attacks_ ≤ t.max_airbase_attacks_)) :=
  ⟨fun _ hr => hr.quotaInv.within,
    fun _ _ _ _ hp6 hp9 hm hx h => quota_kept hp6 hp9 hm hx h⟩

/-- The lemma `quotas_never_exceeded_zero_start` at the end of `quietWave`, a
state of legal play, and at the first move of phase 7 after `strikeOpening`,
the legal attack `0` on the Airbase. -/
theorem quotas_never_exceeded_at_quietWaveEnd :
    (quietWaveEnd.low_strike_attacks_ ≤ quietWaveEnd.max_low_strike_attacks_
      ∧ quietWaveEnd.active_sam_attacks_ ≤ quietWaveEnd.max_active_sam_attacks_
      ∧ quietWaveEnd.passive_sam_attacks_ ≤ quietWaveEnd.max_passive_sam_attacks_
      ∧ quietWaveEnd.airbase_attacks_ ≤ quietWaveEnd.max_airbase_attacks_)
    ∧ ∃ t, DoApplyAction (playEnd NewInitialState strikeOpening) 0 = .ok t
      ∧ t.airbase_attacks_ ≤ t.max_airbase_attacks_ := by
  refine ⟨quotas_never_exceeded_zero_start.1 quietWaveEnd quietWaveEnd_fromZero, ?_⟩
  obtain ⟨t, ht, -⟩ :=
    phase7_settles (playEnd NewInitialState strikeOpening) 0 (by decide) (by decide)
  rw [← DoApplyAction_at7 (by decide) (by decide) (by decide)] at ht
  exact ⟨t, ht,
    (quotas_never_exceeded_zero_start.2 0 _ t 0 (by decide) (by decide) (by decide)
      (fun hc => absurd hc (by decide)) ht).2.2.2 (by decide)⟩

/-- C23, the code on a legal play: `negativeSam` is legal play to a state of
phase 6 whose only legal move is `12`, with every attack counter and every cap
at 0, so that the four inequalities hold.  Move `12` sets the cap
`max_active_sam_attacks_` to `board_[10] + board_[11] = -2`, below the counter
`active_sam_attacks_ = 0`: the inequality of the Active SAMs holds before the
move and fails after it. -/
theorem C23_cap_below_counter :
    Reachable (playWithEnd NewInitialState negativeSam)
    ∧ (playWith NewInitialState negativeSam).map
        (fun s => (s.current_phase_, LegalActions 0 s, s.board_.b10,
          [(s.low_strike_attacks_, s.max_low_strike_attacks_),
            (s.active_sam_attacks_, s.max_active_sam_attacks_),
            (s.passive_sam_attacks_, s.max_passive_sam_attacks_),
            (s.airbase_attacks_, s.max_airbase_attacks_)]))
        = some (6, [12], -2, [(0, 0), (0, 0), (0, 0), (0, 0)])
    ∧ (playWith NewInitialState (negativeSam ++ [(0, 12)])).map
        (fun t => (t.current_phase_,
          [(t.low_strike_attacks_, t.max_low_strike_attacks_),
            (t.active_sam_attacks_, t.max_active_sam_attacks_),
            (t.passive_sam_attacks_, t.max_passive_sam_attacks_),
            (t.airbase_attacks_, t.max_airbase_attacks_)]))
        = some (7, [(0, 0), (0, -2), (0, 6), (0, 4)]) :=
  ⟨Reachable.ofPlayWith negativeSam Reachable.init (by decide), by decide, by decide⟩

/-- When every placement loop counter starts at `0`: from a state reached by
legal play every legal move, move `12` included, leads to a state in which no
attack counter exceeds its cap. -/
theorem quotas_kept_zero_start (s t : State) (m : Int) (hr : ReachableZero s)
    (hm : m ∈ LegalActions 0 s) (happ : DoApplyAction s m = .ok t) :
    t.low_strike_attacks_ ≤ t.max_low_strike_attacks_
    ∧ t.active_sam_attacks_ ≤ t.max_active_sam_attacks_
    ∧ t.passive_sam_attacks_ ≤ t.max_passive_sam_attacks_
    ∧ t.airbase_attacks_ ≤ t.max_airbase_attacks_ :=
  (ReachableZero.step hr ⟨m, hm, happ⟩).quotaInv.within

/-! ## The answers of Blue in phase 6 -/

theorem playEnd_reachable {s : State} (ms : List Int) (hs : Reachable s) :
    Reachable (playEnd s ms) := by
  unfold playEnd
  cases h : playFrom s ms with
  | none => exact hs
  | some t => exact Reachable.playFrom ms hs h

/-- Whatever the move, phase 6 leaves Blue on an answer only after the
declaration `0` of Red, which writes 2 to `attacking_box_`. -/
theorem phase6_answer (s : State) (m : Int) :
    (phase6 s m).current_player_ = 0 → (phase6 s m).is_attacking_ = false →
      (phase6 s m).attacking_box_ = 2 := by
  unfold phase6 phase6BlueDeclare phase6BlueResolve phase6RedDeclare phase6RedResolve
    phase6HighStrikeLost
  dsimp only
  split_ifs <;> simp_all

/-- Phase 6 writes `blue_hits_` and `red_points_` in the answers of Blue
only. -/
theorem phase6_damage (s : State) (m : Int)
    (h : (phase6 s m).blue_hits_ ≠ s.blue_hits_ ∨ (phase6 s m).red_points_ ≠ s.red_points_) :
    s.current_player_ = 0 ∧ s.is_attacking_ = false
    ∧ (m = 0 ∨ m = 1 ∨ m = 2 ∨ m = 3) := by
  revert h
  unfold phase6 phase6BlueDeclare phase6BlueResolve phase6RedDeclare phase6RedResolve
    phase6HighStrikeLost
  dsimp only
  split_ifs <;> simp_all

theorem mem_legal6_three {s : State} (h : 3 ∈ legal6 s) :
    s.current_player_ = 0 ∧ s.is_attacking_ = false ∧ s.attacking_box_ = 6 := by
  rw [legal6_eq] at h
  rcases player_cases s with ⟨h0, h1⟩ | ⟨h0, h1⟩ | ⟨h0, h1⟩ <;>
    rcases attacking_cases s with ha | ha <;>
    simp only [h0, h1, ha, if_true, if_false, pushIf] at h <;>
    split_ifs at h <;> simp at h <;> simp_all

theorem AnswersSam.kept {s t : State} (h : AnswersSam s) (hst : Step s t) :
    AnswersSam t := by
  obtain ⟨i, m, -, happ⟩ := hst
  by_cases h11 : m = 11
  · subst h11
    unfold DoApplyAction applyPass at happ
    rw [if_pos rfl] at happ
    dsimp only at happ
    split_ifs at happ
    cases happ
    intro _ _ hc
    exact Bool.noConfusion hc
  by_cases h12 : m = 12
  · subst h12
    have e := DoApplyAction_advance happ
    subst e
    by_cases h9 : s.current_phase_ = 9
    · obtain ⟨o, ho⟩ := applyAdvance_of_eq9 h9
      rw [ho]
      intro _ _ hc
      exact Bool.noConfusion hc
    · obtain ⟨o, ml, ma, mp, mb, ho⟩ := applyAdvance_of_ne9 h9
      rw [ho]
      intro _ _ hc
      exact Bool.noConfusion hc
  rcases phase_cases s with hp | hp | hp | hp | hp | hp | hp | hp | hp | hp | hp
  · rw [DoApplyAction_at0 h11 h12 hp] at happ
    cases happ
    intro hc
    dsimp only [phase0] at hc
    omega
  · rw [DoApplyAction_at1 h11 h12 hp] at happ
    cases happ
    intro hc
    dsimp only [phase1] at hc
    omega
  · rw [DoApplyAction_at2 h11 h12 hp] at happ
    cases happ
    intro hc
    dsimp only [phase2] at hc
    omega
  · rw [DoApplyAction_at3 h11 h12 hp] at happ
    cases happ
    intro hc
    dsimp only [phase3] at hc
    omega
  · rw [DoApplyAction_at4 h11 h12 hp] at happ
    cases happ
    intro hc
    dsimp only [phase4] at hc
    omega
  · rw [DoApplyAction_at5 h11 h12 hp] at happ
    have hph := phase5_phase happ
    intro hc
    omega
  · rw [DoApplyAction_at6 h11 h12 hp] at happ
    cases happ
    intro _
    exact phase6_answer s m
  · rw [DoApplyAction_at7 h11 h12 hp] at happ
    have hph := (phase7_shrinks happ).1
    intro hc
    omega
  · rw [DoApplyAction_at8 h11 h12 hp] at happ
    have hph := (phase8_shrinks happ).2
    intro hc
    omega
  · rw [DoApplyAction_at9 h11 h12 hp] at happ
    have hph := (phase9_shrinks happ).1
    intro hc
    omega
  · rw [DoApplyAction_no_case h11 h12 hp] at happ
    cases happ
    exact h

theorem Reachable.answersSam {s : State} (h : Reachable s) : AnswersSam s := by
  induction h with
  | init =>
    intro hc
    exact absurd hc (by decide)
  | step _ hst ih => exact ih.kept hst

/-- C31: in every state of phase 6 reached by legal play in which Blue is to
answer (`current_player_ = 0`, `is_attacking_ = false`) the target cell
`attacking_box_` is 2, High Strike.  Hence no state of phase 6 reached by legal
play has move `3`, the answer of Low Strike to AAA, among its legal moves,
whatever the placement loop counter starts from.  The AAA declaration of Red
(move `1` of Red in phase 6 with `is_attacking_` set) is always applied, leaves
`blue_hits_` and `red_points_` as they were and leaves Blue on a declare
sub-turn; and along legal play a move of phase 6 changes `blue_hits_` or
`red_points_` only as the answer `0`, `1` or `2` of Blue to an attack on
`board_[2]`. -/
theorem C31_aaa_never_answered :
    (∀ s : State, Reachable s → s.current_phase_ = 6 → s.current_player_ = 0 →
      s.is_attacking_ = false → s.attacking_box_ = 2)
    ∧ (∀ (i : Int) (s : State), Reachable s → s.current_phase_ = 6 →
      3 ∉ LegalActions i s)
    ∧ (∀ s : State, s.current_phase_ = 6 → s.current_player_ = 1 →
      s.is_attacking_ = true →
      ∃ t, DoApplyAction s 1 = .ok t
        ∧ t.blue_hits_ = s.blue_hits_ ∧ t.red_points_ = s.red_points_
        ∧ t.current_player_ = 0 ∧ t.is_attacking_ = true)
    ∧ (∀ (i : Int) (s t : State) (m : Int), Reachable s → s.current_phase_ = 6 →
      m ∈ LegalActions i s → DoApplyAction s m = .ok t →
      (t.blue_hits_ ≠ s.blue_hits_ ∨ t.red_points_ ≠ s.red_points_) →
      s.current_player_ = 0 ∧ s.is_attacking_ = false ∧ s.attacking_box_ = 2
      ∧ (m = 0 ∨ m = 1 ∨ m = 2)) := by
  have hthree : ∀ (i : Int) (s : State), Reachable s → s.current_phase_ = 6 →
      3 ∉ LegalActions i s := by
    intro i s hr hp hm
    obtain ⟨-, hmem⟩ := mem_LegalActions hm
    rcases hmem with hmem | ⟨-, hmem⟩
    · rw [phaseMoves_6 hp] at hmem
      obtain ⟨hc, ha, hb⟩ := mem_legal6_three hmem
      have := hr.answersSam hp hc ha
      omega
    · exact absurd hmem (by decide)
  refine ⟨fun s hr => hr.answersSam, hthree, ?_, ?_⟩
  · intro s hp hc ha
    have h0 : ¬ s.current_player_ = 0 := by omega
    rw [DoApplyAction_at6 (by decide) (by decide) hp]
    refine ⟨_, rfl, ?_, ?_, ?_, ?_⟩ <;>
      simp [phase6, phase6RedDeclare, h0, hc, ha]
  · intro i s t m hr hp hm happ hd
    by_cases h11 : m = 11
    · subst h11
      unfold DoApplyAction applyPass at happ
      rw [if_pos rfl] at happ
      dsimp only at happ
      split_ifs at happ
      cases happ
      rcases hd with hd | hd <;> exact absurd rfl hd
    by_cases h12 : m = 12
    · subst h12
      have e := DoApplyAction_advance happ
      subst e
      obtain ⟨o, ml, ma, mp, mb, ho⟩ := @applyAdvance_of_ne9 s (by omega)
      rw [ho] at hd
      rcases hd with hd | hd <;> exact absurd rfl hd
    rw [DoApplyAction_at6 h11 h12 hp] at happ
    cases happ
    obtain ⟨hc, ha, hmv⟩ := phase6_damage s m hd
    have hb := hr.answersSam hp hc ha
    refine ⟨hc, ha, hb, ?_⟩
    have h3 : m ≠ 3 := by
      intro h3
      subst h3
      exact hthree i s hr hp hm
    omega

/-- C31 on two legal plays: after `samTurn` Blue is to answer in phase 6, the
target cell is 2 and the legal moves are `[0, 1]`; after `aaaTurn` the AAA
declaration of Red leaves `blue_hits_` and `red_points_` at 0. -/
theorem C31_aaa_never_answered_witness :
    (playEnd NewInitialState samTurn).attacking_box_ = 2
    ∧ LegalActions 0 (playEnd NewInitialState samTurn) = [0, 1]
    ∧ 3 ∉ LegalActions 0 (playEnd NewInitialState samTurn)
    ∧ ∃ t, DoApplyAction (playEnd NewInitialState aaaTurn) 1 = .ok t
      ∧ t.blue_hits_ = 0 ∧ t.red_points_ = 0 := by
  have hr := playEnd_reachable samTurn Reachable.init
  refine ⟨C31_aaa_never_answered.1 _ hr (by decide) (by decide) (by decide), by decide,
    C31_aaa_never_answered.2.1 0 _ hr (by decide), ?_⟩
  obtain ⟨t, h1, h2, h3, -⟩ :=
    C31_aaa_never_answered.2.2.1 (playEnd NewInitialState aaaTurn) (by decide) (by decide)
      (by decide)
  exact ⟨t, h1, h2.trans (by decide), h3.trans (by decide)⟩

end CounterAir
